import Mathlib

/-!
# GymGarage cart, checkout and order completion

A shallow embedding of the cart/checkout functions of `src/server/database.js`
and of the order routes of `src/server/app.js`, with the Supabase tables as
lists of rows and every Supabase call as an explicit step that may report an
error.
-/

namespace GymGarage

/-! ## JavaScript numbers -/

/-- Round the non-negative rational `a / b` to the nearest integer, ties to the even one. -/
def roundHalfEven (a b : Nat) : Nat :=
  let m := a / b
  let r := a % b
  if 2 * r < b then m
  else if b < 2 * r then m + 1
  else if m % 2 = 0 then m else m + 1

/-- Number of binary digits of `n`, by repeated halving (`fuel` bounds the number of
halvings; `bitLength` supplies enough). -/
def bitLengthAux : Nat → Nat → Nat
  | 0, _ => 0
  | fuel + 1, n => if n = 0 then 0 else bitLengthAux fuel (n / 2) + 1

/-- Number of binary digits of `n` (0 for 0). -/
def bitLength (n : Nat) : Nat := bitLengthAux n n

/-- A JavaScript number: a finite value (a rational; arithmetic only ever produces
binary64 values), or a non-finite one (`Infinity`, `-Infinity`, `NaN`), which `+` and
`*` propagate. The two zeros are identified. -/
inductive JSNum where
  | fin (q : ℚ)
  | nonFinite
  deriving DecidableEq

/-- IEEE-754 binary64 round-to-nearest-even of the non-negative rational `a / b`, in units
of `2^-1074` (the smallest subnormal): 53 significant bits, so a value whose integer part
in these units has `L > 53` bits is rounded to a multiple of `2^(L-53)` units. -/
def roundUnits (a b : Nat) : Nat :=
  let s := bitLength (a * 2 ^ 1074 / b) - 53
  roundHalfEven (a * 2 ^ 1074) (b * 2 ^ s) * 2 ^ s

/-- The binary64 value nearest to a rational; magnitudes that round to `2^1024` or more
overflow to a non-finite value. -/
def jsRound (q : ℚ) : JSNum :=
  let u := roundUnits q.num.natAbs q.den
  if 2 ^ 2098 ≤ u then JSNum.nonFinite
  else JSNum.fin ((if q.num < 0 then -(u : ℚ) else (u : ℚ)) / 2 ^ 1074)

/-- JavaScript `a + b` on numbers. -/
def jsAdd : JSNum → JSNum → JSNum
  | JSNum.fin a, JSNum.fin b => jsRound (a + b)
  | _, _ => JSNum.nonFinite

/-- JavaScript `a * b` on numbers. -/
def jsMul : JSNum → JSNum → JSNum
  | JSNum.fin a, JSNum.fin b => jsRound (a * b)
  | _, _ => JSNum.nonFinite

/-- JavaScript `a + b` on two integers, as the JSON body of a request carries it: the
binary64 sum, an integer again (`jsAddInt_eq_jsAdd`); `none` stands for the `null` that
JSON writes for a sum beyond the binary64 range (`Infinity`). -/
@[irreducible] def jsAddInt (a b : Int) : Option Int :=
  match jsAdd (JSNum.fin a) (JSNum.fin b) with
  | JSNum.fin sum => some ⌊sum⌋
  | JSNum.nonFinite => none

/-! ## Tables

Rows as the Supabase client delivers them. Identifiers, quantities and stock are integers;
prices are finite JavaScript numbers; text columns are strings; `created_at` is the clock
reading passed to the store. The quantity sum of `addItemToCart` is rounded to binary64
(`jsAddInt`); the stock difference of the complete-order route is taken on the integers,
as JavaScript computes it for stocks and quantities of magnitude below `2^53`. -/

structure Product where
  id : Nat
  name : String
  image_url : String
  original_price : ℚ
  /-- Null when the product has no discounted price. -/
  discounted_price : Option ℚ
  stock : Int
  deriving DecidableEq

structure Cart where
  id : Nat
  user_id : Nat
  status : String
  created_at : Nat
  deriving DecidableEq

structure CartItem where
  id : Nat
  cart_id : Nat
  product_id : Nat
  quantity : Int
  price : ℚ
  deriving DecidableEq

structure Order where
  id : Nat
  user_id : Nat
  total_price : JSNum
  status : String
  created_at : Nat
  deriving DecidableEq

structure OrderItem where
  id : Nat
  order_id : Nat
  product_id : Nat
  quantity : Int
  price : ℚ
  deriving DecidableEq

/-- The tables the cart, checkout and order-completion code reads and writes. -/
structure Store where
  products : List Product
  carts : List Cart
  cart_items : List CartItem
  orders : List Order
  order_items : List OrderItem
  deriving DecidableEq

/-! ## The Supabase client -/

/-- The `error` object of a Supabase response. -/
structure PgError where
  code : String
  message : String
  deriving DecidableEq

/-- The `{ data, error }` pair a Supabase call resolves to. -/
structure DbResult (α : Type) where
  data : Option α
  error : Option PgError

/-- What `.single()` reports when the filter matches no row or several rows. -/
def pgrst116 : PgError :=
  ⟨"PGRST116", "JSON object requested, multiple (or no) rows returned"⟩

/-- What a call reports when the store itself fails (transport, constraint). -/
def storageError : PgError := ⟨"08006", "connection failure"⟩

/-- The store, the storage failures still to come (one flag per Supabase call, in call
order; `true` means that call reports `storageError` and has no effect; calls beyond the
end of the list succeed) and the clock read by `new Date()`. -/
structure World where
  db : Store
  faults : List Bool
  clock : Nat
  deriving DecidableEq

/-- Whether the next Supabase call reports a storage failure. -/
def World.failing (w : World) : Bool := w.faults.headD false

/-- The world once the flag of the next Supabase call is consumed. -/
def World.advance (w : World) : World := { w with faults := w.faults.tail }

/-- The world with its store replaced. -/
def World.setDb (w : World) (db : Store) : World := { w with db := db }

/-- A select that returns all matching rows. -/
def selectRows {α : Type} (q : Store → List α) (w : World) : DbResult (List α) × World :=
  if w.failing then (⟨none, some storageError⟩, w.advance)
  else (⟨some (q w.db), none⟩, w.advance)

/-- A select ending in `.single()`: the row when exactly one matches, error `PGRST116`
otherwise. -/
def selectSingle {α : Type} (q : Store → List α) (w : World) : DbResult α × World :=
  if w.failing then (⟨none, some storageError⟩, w.advance)
  else match q w.db with
    | [row] => (⟨some row, none⟩, w.advance)
    | _ => (⟨none, some pgrst116⟩, w.advance)

/-- An insert, update or delete whose rows are not read back: `error` only. -/
def execute (f : Store → Store) (w : World) : Option PgError × World :=
  if w.failing then (some storageError, w.advance)
  else (none, w.advance.setDb (f w.db))

/-- The identifier the database gives a new row: above every identifier in the table. -/
def nextId (ids : List Nat) : Nat := ids.foldr max 0 + 1

/-- Give consecutive identifiers from `start` on to rows that still lack one. -/
def assignIds {α : Type} : Nat → List (Nat → α) → List α
  | _, [] => []
  | start, mk :: rest => mk start :: assignIds (start + 1) rest

/-- The insert of one row followed by `.select().single()`: the stored row comes back. -/
def insertReturning {α : Type} (ids : Store → List Nat) (mk : Nat → α)
    (put : Store → α → Store) (w : World) : DbResult α × World :=
  if w.failing then (⟨none, some storageError⟩, w.advance)
  else (⟨some (mk (nextId (ids w.db))), none⟩,
        w.advance.setDb (put w.db (mk (nextId (ids w.db)))))

/-- A thrown JavaScript error: `new Error(message)` has no `code`, a rethrown Supabase
error keeps its own. -/
structure JsError where
  message : String
  code : Option String
  deriving DecidableEq

/-- The value of `new Error(message)`. -/
def JsError.new (message : String) : JsError := ⟨message, none⟩

/-- A Supabase error thrown as it is. -/
def JsError.ofPg (e : PgError) : JsError := ⟨e.message, some e.code⟩

/-- What reading `.id` of `null` throws. -/
def nullIdError : JsError := JsError.new "Cannot read properties of null (reading 'id')"

/-! ## `src/server/database.js` -/

/-- The user's pending carts, as the `carts` query of `getUserCart` and `checkoutCart`
filters them. -/
def pendingCarts (userId : Nat) (db : Store) : List Cart :=
  db.carts.filter (fun c => c.user_id = userId && c.status = "pending")

/-- The lines of a cart, in table order. -/
def cartLines (cartId : Nat) (db : Store) : List CartItem :=
  db.cart_items.filter (fun i => i.cart_id = cartId)

/-- The function `getUserCart(userId)`: the pending cart when `.single()` finds it; a newly inserted
pending cart when `.single()` reports `PGRST116`; any other error is thrown. The result
is the `data` of the last call (`null` is `none`). -/
def getUserCart (userId : Nat) (w : World) : Except JsError (Option Cart) × World :=
  let (found, w1) := selectSingle (pendingCarts userId) w
  -- Allow 'No Rows Found' error
  match found.error.filter (fun cartError => cartError.code ≠ "PGRST116") with
  | some cartError => (.error (JsError.ofPg cartError), w1)
  | none =>
    match found.data with
    -- Return existing pending cart if found
    | some cart => (.ok (some cart), w1)
    -- Create new pending cart if none exists
    | none =>
      let (created, w2) := insertReturning (fun db => db.carts.map (fun c => c.id))
        (fun id => ({ id := id, user_id := userId, status := "pending",
                      created_at := w1.clock } : Cart))
        (fun db row => { db with carts := db.carts ++ [row] }) w1
      match created.error with
      | some newCartError => (.error (JsError.ofPg newCartError), w2)
      | none => (.ok created.data, w2)

/-- The embedded `products:product_id(name, discounted_price, original_price, image_url)`. -/
structure ProductSummary where
  name : String
  discounted_price : Option ℚ
  original_price : ℚ
  image_url : String
  deriving DecidableEq

/-- A row of the `cart_items` select of `getCartItems`. -/
structure CartItemView where
  id : Nat
  quantity : Int
  product_id : Nat
  products : Option ProductSummary
  deriving DecidableEq

/-- The `getCartItems` select for one cart. -/
def cartItemViews (cartId : Nat) (db : Store) : List CartItemView :=
  (cartLines cartId db).map (fun i =>
    { id := i.id, quantity := i.quantity, product_id := i.product_id,
      products := (db.products.find? (fun p => p.id = i.product_id)).map (fun p =>
        { name := p.name, discounted_price := p.discounted_price,
          original_price := p.original_price, image_url := p.image_url }) })

/-- The function `getCartItems(userId)`: resolves the cart with `getUserCart`, then selects its lines;
the result is the `data` of that select. -/
def getCartItems (userId : Nat) (w : World) :
    Except JsError (Option (List CartItemView)) × World :=
  match getUserCart userId w with
  | (.error e, w1) => (.error e, w1)
  | (.ok none, w1) => (.error nullIdError, w1)
  | (.ok (some cart), w1) =>
    let (items, w2) := selectRows (cartItemViews cart.id) w1
    if items.error.isSome then (.error (JsError.new "Failed to fetch cart items"), w2)
    else (.ok items.data, w2)

/-- The `reduce` of `checkoutCart`: `sum + item.quantity * item.price`, from 0, left to
right, in JavaScript number arithmetic. -/
def cartTotal (cartItems : List CartItem) : JSNum :=
  cartItems.foldl
    (fun sum item => jsAdd sum (jsMul (JSNum.fin item.quantity) (JSNum.fin item.price)))
    (JSNum.fin 0)

/-- The rows `checkoutCart` inserts into `order_items`, still without identifiers. -/
def orderItemsOf (orderId : Nat) (cartItems : List CartItem) : List (Nat → OrderItem) :=
  cartItems.map (fun item id =>
    { id := id, order_id := orderId, product_id := item.product_id,
      quantity := item.quantity, price := item.price })

/-- The object `checkoutCart` returns. -/
structure CheckoutResult where
  message : String
  orderId : Nat
  deriving DecidableEq

/-- The function `checkoutCart(userId)`: the user's single pending cart and its lines are
fetched, the total computed, the order and then its items inserted, and last the cart's
lines deleted and its status set to 'checked_out'. -/
def checkoutCart (userId : Nat) (w : World) : Except JsError CheckoutResult × World :=
  -- Fetch user's pending cart
  let (fetched, w1) := selectSingle (pendingCarts userId) w
  if fetched.error.isSome then (.error (JsError.new "Failed to fetch cart."), w1)
  else match fetched.data with
  | none => (.error (JsError.new "No pending cart found."), w1)
  | some cart =>
    -- Fetch cart items
    let (items, w2) := selectRows (cartLines cart.id) w1
    if items.error.isSome then (.error (JsError.new "Failed to fetch cart items."), w2)
    else match items.data with
    | none => (.error (JsError.new "Cart is empty."), w2)
    | some [] => (.error (JsError.new "Cart is empty."), w2)
    | some (first :: more) =>
      let cartItems := first :: more
      -- Calculate total price
      let totalPrice := cartTotal cartItems
      -- Insert new order
      let (inserted, w3) := insertReturning (fun db => db.orders.map (fun o => o.id))
        (fun id => ({ id := id, user_id := userId, total_price := totalPrice,
                      status := "pending", created_at := w2.clock } : Order))
        (fun db row => { db with orders := db.orders ++ [row] }) w2
      if inserted.error.isSome then (.error (JsError.new "Failed to create order."), w3)
      else match inserted.data with
      | none =>
        (.error (JsError.new "Order data is null. Insert operation might have failed."), w3)
      | some order =>
        -- Transfer cart items to order_items
        let (orderItemError, w4) := execute (fun db =>
          { db with order_items := (db.order_items ++
              assignIds (nextId (db.order_items.map (fun i => i.id)))
                (orderItemsOf order.id cartItems)) }) w3
        match orderItemError with
        | some e =>
          (.error (JsError.new ("Failed to insert order items. " ++ e.message)), w4)
        | none =>
          -- Clear cart and update status (neither result is looked at)
          let (_, w5) := execute (fun db =>
            { db with cart_items := db.cart_items.filter (fun i => ¬ i.cart_id = cart.id) }) w4
          let (_, w6) := execute (fun db =>
            { db with carts := db.carts.map (fun c =>
                if c.id = cart.id then { c with status := "checked_out" } else c) }) w5
          (.ok { message := "Checkout successful", orderId := order.id }, w6)

/-- JavaScript `a || b` for a nullable number `a` and a number `b`: `a` unless it is
`null` or 0. -/
def jsOr (a : Option ℚ) (b : ℚ) : ℚ :=
  match a with
  | some x => if x = 0 then b else x
  | none => b

/-- The lines of a cart for one product: the `cart_items` query of `addItemToCart`. -/
def productLines (cartId productId : Nat) (db : Store) : List CartItem :=
  db.cart_items.filter (fun i => i.cart_id = cartId && i.product_id = productId)

/-- The object `addItemToCart` returns. -/
structure AddResult where
  message : String
  deriving DecidableEq

/-- The function `addItemToCart(userId, productId, quantity = 1)`; an omitted quantity is
`none`. The error of the `cart_items` lookup and the results of the update and of the
insert are not looked at. The new quantity of an existing line is the JavaScript sum
`existingItem.quantity + quantity`, a binary64 number. -/
def addItemToCart (userId productId : Nat) (quantity : Option Int) (w : World) :
    Except JsError AddResult × World :=
  let quantity := quantity.getD 1
  match getUserCart userId w with
  | (.error e, w1) => (.error e, w1)
  | (.ok cart, w1) =>
    let (fetched, w2) :=
      selectSingle (fun db => db.products.filter (fun p => p.id = productId)) w1
    if fetched.error.isSome then (.error (JsError.new "Failed to fetch product price."), w2)
    else match fetched.data with
    | none => (.error (JsError.new "Failed to fetch product price."), w2)
    | some product =>
      let productPrice := jsOr product.discounted_price product.original_price
      match cart with
      -- `cart.id` of `null`
      | none => (.error nullIdError, w2)
      | some cart =>
        let (existing, w3) := selectSingle (productLines cart.id productId) w2
        match existing.data with
        | some existingItem =>
          let (_, w4) := execute (fun db =>
            match jsAddInt existingItem.quantity quantity with
            | some sum =>
              { db with cart_items := db.cart_items.map (fun i =>
                  if i.id = existingItem.id then { i with quantity := sum } else i) }
            -- a `null` quantity: no row of the table can hold it, the update is refused
            | none => db) w3
          (.ok { message := "Item added to cart successfully." }, w4)
        | none =>
          let (_, w4) := execute (fun db =>
            { db with cart_items := db.cart_items ++
                [{ id := nextId (db.cart_items.map (fun i => i.id)), cart_id := cart.id,
                   product_id := productId, quantity := quantity, price := productPrice }] }) w3
          (.ok { message := "Item added to cart successfully." }, w4)

/-- The function `removeItemFromCart(userId, productId)`. -/
def removeItemFromCart (userId productId : Nat) (w : World) : Except JsError Unit × World :=
  -- Ensure the user has a pending cart
  match getUserCart userId w with
  | (.error e, w1) => (.error e, w1)
  | (.ok none, w1) => (.error nullIdError, w1)
  | (.ok (some cart), w1) =>
    -- Delete the product from cart_items table
    let (deleteError, w2) := execute (fun db =>
      { db with cart_items := db.cart_items.filter (fun i =>
          ¬ (i.cart_id = cart.id ∧ i.product_id = productId)) }) w1
    if deleteError.isSome then (.error (JsError.new "Failed to remove product from cart"), w2)
    else (.ok (), w2)

/-! ## `src/server/app.js` -/

/-- An HTTP response: status code and the fields of its JSON body. -/
structure Response where
  status : Nat
  message : String
  orderId : Option Nat
  deriving DecidableEq

/-- The route `POST /api/checkout`. -/
def postCheckout (userId : Nat) (w : World) : Response × World :=
  match checkoutCart userId w with
  | (.ok result, w1) => (⟨200, result.message, some result.orderId⟩, w1)
  | (.error error, w1) => (⟨500, error.message, none⟩, w1)

/-- A line of the `order_items(product_id, quantity)` embedded in the order select. -/
structure OrderLine where
  product_id : Nat
  quantity : Int
  deriving DecidableEq

/-- The row of `select('order_items(product_id, quantity), status')`. -/
structure OrderWithLines where
  order_items : List OrderLine
  status : String
  deriving DecidableEq

/-- The lines of an order, in table order: the embedded `order_items(product_id, quantity)`. -/
def orderLines (orderId : Nat) (db : Store) : List OrderLine :=
  (db.order_items.filter (fun i => i.order_id = orderId)).map
    (fun i => { product_id := i.product_id, quantity := i.quantity })

/-- The order select of the complete-order route. -/
def ordersWithLines (orderId : Nat) (db : Store) : List OrderWithLines :=
  (db.orders.filter (fun o => o.id = orderId)).map (fun o =>
    { order_items := orderLines o.id db, status := o.status })

/-- The `update({ stock: newStock }).eq('id', productId)` on `products`. -/
def setStock (productId : Nat) (newStock : Int) (db : Store) : Store :=
  { db with products := db.products.map (fun p =>
      if p.id = productId then { p with stock := newStock } else p) }

/-- The `for (const item of order.order_items)` loop of the complete-order route:
`some error` when an iteration throws, `none` when the loop runs to its end. -/
def updateStocks : List OrderLine → World → Option JsError × World
  | [], w => (none, w)
  | item :: rest, w =>
    -- Fetch the current stock for the product
    let (fetched, w1) := selectSingle (fun db => db.products.filter (fun p => p.id = item.product_id)) w
    if fetched.error.isSome then
      (some (JsError.new ("Failed to fetch stock for product " ++ toString item.product_id)), w1)
    else match fetched.data with
    | none =>
      (some (JsError.new ("Failed to fetch stock for product " ++ toString item.product_id)), w1)
    | some product =>
      let newStock := product.stock - item.quantity
      if newStock < 0 then
        (some (JsError.new ("Insufficient stock for product " ++ toString item.product_id)), w1)
      else
        let (stockUpdateError, w2) := execute (setStock item.product_id newStock) w1
        if stockUpdateError.isSome then
          (some (JsError.new ("Failed to update stock for product " ++ toString item.product_id)), w2)
        else updateStocks rest w2

/-- The route `POST /api/admin/orders/:id/complete` (the complete-order operation). -/
def completeOrder (orderId : Nat) (w : World) : Response × World :=
  -- Fetch the order details
  let (fetched, w1) := selectSingle (ordersWithLines orderId) w
  if fetched.error.isSome then (⟨500, "Order not found.", none⟩, w1)
  else match fetched.data with
  | none => (⟨500, "Order not found.", none⟩, w1)
  | some order =>
    if order.status = "Completed" then (⟨400, "Order is already completed.", none⟩, w1)
    else
      -- Update stock for each product in the order
      match updateStocks order.order_items w1 with
      | (some error, w2) => (⟨500, error.message, none⟩, w2)
      | (none, w2) =>
        -- Update order status to 'Completed'
        let (statusError, w3) := execute (fun db =>
          { db with orders := db.orders.map (fun o =>
              if o.id = orderId then { o with status := "Completed" } else o) }) w2
        if statusError.isSome then (⟨500, "Failed to update order status.", none⟩, w3)
        else (⟨200, "Order marked as complete.", none⟩, w3)

/-- The route `POST /api/cart/update`. The session's user id and the body's product id
are absent (`none`) or a number, 0 being falsy like an absent one; the body's quantity is
absent or an integer. -/
def postCartUpdate (userId productId : Option Nat) (quantity : Option Int) (w : World) :
    Response × World :=
  match userId.filter (fun id => id ≠ 0) with
  | none => (⟨401, "Unauthorized: Please log in", none⟩, w)
  | some userId =>
    match productId.filter (fun id => id ≠ 0), quantity.filter (fun q => 0 < q) with
    | some productId, some quantity =>
      -- Fetch the user's pending cart
      let (found, w1) := selectSingle (pendingCarts userId) w
      if found.error.isSome then (⟨404, "Pending cart not found", none⟩, w1)
      else match found.data with
      | none => (⟨404, "Pending cart not found", none⟩, w1)
      | some cart =>
        -- Update the cart item's quantity
        let (updateError, w2) := execute (fun db =>
          { db with cart_items := db.cart_items.map (fun i =>
              if i.cart_id = cart.id ∧ i.product_id = productId
              then { i with quantity := quantity } else i) }) w1
        if updateError.isSome then (⟨500, "Failed to update cart quantity", none⟩, w2)
        else (⟨200, "Cart quantity updated successfully", none⟩, w2)
    | _, _ => (⟨400, "Invalid product ID or quantity", none⟩, w)

/-! ## Predicates and expected values used in the statements -/

/-- No Supabase call still to come reports a storage failure. -/
def NoFaults (w : World) : Prop := ∀ b ∈ w.faults, b = false

/-- The order row `checkoutCart` inserts. -/
def newOrder (userId : Nat) (cartItems : List CartItem) (w : World) : Order :=
  { id := nextId (w.db.orders.map (fun o => o.id)), user_id := userId,
    total_price := cartTotal cartItems, status := "pending", created_at := w.clock }

/-- The store once the order row is inserted. -/
def withOrder (userId : Nat) (cartItems : List CartItem) (w : World) : Store :=
  { w.db with orders := w.db.orders ++ [newOrder userId cartItems w] }

/-- The store once the order and its items are inserted. -/
def withOrderItems (userId : Nat) (cartItems : List CartItem) (w : World) : Store :=
  { withOrder userId cartItems w with
    order_items := w.db.order_items ++
      assignIds (nextId (w.db.order_items.map (fun i => i.id)))
        (orderItemsOf (newOrder userId cartItems w).id cartItems) }

/-- The store after the two unchecked final calls, each of which may have failed. -/
def afterClear (cartId : Nat) (deleteFailed updateFailed : Bool) (db : Store) : Store :=
  let db1 := if deleteFailed then db
    else { db with cart_items := db.cart_items.filter (fun i => ¬ i.cart_id = cartId) }
  if updateFailed then db1
  else { db1 with carts := db1.carts.map (fun c =>
      if c.id = cartId then { c with status := "checked_out" } else c) }

/-- The exact sum of quantity × price over the lines. -/
def exactTotal (items : List CartItem) : ℚ :=
  (items.map (fun i => (i.quantity : ℚ) * i.price)).sum

/-- The sum of the magnitudes of the line subtotals. -/
def absTotal (items : List CartItem) : ℚ :=
  (items.map (fun i => |(i.quantity : ℚ) * i.price|)).sum

deriving instance DecidableEq for Except

/-- The binary64 value of the decimal 99.99. -/
def price9999 : ℚ := 7036170730324623 / 70368744177664

/-- A store with one product priced 99.99 and user 1's pending cart holding 3 of it. -/
def driftWorld : World :=
  { db := { products := [⟨7, "Kettlebell", "kettlebell.png", price9999, none, 10⟩],
            carts := [⟨1, 1, "pending", 0⟩],
            cart_items := [⟨1, 1, 7, 3, price9999⟩],
            orders := [], order_items := [] },
    faults := [], clock := 5 }

/-- The end-to-end scenario of the specification: product 7 (price 100, stock 5), user 1's
pending cart 1 with one line of quantity 2 at price 100; no storage failure scheduled. -/
def shopWorld : World :=
  { db := { products := [⟨7, "Dumbbell", "dumbbell.png", 100, none, 5⟩],
            carts := [⟨1, 1, "pending", 0⟩],
            cart_items := [⟨1, 1, 7, 2, 100⟩],
            orders := [], order_items := [] },
    faults := [], clock := 5 }

/-- The cart row `getUserCart` inserts when the user has no pending cart. -/
def newCart (userId : Nat) (w : World) : Cart :=
  { id := nextId (w.db.carts.map (fun c => c.id)), user_id := userId, status := "pending",
    created_at := w.clock }

/-- Every cart line belongs to a cart of the store (the foreign key of `cart_items`). -/
def LinesHaveCarts (db : Store) : Prop :=
  ∀ i ∈ db.cart_items, ∃ c ∈ db.carts, c.id = i.cart_id

/-- The scenario store with the line priced 50 instead of 100. -/
def cheapWorld : World :=
  { db := { products := [⟨7, "Dumbbell", "dumbbell.png", 100, none, 5⟩],
            carts := [⟨1, 1, "pending", 0⟩],
            cart_items := [⟨1, 1, 7, 2, 50⟩],
            orders := [], order_items := [] },
    faults := [], clock := 5 }

/-- The scenario store with a given schedule of storage failures. -/
def shopWorldFailing (faults : List Bool) : World :=
  { shopWorld with faults := faults }

/-- The total quantity the lines ask of one product. -/
def demand (lines : List OrderLine) (productId : Nat) : Int :=
  ((lines.filter (fun l => l.product_id = productId)).map (fun l => l.quantity)).sum

/-- The lines can be satisfied in sequence: each line's product is a single row of
`products`, and its quantity is at most that stock less what the earlier lines take of
the same product. -/
def LinesSatisfiable (products : List Product) (lines : List OrderLine) : Prop :=
  ∀ pre line post, lines = pre ++ line :: post →
    ∃ p, products.filter (fun p => p.id = line.product_id) = [p] ∧
      demand pre line.product_id + line.quantity ≤ p.stock

/-- The `products` table with every stock reduced by what the lines ask of it. -/
def stocksAfter (lines : List OrderLine) (products : List Product) : List Product :=
  products.map (fun p => { p with stock := p.stock - demand lines p.id })

/-- The `orders` table with the status of order `orderId` set to 'Completed'. -/
def ordersCompleted (orderId : Nat) (orders : List Order) : List Order :=
  orders.map (fun o => if o.id = orderId then { o with status := "Completed" } else o)

/-- A store after two checkouts: product 7 (stock 5), product 8 (stock 1); order 1 with
lines 7 × 2, 7 × 1, 8 × 1 and order 2 with lines 7 × 2, 8 × 3, 7 × 1, both pending. -/
def ordersWorld : World :=
  { db := { products := [⟨7, "Dumbbell", "dumbbell.png", 100, none, 5⟩,
                         ⟨8, "Bench", "bench.png", 900, some 750, 1⟩],
            carts := [⟨1, 1, "checked_out", 0⟩, ⟨2, 1, "checked_out", 3⟩],
            cart_items := [],
            orders := [⟨1, 1, JSNum.fin 1050, "pending", 2⟩,
                       ⟨2, 1, JSNum.fin 2550, "pending", 4⟩],
            order_items := [⟨1, 1, 7, 2, 100⟩, ⟨2, 1, 7, 1, 100⟩, ⟨3, 1, 8, 1, 750⟩,
                            ⟨4, 2, 7, 2, 100⟩, ⟨5, 2, 8, 3, 750⟩, ⟨6, 2, 7, 1, 100⟩] },
    faults := [], clock := 9 }

/-- The scenario store with user 1's pending cart emptied. -/
def emptyCartWorld : World :=
  { shopWorld with db := { shopWorld.db with cart_items := [] } }

/-- Every product's stock is non-negative. -/
def StocksNonneg (db : Store) : Prop := ∀ p ∈ db.products, 0 ≤ p.stock

/-- Every user has at most one cart with status 'pending'. -/
def AtMostOnePending (db : Store) : Prop := ∀ userId, (pendingCarts userId db).length ≤ 1

/-- A call of one of the cart, checkout and order-completion operations. -/
inductive CartOp where
  | getUserCart (userId : Nat)
  | addItemToCart (userId productId : Nat) (quantity : Option Int)
  | getCartItems (userId : Nat)
  | removeItemFromCart (userId productId : Nat)
  | postCartUpdate (userId productId : Option Nat) (quantity : Option Int)
  | checkoutCart (userId : Nat)
  | completeOrder (orderId : Nat)

/-- The world after one call, run to completion. -/
def CartOp.run : CartOp → World → World
  | .getUserCart userId, w => (GymGarage.getUserCart userId w).2
  | .addItemToCart userId productId quantity, w =>
    (GymGarage.addItemToCart userId productId quantity w).2
  | .getCartItems userId, w => (GymGarage.getCartItems userId w).2
  | .removeItemFromCart userId productId, w =>
    (GymGarage.removeItemFromCart userId productId w).2
  | .postCartUpdate userId productId quantity, w =>
    (GymGarage.postCartUpdate userId productId quantity w).2
  | .checkoutCart userId, w => (GymGarage.checkoutCart userId w).2
  | .completeOrder orderId, w => (GymGarage.completeOrder orderId w).2

/-- The world after a sequence of calls, each run to completion before the next. -/
def runOps (ops : List CartOp) (w : World) : World :=
  ops.foldl (fun w op => op.run w) w

/-- The row of a list that holds exactly one row, as `.single()` yields it. -/
def theOnly {α : Type} : List α → Option α
  | [row] => some row
  | _ => none

/-- The store once `addItemToCart` has resolved the cart and the product: the line found
for (cart, product) gets the binary64 sum of its quantity and the given one, or, when the
lookup yields no single line (or fails), a new line is appended; nothing changes when the
write itself fails. -/
def lineAdded (cart : Cart) (productId : Nat) (quantity : Int) (price : ℚ)
    (lookupFailed writeFailed : Bool) (db : Store) : Store :=
  if writeFailed then db
  else
    match (if lookupFailed then none else theOnly (productLines cart.id productId db)) with
    | some existingItem =>
      match jsAddInt existingItem.quantity quantity with
      | some sum =>
        { db with cart_items := db.cart_items.map (fun i =>
            if i.id = existingItem.id then { i with quantity := sum } else i) }
      | none => db
    | none =>
      { db with cart_items := db.cart_items ++
          [{ id := nextId (db.cart_items.map (fun i => i.id)), cart_id := cart.id,
             product_id := productId, quantity := quantity, price := price }] }

/-- The effective price as the specification words it: the discounted price if present,
else the original price. -/
def effectivePrice (p : Product) : ℚ :=
  match p.discounted_price with
  | some discounted => discounted
  | none => p.original_price

/-- A store whose product 9 has original price 100 and discounted price 0; user 1's
pending cart is empty. -/
def freeWorld : World :=
  { db := { products := [⟨9, "Towel", "towel.png", 100, some 0, 4⟩],
            carts := [⟨1, 1, "pending", 0⟩],
            cart_items := [], orders := [], order_items := [] },
    faults := [], clock := 5 }

/-- The scenario store with the price of product 7 changed to 250 (discounted 180). -/
def repricedProducts : List Product := [⟨7, "Dumbbell", "dumbbell.png", 250, some 180, 5⟩]

/-- A store in which user 1's cart holds a line for product 7 with snapshot price 50
while the product's price is 100. -/
def oldSnapshotWorld : World :=
  { db := { products := [⟨7, "Dumbbell", "dumbbell.png", 100, none, 5⟩],
            carts := [⟨1, 1, "pending", 0⟩],
            cart_items := [⟨1, 1, 7, 2, 50⟩],
            orders := [], order_items := [] },
    faults := [], clock := 5 }

/-- A store with the two products of `ordersWorld` and an empty pending cart of user 1. -/
def ordersPricedWorld : World :=
  { db := { products := ordersWorld.db.products,
            carts := [⟨1, 1, "pending", 0⟩],
            cart_items := [], orders := [], order_items := [] },
    faults := [], clock := 5 }

/-- No cart has two lines for the same product. -/
def LinesUnique (db : Store) : Prop :=
  ∀ cartId productId, (productLines cartId productId db).length ≤ 1

/-- A store with products 7 (price 100) and 8 (price 900, discounted 750), and user 1's
pending cart holding 2 of product 7. -/
def multiProductWorld : World :=
  { db := { products := ordersWorld.db.products,
            carts := [⟨1, 1, "pending", 0⟩],
            cart_items := [⟨1, 1, 7, 2, 100⟩],
            orders := [], order_items := [] },
    faults := [], clock := 5 }

/-! # Theorems -/

/-! ## Numbers: integers of magnitude below `2^53` are computed exactly, larger ones are
rounded to integers -/

theorem bitLengthAux_le (fuel : Nat) : ∀ n k : Nat, n < 2 ^ k → bitLengthAux fuel n ≤ k := by
  induction fuel with
  | zero => intro n k _; simp [bitLengthAux]
  | succ fuel ih =>
    intro n k h
    unfold bitLengthAux
    split
    · exact Nat.zero_le _
    · rename_i hn
      cases k with
      | zero => simp at h; exact absurd h hn
      | succ k =>
        have : n / 2 < 2 ^ k := by
          rw [Nat.div_lt_iff_lt_mul (by norm_num)]
          rw [pow_succ] at h
          exact h
        have := ih (n / 2) k this
        omega

theorem bitLength_le {n k : Nat} (h : n < 2 ^ k) : bitLength n ≤ k :=
  bitLengthAux_le n n k h

theorem roundHalfEven_of_dvd {a d : Nat} (hd : 0 < d) (h : d ∣ a) :
    roundHalfEven a d * d = a := by
  obtain ⟨c, rfl⟩ := h
  simp [roundHalfEven, Nat.mul_mod_right, hd, Nat.mul_div_cancel_left c hd, Nat.mul_comm]

theorem mul_two_pow_lt {n a b c : Nat} (h : n < 2 ^ a) (hc : a + b ≤ c) :
    n * 2 ^ b < 2 ^ c :=
  calc n * 2 ^ b < 2 ^ a * 2 ^ b := Nat.mul_lt_mul_of_pos_right h (by positivity)
    _ = 2 ^ (a + b) := (pow_add 2 a b).symm
    _ ≤ 2 ^ c := Nat.pow_le_pow_right (by decide) hc

theorem roundUnits_nat {n : Nat} (h : n < 2 ^ 53) : roundUnits n 1 = n * 2 ^ 1074 := by
  unfold roundUnits
  simp only [Nat.div_one, Nat.one_mul]
  have hlt : n * 2 ^ 1074 < 2 ^ 1127 := mul_two_pow_lt h (by decide)
  have hs : bitLength (n * 2 ^ 1074) - 53 ≤ 1074 := by
    have := bitLength_le hlt
    omega
  apply roundHalfEven_of_dvd (by positivity)
  exact Dvd.dvd.mul_left (pow_dvd_pow 2 hs) n

theorem jsRound_intCast {z : ℤ} (h : z.natAbs < 2 ^ 53) : jsRound (z : ℚ) = JSNum.fin z := by
  unfold jsRound
  simp only [Rat.intCast_num, Rat.intCast_den, roundUnits_nat h]
  have hlt : ¬ (2 ^ 2098 ≤ z.natAbs * 2 ^ 1074) :=
    Nat.not_le.mpr (mul_two_pow_lt h (by decide))
  rw [if_neg hlt]
  congr 1
  have hp : ((2:ℚ) ^ 1074) ≠ 0 := by positivity
  have hcast : ((z.natAbs * 2 ^ 1074 : ℕ) : ℚ) = (z.natAbs : ℚ) * 2 ^ 1074 := by
    rw [Nat.cast_mul, Nat.cast_pow, Nat.cast_ofNat]
  rw [hcast]
  generalize (2:ℚ) ^ 1074 = P at hp ⊢
  split
  · rename_i hneg
    have : (z.natAbs : ℤ) = -z := by omega
    have hq : ((z.natAbs : ℕ) : ℚ) = -(z : ℚ) := by
      rw [← Int.cast_natCast, this, Int.cast_neg]
    rw [hq]; field_simp
  · rename_i hneg
    have : (z.natAbs : ℤ) = z := by omega
    have hq : ((z.natAbs : ℕ) : ℚ) = (z : ℚ) := by
      rw [← Int.cast_natCast, this]
    rw [hq]; field_simp

theorem absTotal_nonneg (items : List CartItem) : 0 ≤ absTotal items := by
  unfold absTotal
  apply List.sum_nonneg
  intro x hx
  simp only [List.mem_map] at hx
  obtain ⟨i, _, rfl⟩ := hx
  exact abs_nonneg _

theorem jsRound_of_abs_lt {z : ℤ} (h : |(z : ℚ)| < 2 ^ 53) : jsRound (z : ℚ) = JSNum.fin z := by
  apply jsRound_intCast
  have h1 : ((|z| : ℤ) : ℚ) < ((2 ^ 53 : ℤ) : ℚ) := by
    rw [Int.cast_abs]; push_cast; exact h
  have h2 : |z| < 2 ^ 53 := by exact_mod_cast h1
  rw [Int.abs_eq_natAbs] at h2
  exact_mod_cast h2

theorem bitLengthAux_spec (fuel : Nat) :
    ∀ n : Nat, n ≤ fuel → 0 < n → ∃ k, bitLengthAux fuel n = k + 1 ∧ 2 ^ k ≤ n := by
  induction fuel with
  | zero => intro n h1 h2; omega
  | succ fuel ih =>
    intro n hle hpos
    unfold bitLengthAux
    rw [if_neg (by omega)]
    refine ⟨bitLengthAux fuel (n / 2), rfl, ?_⟩
    by_cases h2 : n / 2 = 0
    · rw [h2]
      have : bitLengthAux fuel 0 = 0 := by cases fuel <;> simp [bitLengthAux]
      rw [this]; simpa using hpos
    · obtain ⟨k, hk, hpow⟩ := ih (n / 2) (by omega) (by omega)
      rw [hk, pow_succ]
      omega

theorem two_pow_bitLength_le {n : Nat} (h : 0 < n) :
    ∃ k, bitLength n = k + 1 ∧ 2 ^ k ≤ n :=
  bitLengthAux_spec n n le_rfl h

theorem le_roundHalfEven (a d : Nat) : a / d ≤ roundHalfEven a d := by
  unfold roundHalfEven
  simp only
  split
  · exact le_rfl
  · split
    · exact Nat.le_succ _
    · split
      · exact le_rfl
      · exact Nat.le_succ _

/-- Rounding a positive integer to binary64 gives a positive integer. -/
theorem roundUnits_int {m : Nat} (hm : 0 < m) :
    ∃ k, 0 < k ∧ roundUnits m 1 = k * 2 ^ 1074 := by
  unfold roundUnits
  simp only [Nat.div_one, Nat.one_mul]
  generalize hP : 2 ^ 1074 = P
  have hPpos : 0 < P := by rw [← hP]; positivity
  obtain ⟨L, hL, hpow⟩ := two_pow_bitLength_le (Nat.mul_pos hm hPpos)
  rw [hL]
  by_cases hs : L + 1 - 53 ≤ 1074
  · refine ⟨m, hm, ?_⟩
    apply roundHalfEven_of_dvd (by positivity)
    rw [← hP]
    exact Dvd.dvd.mul_left (pow_dvd_pow 2 hs) m
  · obtain ⟨t, ht⟩ : ∃ t, L + 1 - 53 = 1074 + (t + 1) := ⟨L + 1 - 53 - 1075, by omega⟩
    have hle : 2 ^ (L + 1 - 53) ≤ m * P :=
      le_trans (Nat.pow_le_pow_right (by decide) (by omega)) hpow
    have hr : 0 < roundHalfEven (m * P) (2 ^ (L + 1 - 53)) :=
      lt_of_lt_of_le (Nat.div_pos hle (by positivity)) (le_roundHalfEven _ _)
    refine ⟨roundHalfEven (m * P) (2 ^ (L + 1 - 53)) * 2 ^ (t + 1),
      Nat.mul_pos hr (by positivity), ?_⟩
    rw [ht, pow_add, hP]
    ring

theorem units_div (k : Nat) : ((k * 2 ^ 1074 : ℕ) : ℚ) / 2 ^ 1074 = (k : ℚ) := by
  have hp : ((2:ℚ) ^ 1074) ≠ 0 := by positivity
  rw [Nat.cast_mul, Nat.cast_pow, Nat.cast_ofNat]
  generalize (2:ℚ) ^ 1074 = P at hp ⊢
  field_simp

/-- The binary64 value of an integer is an integer of the same sign, when finite. -/
theorem jsRound_int (z : ℤ) :
    jsRound (z : ℚ) = JSNum.nonFinite ∨
      ∃ k : ℤ, jsRound (z : ℚ) = JSNum.fin k ∧ (0 < z → 0 < k) := by
  rcases lt_trichotomy z 0 with hz | hz | hz
  · obtain ⟨k, _, hk⟩ := roundUnits_int (m := z.natAbs) (by omega)
    have hpos : ¬ 0 < z := by omega
    unfold jsRound
    simp only [Rat.intCast_num, Rat.intCast_den, hk, if_pos hz]
    split
    · exact Or.inl rfl
    · refine Or.inr ⟨-(k : ℤ), ?_, fun h => absurd h hpos⟩
      rw [neg_div, units_div]
      simp
  · subst hz
    refine Or.inr ⟨0, ?_, fun h => absurd h (lt_irrefl 0)⟩
    have := jsRound_intCast (z := 0) (by decide)
    simpa using this
  · obtain ⟨k, hkpos, hk⟩ := roundUnits_int (m := z.natAbs) (by omega)
    have hneg : ¬ z < 0 := by omega
    have hkz : (0 : ℤ) < (k : ℤ) := by exact_mod_cast hkpos
    unfold jsRound
    simp only [Rat.intCast_num, Rat.intCast_den, hk, if_neg hneg]
    split
    · exact Or.inl rfl
    · refine Or.inr ⟨(k : ℤ), ?_, fun _ => hkz⟩
      rw [units_div]
      simp

theorem jsAddInt_eq_jsAdd {a b s : ℤ} (h : jsAddInt a b = some s) :
    jsAdd (JSNum.fin a) (JSNum.fin b) = JSNum.fin s := by
  unfold jsAddInt at h
  have hadd : jsAdd (JSNum.fin a) (JSNum.fin b) = jsRound (((a + b : ℤ)) : ℚ) := by
    show jsRound ((a : ℚ) + (b : ℚ)) = _
    rw [Int.cast_add]
  rw [hadd] at h ⊢
  rcases jsRound_int (a + b) with hn | ⟨k, hk, _⟩
  · rw [hn] at h; simp at h
  · rw [hk] at h ⊢
    simp only [Int.floor_intCast, Option.some.injEq] at h
    rw [h]

theorem jsAddInt_exact {a b : ℤ} (h : (a + b).natAbs < 2 ^ 53) :
    jsAddInt a b = some (a + b) := by
  unfold jsAddInt
  have hadd : jsAdd (JSNum.fin a) (JSNum.fin b) = jsRound (((a + b : ℤ)) : ℚ) := by
    show jsRound ((a : ℚ) + (b : ℚ)) = _
    rw [Int.cast_add]
  rw [hadd, jsRound_intCast h]
  simp

theorem jsAddInt_pos {a b s : ℤ} (ha : 0 < a) (hb : 0 < b) (h : jsAddInt a b = some s) :
    0 < s := by
  unfold jsAddInt at h
  have hadd : jsAdd (JSNum.fin a) (JSNum.fin b) = jsRound (((a + b : ℤ)) : ℚ) := by
    show jsRound ((a : ℚ) + (b : ℚ)) = _
    rw [Int.cast_add]
  rw [hadd] at h
  rcases jsRound_int (a + b) with hn | ⟨k, hk, hpos⟩
  · rw [hn] at h; simp at h
  · rw [hk] at h
    simp only [Int.floor_intCast, Option.some.injEq] at h
    rw [← h]
    exact hpos (by omega)

theorem jsAdd_int (a b : ℤ) :
    jsAdd (JSNum.fin a) (JSNum.fin b) = JSNum.nonFinite ∨
      ∃ sum : ℤ, jsAdd (JSNum.fin a) (JSNum.fin b) = JSNum.fin sum ∧
        jsAddInt a b = some sum := by
  have hadd : jsAdd (JSNum.fin a) (JSNum.fin b) = jsRound (((a + b : ℤ)) : ℚ) := by
    show jsRound ((a : ℚ) + (b : ℚ)) = _
    rw [Int.cast_add]
  rcases jsRound_int (a + b) with hn | ⟨k, hk, _⟩
  · exact Or.inl (by rw [hadd, hn])
  · refine Or.inr ⟨k, by rw [hadd, hk], ?_⟩
    unfold jsAddInt
    rw [hadd, hk]
    simp

theorem foldl_total_exact (items : List CartItem) :
    ∀ acc : ℤ, (∀ i ∈ items, ∃ z : ℤ, i.price = z) →
      |(acc : ℚ)| + absTotal items < 2 ^ 53 →
      items.foldl
        (fun sum item => jsAdd sum (jsMul (JSNum.fin item.quantity) (JSNum.fin item.price)))
        (JSNum.fin acc) = JSNum.fin (acc + exactTotal items) := by
  induction items with
  | nil => intro acc _ _; simp [exactTotal]
  | cons i rest ih =>
    intro acc hint hb
    obtain ⟨z, hz⟩ := hint i (List.mem_cons_self _ _)
    have hrest : ∀ j ∈ rest, ∃ z : ℤ, j.price = z :=
      fun j hj => hint j (List.mem_cons_of_mem _ hj)
    have habs : absTotal (i :: rest) = |(i.quantity : ℚ) * i.price| + absTotal rest := by
      simp [absTotal]
    have hex : exactTotal (i :: rest) = (i.quantity : ℚ) * i.price + exactTotal rest := by
      simp [exactTotal]
    have hnn := absTotal_nonneg rest
    have hacc := abs_nonneg (acc : ℚ)
    have hsub := abs_nonneg ((i.quantity : ℚ) * i.price)
    rw [habs] at hb
    have hmul : jsMul (JSNum.fin i.quantity) (JSNum.fin i.price)
        = JSNum.fin ((i.quantity * z : ℤ) : ℚ) := by
      show jsRound ((i.quantity : ℚ) * i.price) = _
      rw [hz, ← Int.cast_mul]
      apply jsRound_of_abs_lt
      rw [Int.cast_mul, ← hz]
      linarith
    have hadd : jsAdd (JSNum.fin acc) (JSNum.fin ((i.quantity * z : ℤ) : ℚ))
        = JSNum.fin ((acc + i.quantity * z : ℤ) : ℚ) := by
      show jsRound ((acc : ℚ) + ((i.quantity * z : ℤ) : ℚ)) = _
      rw [← Int.cast_add]
      apply jsRound_of_abs_lt
      rw [Int.cast_add, Int.cast_mul, ← hz]
      have := abs_add (acc : ℚ) ((i.quantity : ℚ) * i.price)
      linarith
    rw [List.foldl_cons, hmul, hadd, ih (acc + i.quantity * z) hrest, hex]
    · rw [hz]
      have e : ((acc + i.quantity * z : ℤ) : ℚ) + exactTotal rest
          = (acc : ℚ) + ((i.quantity : ℚ) * (z : ℚ) + exactTotal rest) := by
        push_cast; ring
      rw [e]
    · have := abs_add (acc : ℚ) ((i.quantity : ℚ) * i.price)
      rw [Int.cast_add, Int.cast_mul, ← hz]
      linarith

@[simp] theorem World.advance_db (w : World) : w.advance.db = w.db := rfl
@[simp] theorem World.advance_clock (w : World) : w.advance.clock = w.clock := rfl

theorem NoFaults.failing {w : World} (h : NoFaults w) : w.failing = false := by
  unfold World.failing
  cases hf : w.faults with
  | nil => rfl
  | cons b bs => exact h b (by simp [hf])

theorem NoFaults.advance {w : World} (h : NoFaults w) : NoFaults w.advance := by
  intro b hb
  exact h b (List.mem_of_mem_tail hb)

@[simp] theorem World.setDb_db (w : World) (db : Store) : (w.setDb db).db = db := rfl
@[simp] theorem World.setDb_clock (w : World) (db : Store) : (w.setDb db).clock = w.clock := rfl
@[simp] theorem World.setDb_failing (w : World) (db : Store) :
    (w.setDb db).failing = w.failing := rfl
@[simp] theorem World.setDb_advance (w : World) (db : Store) :
    (w.setDb db).advance = w.advance.setDb db := rfl
@[simp] theorem World.setDb_setDb (w : World) (db db2 : Store) :
    (w.setDb db).setDb db2 = w.setDb db2 := rfl
@[simp] theorem World.setDb_faults (w : World) (db : Store) :
    (w.setDb db).faults = w.faults := rfl

theorem NoFaults.setDb {w : World} (h : NoFaults w) (db : Store) : NoFaults (w.setDb db) := h

theorem checkoutCart_eq (userId : Nat) (w : World) (cart : Cart)
    (h1 : pendingCarts userId w.db = [cart]) (h2 : cartLines cart.id w.db ≠ []) :
    checkoutCart userId w =
      if w.failing then (.error (JsError.new "Failed to fetch cart."), w.advance)
      else if w.advance.failing then
        (.error (JsError.new "Failed to fetch cart items."), w.advance.advance)
      else if w.advance.advance.failing then
        (.error (JsError.new "Failed to create order."), w.advance.advance.advance)
      else if w.advance.advance.advance.failing then
        (.error (JsError.new ("Failed to insert order items. " ++ storageError.message)),
          w.advance.advance.advance.advance.setDb
            (withOrder userId (cartLines cart.id w.db) w))
      else
        (.ok { message := "Checkout successful",
               orderId := (newOrder userId (cartLines cart.id w.db) w).id },
          w.advance.advance.advance.advance.advance.advance.setDb
            (afterClear cart.id w.advance.advance.advance.advance.failing
              w.advance.advance.advance.advance.advance.failing
              (withOrderItems userId (cartLines cart.id w.db) w))) := by
  obtain ⟨first, more, hlines⟩ : ∃ a l, cartLines cart.id w.db = a :: l := by
    cases h : cartLines cart.id w.db with
    | nil => exact absurd h h2
    | cons a l => exact ⟨a, l, rfl⟩
  unfold checkoutCart
  by_cases f1 : w.failing = true
  · simp [selectSingle, f1]
  · by_cases f2 : w.advance.failing = true
    · simp [selectSingle, selectRows, f1, f2, h1]
    · by_cases f3 : w.advance.advance.failing = true
      · simp [selectSingle, selectRows, insertReturning, f1, f2, f3, h1, hlines]
      · by_cases f4 : w.advance.advance.advance.failing = true
        · simp [selectSingle, selectRows, insertReturning, execute, f1, f2, f3, f4, h1, hlines,
            withOrder, newOrder]
        · by_cases f5 : w.advance.advance.advance.advance.failing = true <;>
          by_cases f6 : w.advance.advance.advance.advance.advance.failing = true <;>
          simp [selectSingle, selectRows, insertReturning, execute, f1, f2, f3, f4, f5, f6, h1,
            hlines, withOrder, withOrderItems, newOrder, afterClear]

/-! ## Checkout -/

theorem checkoutCart_ok {userId : Nat} {w : World} {cart : Cart} {r : CheckoutResult}
    (h1 : pendingCarts userId w.db = [cart]) (h2 : cartLines cart.id w.db ≠ [])
    (hok : (checkoutCart userId w).1 = .ok r) :
    r = { message := "Checkout successful",
          orderId := (newOrder userId (cartLines cart.id w.db) w).id } ∧
    (checkoutCart userId w).2 =
      w.advance.advance.advance.advance.advance.advance.setDb
        (afterClear cart.id w.advance.advance.advance.advance.failing
          w.advance.advance.advance.advance.advance.failing
          (withOrderItems userId (cartLines cart.id w.db) w)) := by
  rw [checkoutCart_eq userId w cart h1 h2] at hok ⊢
  by_cases f1 : w.failing = true
  · simp [f1] at hok
  · by_cases f2 : w.advance.failing = true
    · simp [f1, f2] at hok
    · by_cases f3 : w.advance.advance.failing = true
      · simp [f1, f2, f3] at hok
      · by_cases f4 : w.advance.advance.advance.failing = true
        · simp [f1, f2, f3, f4] at hok
        · simp only [f1, f2, f3, f4, if_false] at hok ⊢
          simp only [Bool.false_eq_true, if_false, Except.ok.injEq] at hok ⊢
          exact ⟨hok.symm, trivial⟩

theorem checkoutCart_noFaults {userId : Nat} {w : World} {cart : Cart}
    (h1 : pendingCarts userId w.db = [cart]) (h2 : cartLines cart.id w.db ≠ [])
    (hw : NoFaults w) :
    checkoutCart userId w =
      (.ok { message := "Checkout successful",
             orderId := (newOrder userId (cartLines cart.id w.db) w).id },
        w.advance.advance.advance.advance.advance.advance.setDb
          (afterClear cart.id false false
            (withOrderItems userId (cartLines cart.id w.db) w))) := by
  rw [checkoutCart_eq userId w cart h1 h2]
  simp [hw.failing, hw.advance.failing, hw.advance.advance.failing,
    hw.advance.advance.advance.failing, hw.advance.advance.advance.advance.failing,
    hw.advance.advance.advance.advance.advance.failing]

@[simp] theorem afterClear_orders (cartId : Nat) (a b : Bool) (db : Store) :
    (afterClear cartId a b db).orders = db.orders := by
  cases a <;> cases b <;> rfl

@[simp] theorem afterClear_order_items (cartId : Nat) (a b : Bool) (db : Store) :
    (afterClear cartId a b db).order_items = db.order_items := by
  cases a <;> cases b <;> rfl

@[simp] theorem afterClear_products (cartId : Nat) (a b : Bool) (db : Store) :
    (afterClear cartId a b db).products = db.products := by
  cases a <;> cases b <;> rfl

/-- C1 (amended). With exactly one pending cart holding at least one line, a successful
`checkoutCart(userId)` appends exactly one order row: for that user, with status
'pending', and with `total_price` the left-to-right binary64 accumulation
`sum + quantity * price` over the cart's lines (their stored prices; the products table
is not read). That total is the exact sum of quantity × price when every stored price is
an integer and the magnitudes of the line subtotals add up to less than `2^53`. -/
theorem checkoutCart_inserts_order (userId : Nat) (w : World) (cart : Cart)
    (r : CheckoutResult)
    (hcart : pendingCarts userId w.db = [cart])
    (hlines : cartLines cart.id w.db ≠ [])
    (hok : (checkoutCart userId w).1 = .ok r) :
    (checkoutCart userId w).2.db.orders = w.db.orders ++
        [{ id := r.orderId, user_id := userId,
           total_price := cartTotal (cartLines cart.id w.db),
           status := "pending", created_at := w.clock }] ∧
    ((∀ i ∈ cartLines cart.id w.db, ∃ z : ℤ, i.price = z) →
      absTotal (cartLines cart.id w.db) < 2 ^ 53 →
      cartTotal (cartLines cart.id w.db) = JSNum.fin (exactTotal (cartLines cart.id w.db))) := by
  obtain ⟨hr, hw⟩ := checkoutCart_ok hcart hlines hok
  constructor
  · rw [hw, hr]
    simp [withOrderItems, withOrder, newOrder]
  · intro hint hb
    have := foldl_total_exact (cartLines cart.id w.db) 0 hint (by simpa using hb)
    simpa [cartTotal] using this

theorem checkoutCart_inserts_order_witness :
    pendingCarts 1 shopWorld.db = [⟨1, 1, "pending", 0⟩] ∧
    cartLines 1 shopWorld.db ≠ [] ∧
    (checkoutCart 1 shopWorld).1 = .ok ⟨"Checkout successful", 1⟩ ∧
    (checkoutCart 1 shopWorld).2.db.orders = shopWorld.db.orders ++
        [{ id := 1, user_id := 1, total_price := cartTotal (cartLines 1 shopWorld.db),
           status := "pending", created_at := shopWorld.clock }] ∧
    cartTotal (cartLines 1 shopWorld.db) = JSNum.fin 200 :=
  have h := checkoutCart_inserts_order 1 shopWorld ⟨1, 1, "pending", 0⟩
    ⟨"Checkout successful", 1⟩ (by decide!) (by decide!) (by decide!)
  ⟨by decide!, by decide!, by decide!, h.1, by decide!⟩

/-- C1 as stated fails: with one line of quantity 3 at price 99.99 (as a binary64 value)
checkout succeeds and the order's total is 299.96999999999997 as a binary64 value, not
the exact sum 3 × price. -/
theorem checkoutCart_total_not_exact :
    pendingCarts 1 driftWorld.db = [⟨1, 1, "pending", 0⟩] ∧
    cartLines 1 driftWorld.db = [⟨1, 1, 7, 3, price9999⟩] ∧
    jsRound (9999 / 100) = JSNum.fin price9999 ∧
    (checkoutCart 1 driftWorld).1 = .ok ⟨"Checkout successful", 1⟩ ∧
    (checkoutCart 1 driftWorld).2.db.orders =
      [⟨1, 1, JSNum.fin (5277128047743467 / 17592186044416), "pending", 5⟩] ∧
    exactTotal (cartLines 1 driftWorld.db) = 21108512190973869 / 70368744177664 ∧
    JSNum.fin (5277128047743467 / 17592186044416)
      ≠ JSNum.fin (exactTotal (cartLines 1 driftWorld.db)) := by
  decide!

theorem checkoutCart_no_single_cart {userId : Nat} {w : World}
    (h : ∀ cart, pendingCarts userId w.db ≠ [cart]) :
    checkoutCart userId w = (.error (JsError.new "Failed to fetch cart."), w.advance) := by
  unfold checkoutCart
  by_cases f1 : w.failing = true
  · simp [selectSingle, f1]
  · cases hp : pendingCarts userId w.db with
    | nil => simp [selectSingle, f1, hp, pgrst116]
    | cons c rest =>
      cases rest with
      | nil => exact absurd hp (h c)
      | cons d rest => simp [selectSingle, f1, hp, pgrst116]

theorem checkoutCart_empty_cart {userId : Nat} {w : World} {cart : Cart}
    (h1 : pendingCarts userId w.db = [cart]) (h2 : cartLines cart.id w.db = []) :
    checkoutCart userId w =
      if w.failing then (.error (JsError.new "Failed to fetch cart."), w.advance)
      else if w.advance.failing then
        (.error (JsError.new "Failed to fetch cart items."), w.advance.advance)
      else (.error (JsError.new "Cart is empty."), w.advance.advance) := by
  unfold checkoutCart
  by_cases f1 : w.failing = true
  · simp [selectSingle, f1]
  · by_cases f2 : w.advance.failing = true
    · simp [selectSingle, selectRows, f1, f2, h1]
    · simp [selectSingle, selectRows, f1, f2, h1, h2]

theorem checkoutCart_not_ready {userId : Nat} {w : World}
    (h : ∀ cart, pendingCarts userId w.db = [cart] → cartLines cart.id w.db = []) :
    (∃ e, (checkoutCart userId w).1 = .error e) ∧ (checkoutCart userId w).2.db = w.db := by
  by_cases hc : ∃ cart, pendingCarts userId w.db = [cart]
  · obtain ⟨cart, h1⟩ := hc
    rw [checkoutCart_empty_cart h1 (h cart h1)]
    by_cases f1 : w.failing = true
    · simp [f1]
    · by_cases f2 : w.advance.failing = true <;> simp [f1, f2]
  · rw [checkoutCart_no_single_cart (fun cart hp => hc ⟨cart, hp⟩)]
    simp

theorem checkoutCart_ok_ready {userId : Nat} {w : World} {r : CheckoutResult}
    (hok : (checkoutCart userId w).1 = .ok r) :
    ∃ cart, pendingCarts userId w.db = [cart] ∧ cartLines cart.id w.db ≠ [] := by
  by_contra hne
  have h : ∀ cart, pendingCarts userId w.db = [cart] → cartLines cart.id w.db = [] := by
    intro cart h1
    by_contra h2
    exact hne ⟨cart, h1, h2⟩
  obtain ⟨⟨e, he⟩, _⟩ := checkoutCart_not_ready h
  rw [he] at hok
  cases hok

theorem assignIds_orderItemsOf (orderId : Nat) (cartItems : List CartItem) :
    ∀ start : Nat,
      (assignIds start (orderItemsOf orderId cartItems)).map
          (fun i => (i.order_id, i.product_id, i.quantity, i.price))
        = cartItems.map (fun l => (orderId, l.product_id, l.quantity, l.price)) := by
  induction cartItems with
  | nil => intro start; rfl
  | cons l rest ih =>
    intro start
    have := ih (start + 1)
    simp only [orderItemsOf, List.map_cons, assignIds] at this ⊢
    rw [this]

/-- C2. Every successful `checkoutCart(userId)` appends to `order_items` exactly one row
per line of the user's pending cart, in the same order, each with the new order's id and
the line's product_id, quantity and price; the rows already there keep their place and
content, and the new order is the row appended to `orders`. -/
theorem checkoutCart_transfers_lines (userId : Nat) (w : World) (r : CheckoutResult)
    (hok : (checkoutCart userId w).1 = .ok r) :
    ∃ cart added order,
      pendingCarts userId w.db = [cart] ∧
      (checkoutCart userId w).2.db.orders = w.db.orders ++ [order] ∧
      order.id = r.orderId ∧
      (checkoutCart userId w).2.db.order_items = w.db.order_items ++ added ∧
      added.map (fun i => (i.order_id, i.product_id, i.quantity, i.price))
        = (cartLines cart.id w.db).map
            (fun l => (r.orderId, l.product_id, l.quantity, l.price)) := by
  obtain ⟨cart, h1, h2⟩ := checkoutCart_ok_ready hok
  obtain ⟨hr, hw⟩ := checkoutCart_ok h1 h2 hok
  refine ⟨cart, assignIds (nextId (w.db.order_items.map (fun i => i.id)))
      (orderItemsOf r.orderId (cartLines cart.id w.db)),
    newOrder userId (cartLines cart.id w.db) w, h1, ?_, ?_, ?_, ?_⟩
  · rw [hw]; simp [withOrderItems, withOrder]
  · rw [hr]
  · rw [hw, hr]; simp [withOrderItems, withOrder]
  · exact assignIds_orderItemsOf _ _ _

theorem checkoutCart_transfers_lines_witness :
    (checkoutCart 1 shopWorld).1 = .ok ⟨"Checkout successful", 1⟩ ∧
    (checkoutCart 1 shopWorld).2.db.order_items = [⟨1, 1, 7, 2, 100⟩] ∧
    ∃ cart added order,
      pendingCarts 1 shopWorld.db = [cart] ∧
      (checkoutCart 1 shopWorld).2.db.orders = shopWorld.db.orders ++ [order] ∧
      order.id = 1 ∧
      (checkoutCart 1 shopWorld).2.db.order_items = shopWorld.db.order_items ++ added ∧
      added.map (fun i => (i.order_id, i.product_id, i.quantity, i.price))
        = (cartLines cart.id shopWorld.db).map
            (fun l => (1, l.product_id, l.quantity, l.price)) :=
  ⟨by decide!, by decide!,
    checkoutCart_transfers_lines 1 shopWorld ⟨"Checkout successful", 1⟩ (by decide!)⟩

theorem lt_nextId {ids : List Nat} {x : Nat} (h : x ∈ ids) : x < nextId ids := by
  unfold nextId
  induction ids with
  | nil => cases h
  | cons y ys ih =>
    simp only [List.foldr_cons]
    rcases List.mem_cons.mp h with rfl | h'
    · omega
    · have := ih h'
      omega

theorem getUserCart_existing {userId : Nat} {w : World} {cart : Cart}
    (h1 : pendingCarts userId w.db = [cart]) (hf : w.failing = false) :
    getUserCart userId w = (.ok (some cart), w.advance) := by
  simp [getUserCart, selectSingle, hf, h1, Option.filter]

theorem getUserCart_create {userId : Nat} {w : World}
    (h1 : pendingCarts userId w.db = []) (hf : w.failing = false)
    (hf2 : w.advance.failing = false) :
    getUserCart userId w =
      (.ok (some (newCart userId w)),
        w.advance.advance.setDb { w.db with carts := w.db.carts ++ [newCart userId w] }) := by
  simp [getUserCart, selectSingle, insertReturning, hf, hf2, h1, pgrst116, newCart, Option.filter]

theorem pendingCarts_afterClear {userId : Nat} {db db2 : Store} {cart : Cart}
    (h1 : pendingCarts userId db = [cart]) (hc : db2.carts = db.carts) :
    pendingCarts userId (afterClear cart.id false false db2) = [] := by
  simp only [pendingCarts, afterClear, Bool.false_eq_true, if_false, hc]
  rw [List.filter_eq_nil_iff]
  intro c hc'
  obtain ⟨c0, hc0, rfl⟩ := List.mem_map.mp hc'
  by_cases hid : c0.id = cart.id
  · simp [hid]
  · simp only [hid, if_false]
    intro hp
    have hmem : c0 ∈ pendingCarts userId db := by
      simp only [pendingCarts]
      exact List.mem_filter.mpr ⟨hc0, hp⟩
    rw [h1] at hmem
    exact hid (by rw [List.mem_singleton.mp hmem])

theorem cartLines_afterClear_self (cartId : Nat) (b : Bool) (db : Store) :
    cartLines cartId (afterClear cartId false b db) = [] := by
  cases b <;> simp [cartLines, afterClear, List.filter_filter]

theorem cartLines_fresh {db : Store} (hfk : LinesHaveCarts db) {cartId : Nat}
    (hfresh : ∀ c ∈ db.carts, c.id ≠ cartId) : cartLines cartId db = [] := by
  simp only [cartLines]
  rw [List.filter_eq_nil_iff]
  intro i hi
  obtain ⟨c, hc, hci⟩ := hfk i hi
  have := hfresh c hc
  simp only [decide_eq_true_eq]
  omega

theorem newCart_id_fresh (userId : Nat) (w : World) :
    ∀ c ∈ w.db.carts, c.id ≠ (newCart userId w).id := by
  intro c hc
  have : c.id < nextId (w.db.carts.map (fun c => c.id)) :=
    lt_nextId (List.mem_map.mpr ⟨c, hc, rfl⟩)
  simp only [newCart]
  omega

theorem getCartItems_create {userId : Nat} {w : World}
    (h1 : pendingCarts userId w.db = []) (hw : NoFaults w)
    (hl : cartLines (newCart userId w).id w.db = []) :
    getCartItems userId w =
      (.ok (some []), w.advance.advance.advance.setDb
        { w.db with carts := w.db.carts ++ [newCart userId w] }) := by
  have hl2 : List.filter (fun i => decide (i.cart_id = (newCart userId w).id)) w.db.cart_items
      = [] := hl
  unfold getCartItems
  rw [getUserCart_create h1 hw.failing hw.advance.failing]
  simp [selectRows, hw.advance.advance.failing, cartItemViews, cartLines, hl2]

/-- Checkout with a working store. When no storage call fails, after a successful
`checkoutCart(userId)` the checked-out cart has no lines and its row has status 'checked_out'; a following
`getCartItems(userId)` returns the empty list; a following `getUserCart(userId)` returns a
cart it has just inserted, owned by the user, with status 'pending' and an id that no
cart of the store had (so different from the checked-out cart's id); and `getUserCart`
after that `getCartItems` returns the same new cart. The store is assumed to respect the
foreign key of `cart_items` (every line belongs to a cart). -/
theorem checkoutCart_then_fresh_cart (userId : Nat) (w : World) (cart : Cart)
    (r : CheckoutResult)
    (hcart : pendingCarts userId w.db = [cart])
    (hfk : LinesHaveCarts w.db)
    (hw : NoFaults w)
    (hok : (checkoutCart userId w).1 = .ok r) :
    cartLines cart.id (checkoutCart userId w).2.db = [] ∧
    { cart with status := "checked_out" } ∈ (checkoutCart userId w).2.db.carts ∧
    (∀ c ∈ (checkoutCart userId w).2.db.carts, c.id = cart.id → c.status = "checked_out") ∧
    (getCartItems userId (checkoutCart userId w).2).1 = .ok (some []) ∧
    ∃ fresh : Cart,
      (getUserCart userId (checkoutCart userId w).2).1 = .ok (some fresh) ∧
      (getUserCart userId (checkoutCart userId w).2).2.db.carts
        = (checkoutCart userId w).2.db.carts ++ [fresh] ∧
      fresh.status = "pending" ∧ fresh.user_id = userId ∧ fresh.id ≠ cart.id ∧
      (∀ c ∈ (checkoutCart userId w).2.db.carts, c.id ≠ fresh.id) ∧
      (getUserCart userId (getCartItems userId (checkoutCart userId w).2).2).1
        = .ok (some fresh) := by
  obtain ⟨cart2, h1, h2⟩ := checkoutCart_ok_ready hok
  have hcc : cart2 = cart := by rw [hcart] at h1; simpa using h1.symm
  subst hcc
  rw [checkoutCart_noFaults hcart h2 hw]
  generalize hw6 : w.advance.advance.advance.advance.advance.advance = w6
  have hnf6 : NoFaults w6 := by
    rw [← hw6]; exact hw.advance.advance.advance.advance.advance.advance
  generalize hD : afterClear cart2.id false false
    (withOrderItems userId (cartLines cart2.id w.db) w) = D
  have hDcarts : D.carts = w.db.carts.map (fun c =>
      if c.id = cart2.id then { c with status := "checked_out" } else c) := by
    rw [← hD]; simp [afterClear, withOrderItems, withOrder]
  have hDitems : D.cart_items = w.db.cart_items.filter (fun i => ¬ i.cart_id = cart2.id) := by
    rw [← hD]; simp [afterClear, withOrderItems, withOrder]
  have hpend : pendingCarts userId D = [] := by
    rw [← hD]; exact pendingCarts_afterClear hcart rfl
  have hnf : NoFaults (w6.setDb D) := hnf6.setDb D
  have hcartmem : cart2 ∈ w.db.carts := by
    have : cart2 ∈ pendingCarts userId w.db := by rw [hcart]; exact List.mem_singleton.mpr rfl
    exact (List.mem_filter.mp this).1
  have hchecked : ({ cart2 with status := "checked_out" } : Cart) ∈ D.carts := by
    rw [hDcarts]
    exact List.mem_map.mpr ⟨cart2, hcartmem, by simp⟩
  have hfresh := newCart_id_fresh userId (w6.setDb D)
  have hlines : cartLines (newCart userId (w6.setDb D)).id (w6.setDb D).db = [] := by
    simp only [cartLines, World.setDb_db, hDitems]
    rw [List.filter_eq_nil_iff]
    intro i hi
    have hi0 : i ∈ w.db.cart_items := (List.mem_filter.mp hi).1
    obtain ⟨c, hc, hci⟩ := hfk i hi0
    have hcD : (if c.id = cart2.id then { c with status := "checked_out" } else c) ∈ D.carts := by
      rw [hDcarts]; exact List.mem_map.mpr ⟨c, hc, rfl⟩
    have hne := hfresh _ hcD
    have hid : (if c.id = cart2.id then { c with status := "checked_out" } else c).id = c.id := by
      split <;> rfl
    rw [hid, hci] at hne
    simpa using hne
  have hgi := getCartItems_create hpend hnf hlines
  have hgu := getUserCart_create hpend hnf.failing hnf.advance.failing
  refine ⟨?_, hchecked, ?_, ?_, newCart userId (w6.setDb D), ?_, ?_, rfl, rfl, ?_, hfresh, ?_⟩
  · simp only [World.setDb_db]
    rw [← hD]; exact cartLines_afterClear_self _ _ _
  · intro c hc hid
    simp only [World.setDb_db, hDcarts] at hc
    obtain ⟨c0, _, rfl⟩ := List.mem_map.mp hc
    by_cases h0 : c0.id = cart2.id
    · simp [h0]
    · rw [if_neg h0] at hid
      exact absurd hid h0
  · rw [hgi]
  · rw [hgu]
  · rw [hgu]; simp
  · exact fun h => hfresh _ hchecked h.symm
  · rw [hgi]
    have hp2 : pendingCarts userId
        ((w6.setDb D).advance.advance.advance.setDb
          { (w6.setDb D).db with
            carts := (w6.setDb D).db.carts ++ [newCart userId (w6.setDb D)] }).db
        = [newCart userId (w6.setDb D)] := by
      have hp0 : List.filter (fun c => decide (c.user_id = userId) && decide (c.status = "pending"))
          D.carts = [] := hpend
      simp [pendingCarts, List.filter_append, hp0, newCart]
    rw [getUserCart_existing hp2 (by simpa using hnf.advance.advance.advance.failing)]

theorem checkoutCart_then_fresh_cart_witness :
    pendingCarts 1 shopWorld.db = [⟨1, 1, "pending", 0⟩] ∧
    (checkoutCart 1 shopWorld).1 = .ok ⟨"Checkout successful", 1⟩ ∧
    (checkoutCart 1 shopWorld).2.db.carts = [⟨1, 1, "checked_out", 0⟩] ∧
    (getUserCart 1 (checkoutCart 1 shopWorld).2).1 = .ok (some ⟨2, 1, "pending", 5⟩) ∧
    (cartLines 1 (checkoutCart 1 shopWorld).2.db = [] ∧
     ({ id := 1, user_id := 1, status := "checked_out", created_at := 0 } : Cart)
        ∈ (checkoutCart 1 shopWorld).2.db.carts ∧
     (∀ c ∈ (checkoutCart 1 shopWorld).2.db.carts, c.id = 1 → c.status = "checked_out") ∧
     (getCartItems 1 (checkoutCart 1 shopWorld).2).1 = .ok (some []) ∧
     ∃ fresh : Cart,
      (getUserCart 1 (checkoutCart 1 shopWorld).2).1 = .ok (some fresh) ∧
      (getUserCart 1 (checkoutCart 1 shopWorld).2).2.db.carts
        = (checkoutCart 1 shopWorld).2.db.carts ++ [fresh] ∧
      fresh.status = "pending" ∧ fresh.user_id = 1 ∧ fresh.id ≠ 1 ∧
      (∀ c ∈ (checkoutCart 1 shopWorld).2.db.carts, c.id ≠ fresh.id) ∧
      (getUserCart 1 (getCartItems 1 (checkoutCart 1 shopWorld).2).2).1
        = .ok (some fresh)) :=
  ⟨by decide!, by decide!, by decide!, by decide!,
    checkoutCart_then_fresh_cart 1 shopWorld ⟨1, 1, "pending", 0⟩ ⟨"Checkout successful", 1⟩
      (by decide!) (by unfold LinesHaveCarts; decide!) (by unfold NoFaults; decide!)
      (by decide!)⟩

/-- C3 at failing inputs. `checkoutCart(1)` on the scenario store (cart 1 of user 1,
pending, one line) returns 'Checkout successful' also when its last two storage calls,
whose results it does not read, report errors. (1) Delete of the lines and update of
the status both fail: cart 1 is still pending and still holds its line, the following
`getCartItems(1)` returns that line and the following `getUserCart(1)` returns cart 1,
not a new cart. (2) Only the delete fails: cart 1 is 'checked_out' and still holds its
line. (3) Only the update of the status fails: the line is gone but cart 1 is still
pending, and the following `getUserCart(1)` returns cart 1. -/
theorem checkoutCart_success_cart_not_cleared :
    ((checkoutCart 1 (shopWorldFailing [false, false, false, false, true, true])).1
        = .ok ⟨"Checkout successful", 1⟩ ∧
      (checkoutCart 1 (shopWorldFailing [false, false, false, false, true, true])).2.db.carts
        = [⟨1, 1, "pending", 0⟩] ∧
      cartLines 1 (checkoutCart 1 (shopWorldFailing [false, false, false, false, true, true])).2.db
        = [⟨1, 1, 7, 2, 100⟩] ∧
      (getCartItems 1
          (checkoutCart 1 (shopWorldFailing [false, false, false, false, true, true])).2).1
        = .ok (some [⟨1, 2, 7, some ⟨"Dumbbell", none, 100, "dumbbell.png"⟩⟩]) ∧
      (getUserCart 1
          (checkoutCart 1 (shopWorldFailing [false, false, false, false, true, true])).2).1
        = .ok (some ⟨1, 1, "pending", 0⟩)) ∧
    ((checkoutCart 1 (shopWorldFailing [false, false, false, false, true])).1
        = .ok ⟨"Checkout successful", 1⟩ ∧
      (checkoutCart 1 (shopWorldFailing [false, false, false, false, true])).2.db.carts
        = [⟨1, 1, "checked_out", 0⟩] ∧
      cartLines 1 (checkoutCart 1 (shopWorldFailing [false, false, false, false, true])).2.db
        = [⟨1, 1, 7, 2, 100⟩]) ∧
    ((checkoutCart 1 (shopWorldFailing [false, false, false, false, false, true])).1
        = .ok ⟨"Checkout successful", 1⟩ ∧
      (checkoutCart 1 (shopWorldFailing [false, false, false, false, false, true])).2.db.carts
        = [⟨1, 1, "pending", 0⟩] ∧
      cartLines 1
          (checkoutCart 1 (shopWorldFailing [false, false, false, false, false, true])).2.db
        = [] ∧
      (getUserCart 1
          (checkoutCart 1 (shopWorldFailing [false, false, false, false, false, true])).2).1
        = .ok (some ⟨1, 1, "pending", 0⟩)) := by
  decide!

theorem checkoutCart_never_no_pending_cart (userId : Nat) (w : World) :
    (checkoutCart userId w).1 ≠ .error (JsError.new "No pending cart found.") := by
  by_cases hc : ∃ cart, pendingCarts userId w.db = [cart]
  · obtain ⟨cart, h1⟩ := hc
    by_cases h2 : cartLines cart.id w.db = []
    · rw [checkoutCart_empty_cart h1 h2]
      by_cases f1 : w.failing = true
      · simp [f1, JsError.new]
      · by_cases f2 : w.advance.failing = true <;> simp [f1, f2, JsError.new]
    · rw [checkoutCart_eq userId w cart h1 h2]
      by_cases f1 : w.failing = true
      · simp [f1, JsError.new]
      · by_cases f2 : w.advance.failing = true
        · simp [f1, f2, JsError.new]
        · by_cases f3 : w.advance.advance.failing = true
          · simp [f1, f2, f3, JsError.new]
          · by_cases f4 : w.advance.advance.advance.failing = true
            · simp only [f1, f2, f3, f4, if_true, Bool.false_eq_true, if_false]
              rw [show storageError.message = "connection failure" from rfl]
              simp only [ne_eq, Except.error.injEq, JsError.new, JsError.mk.injEq, and_true]
              decide
            · simp [f1, f2, f3, f4]
  · rw [checkoutCart_no_single_cart (fun cart hp => hc ⟨cart, hp⟩)]
    simp [JsError.new]

/-- C4. `checkoutCart(userId)` throws when the user has no pending cart and when the
pending cart has no line, whatever storage calls fail, and the whole store (orders,
order items, carts, cart lines, products) is then unchanged, so no cart is created. The
error thrown without a pending cart is 'Failed to fetch cart.'; the one thrown for an
empty cart, when no storage call fails, is 'Cart is empty.'. -/
theorem checkoutCart_rejects (userId : Nat) (w : World)
    (h : pendingCarts userId w.db = [] ∨
      ∃ cart, pendingCarts userId w.db = [cart] ∧ cartLines cart.id w.db = []) :
    (∃ e, (checkoutCart userId w).1 = .error e) ∧
    (checkoutCart userId w).2.db = w.db ∧
    (pendingCarts userId w.db = [] →
      (checkoutCart userId w).1 = .error (JsError.new "Failed to fetch cart.")) ∧
    ((∃ cart, pendingCarts userId w.db = [cart] ∧ cartLines cart.id w.db = []) →
      NoFaults w → (checkoutCart userId w).1 = .error (JsError.new "Cart is empty.")) := by
  have hnr : ∀ cart, pendingCarts userId w.db = [cart] → cartLines cart.id w.db = [] := by
    intro cart h1
    rcases h with h0 | ⟨cart2, h2, hl⟩
    · rw [h0] at h1; cases h1
    · rw [h2] at h1
      have : cart2 = cart := by simpa using h1
      rw [← this]; exact hl
  obtain ⟨he, hdb⟩ := checkoutCart_not_ready hnr
  refine ⟨he, hdb, ?_, ?_⟩
  · intro h0
    rw [checkoutCart_no_single_cart (fun cart hp => by rw [h0] at hp; cases hp)]
  · rintro ⟨cart, h1, hl⟩ hw
    rw [checkoutCart_empty_cart h1 hl]
    simp [hw.failing, hw.advance.failing]

theorem checkoutCart_rejects_witness :
    (pendingCarts 2 shopWorld.db = [] ∧
      checkoutCart 2 shopWorld
        = (.error (JsError.new "Failed to fetch cart."), shopWorld.advance) ∧
      ((∃ e, (checkoutCart 2 shopWorld).1 = .error e) ∧
       (checkoutCart 2 shopWorld).2.db = shopWorld.db ∧
       (pendingCarts 2 shopWorld.db = [] →
        (checkoutCart 2 shopWorld).1 = .error (JsError.new "Failed to fetch cart.")) ∧
       ((∃ cart, pendingCarts 2 shopWorld.db = [cart] ∧ cartLines cart.id shopWorld.db = []) →
        NoFaults shopWorld →
        (checkoutCart 2 shopWorld).1 = .error (JsError.new "Cart is empty.")))) ∧
    (pendingCarts 1 emptyCartWorld.db = [⟨1, 1, "pending", 0⟩] ∧
      cartLines 1 emptyCartWorld.db = [] ∧
      checkoutCart 1 emptyCartWorld
        = (.error (JsError.new "Cart is empty."), emptyCartWorld.advance.advance) ∧
      ((∃ e, (checkoutCart 1 emptyCartWorld).1 = .error e) ∧
       (checkoutCart 1 emptyCartWorld).2.db = emptyCartWorld.db ∧
       (pendingCarts 1 emptyCartWorld.db = [] →
        (checkoutCart 1 emptyCartWorld).1 = .error (JsError.new "Failed to fetch cart.")) ∧
       ((∃ cart, pendingCarts 1 emptyCartWorld.db = [cart] ∧
          cartLines cart.id emptyCartWorld.db = []) →
        NoFaults emptyCartWorld →
        (checkoutCart 1 emptyCartWorld).1 = .error (JsError.new "Cart is empty.")))) :=
  ⟨⟨by decide!, by decide!,
     checkoutCart_rejects 2 shopWorld (Or.inl (by decide!))⟩,
   ⟨by decide!, by decide!, by decide!,
     checkoutCart_rejects 1 emptyCartWorld
       (Or.inr ⟨⟨1, 1, "pending", 0⟩, by decide!, by decide!⟩)⟩⟩

/-- C5. Whenever `checkoutCart(userId)` throws, in particular when the insert of the order
or the insert of the order items fails, the `carts` and `cart_items` tables are exactly
as before the call: the cart is cleared only once the order and its items are written. -/
theorem checkoutCart_failure_keeps_cart (userId : Nat) (w : World) (e : JsError)
    (hfail : (checkoutCart userId w).1 = .error e) :
    (checkoutCart userId w).2.db.carts = w.db.carts ∧
    (checkoutCart userId w).2.db.cart_items = w.db.cart_items := by
  by_cases hc : ∃ cart, pendingCarts userId w.db = [cart] ∧ cartLines cart.id w.db ≠ []
  · obtain ⟨cart, h1, h2⟩ := hc
    rw [checkoutCart_eq userId w cart h1 h2] at hfail ⊢
    by_cases f1 : w.failing = true
    · simp [f1]
    · by_cases f2 : w.advance.failing = true
      · simp [f1, f2]
      · by_cases f3 : w.advance.advance.failing = true
        · simp [f1, f2, f3]
        · by_cases f4 : w.advance.advance.advance.failing = true
          · simp [f1, f2, f3, f4, withOrder]
          · simp [f1, f2, f3, f4] at hfail
  · have h : ∀ cart, pendingCarts userId w.db = [cart] → cartLines cart.id w.db = [] := by
      intro cart h1
      by_contra h2
      exact hc ⟨cart, h1, h2⟩
    rw [(checkoutCart_not_ready h).2]
    exact ⟨rfl, rfl⟩

theorem checkoutCart_failure_keeps_cart_witness :
    ((checkoutCart 1 (shopWorldFailing [false, false, true])).1
        = .error (JsError.new "Failed to create order.") ∧
      (checkoutCart 1 (shopWorldFailing [false, false, true])).2.db.carts
        = [⟨1, 1, "pending", 0⟩] ∧
      (checkoutCart 1 (shopWorldFailing [false, false, true])).2.db.cart_items
        = [⟨1, 1, 7, 2, 100⟩]) ∧
    ((checkoutCart 1 (shopWorldFailing [false, false, false, true])).1
        = .error (JsError.new "Failed to insert order items. connection failure") ∧
      (checkoutCart 1 (shopWorldFailing [false, false, false, true])).2.db.carts
        = [⟨1, 1, "pending", 0⟩] ∧
      (checkoutCart 1 (shopWorldFailing [false, false, false, true])).2.db.cart_items
        = [⟨1, 1, 7, 2, 100⟩]) :=
  ⟨⟨by decide!,
    checkoutCart_failure_keeps_cart 1 (shopWorldFailing [false, false, true])
      (JsError.new "Failed to create order.") (by decide!)⟩,
   ⟨by decide!,
    checkoutCart_failure_keeps_cart 1 (shopWorldFailing [false, false, false, true])
      (JsError.new "Failed to insert order items. connection failure") (by decide!)⟩⟩

/-- C6 (amended). Every successful `checkoutCart(userId)` returns the message
'Checkout successful' and the id of the order row it appended, and `POST /api/checkout`
answers 200 with that message and id; the order's total is in neither. -/
theorem checkoutCart_returns_order_id (userId : Nat) (w : World) (r : CheckoutResult)
    (hok : (checkoutCart userId w).1 = .ok r) :
    r.message = "Checkout successful" ∧
    (postCheckout userId w).1 = ⟨200, "Checkout successful", some r.orderId⟩ ∧
    ∃ order, (checkoutCart userId w).2.db.orders = w.db.orders ++ [order] ∧
      order.id = r.orderId ∧ order.user_id = userId := by
  obtain ⟨cart, h1, h2⟩ := checkoutCart_ok_ready hok
  obtain ⟨hr, hw⟩ := checkoutCart_ok h1 h2 hok
  refine ⟨by rw [hr], ?_, newOrder userId (cartLines cart.id w.db) w, ?_, by rw [hr], rfl⟩
  · unfold postCheckout
    generalize hres : checkoutCart userId w = res at hok
    obtain ⟨res1, res2⟩ := res
    simp only at hok
    subst hok
    simp [hr]
  · rw [hw]; simp [withOrderItems, withOrder]

theorem checkoutCart_returns_order_id_witness :
    (checkoutCart 1 shopWorld).1 = .ok ⟨"Checkout successful", 1⟩ ∧
    (checkoutCart 1 shopWorld).2.db.orders = [⟨1, 1, JSNum.fin 200, "pending", 5⟩] ∧
    (("Checkout successful" : String) = "Checkout successful" ∧
     (postCheckout 1 shopWorld).1 = ⟨200, "Checkout successful", some 1⟩ ∧
     ∃ order, (checkoutCart 1 shopWorld).2.db.orders = shopWorld.db.orders ++ [order] ∧
      order.id = 1 ∧ order.user_id = 1) :=
  ⟨by decide!, by decide!,
    checkoutCart_returns_order_id 1 shopWorld ⟨"Checkout successful", 1⟩ (by decide!)⟩

/-- C6 as stated fails: two checkouts whose orders have different totals (200 and 100)
return the same value and get the same HTTP response, so the total is not returned. -/
theorem checkoutCart_result_lacks_total :
    (checkoutCart 1 shopWorld).1 = .ok ⟨"Checkout successful", 1⟩ ∧
    (checkoutCart 1 cheapWorld).1 = .ok ⟨"Checkout successful", 1⟩ ∧
    (postCheckout 1 shopWorld).1 = (postCheckout 1 cheapWorld).1 ∧
    (checkoutCart 1 shopWorld).2.db.orders = [⟨1, 1, JSNum.fin 200, "pending", 5⟩] ∧
    (checkoutCart 1 cheapWorld).2.db.orders = [⟨1, 1, JSNum.fin 100, "pending", 5⟩] := by
  decide!

/-- C7. `checkoutCart(userId)`, whether it returns or throws and whatever storage calls
fail, leaves the `products` table (every product's stock included) unchanged. -/
theorem checkoutCart_keeps_products (userId : Nat) (w : World) :
    (checkoutCart userId w).2.db.products = w.db.products := by
  by_cases hc : ∃ cart, pendingCarts userId w.db = [cart] ∧ cartLines cart.id w.db ≠ []
  · obtain ⟨cart, h1, h2⟩ := hc
    rw [checkoutCart_eq userId w cart h1 h2]
    by_cases f1 : w.failing = true
    · simp [f1]
    · by_cases f2 : w.advance.failing = true
      · simp [f1, f2]
      · by_cases f3 : w.advance.advance.failing = true
        · simp [f1, f2, f3]
        · by_cases f4 : w.advance.advance.advance.failing = true
          · simp [f1, f2, f3, f4, withOrder]
          · simp [f1, f2, f3, f4, withOrderItems, withOrder]
  · have h : ∀ cart, pendingCarts userId w.db = [cart] → cartLines cart.id w.db = [] := by
      intro cart h1
      by_contra h2
      exact hc ⟨cart, h1, h2⟩
    rw [(checkoutCart_not_ready h).2]

/-! ## Order completion -/

theorem demand_nil (productId : Nat) : demand [] productId = 0 := rfl

theorem demand_cons (l : OrderLine) (rest : List OrderLine) (productId : Nat) :
    demand (l :: rest) productId
      = (if l.product_id = productId then l.quantity else 0) + demand rest productId := by
  unfold demand
  by_cases h : l.product_id = productId <;> simp [List.filter_cons, h]

theorem stocksAfter_nil (products : List Product) : stocksAfter [] products = products := by
  simp [stocksAfter, demand_nil]

theorem filter_key_map {α : Type} (key : α → Nat) (f : α → α)
    (hf : ∀ a, key (f a) = key a) (q : Nat) (l : List α) :
    (l.map f).filter (fun a => key a = q) = (l.filter (fun a => key a = q)).map f := by
  induction l with
  | nil => rfl
  | cons a l ih =>
    by_cases h : key a = q <;> simp [List.filter_cons, hf, h, ih]

theorem filter_id_setStock (db : Store) (productId q : Nat) (s : Int) :
    (setStock productId s db).products.filter (fun p => p.id = q)
      = (db.products.filter (fun p => p.id = q)).map
          (fun p => if p.id = productId then { p with stock := s } else p) := by
  simp only [setStock]
  apply filter_key_map (fun p : Product => p.id)
  intro p
  split <;> rfl

theorem mem_filter_single {products : List Product} {q : Nat} {p p0 : Product}
    (hp : products.filter (fun p => p.id = q) = [p]) (h0 : p0 ∈ products) (hid : p0.id = q) :
    p0 = p := by
  have : p0 ∈ products.filter (fun p => p.id = q) :=
    List.mem_filter.mpr ⟨h0, by simpa using hid⟩
  rw [hp] at this
  exact List.mem_singleton.mp this

theorem filter_single_id {products : List Product} {q : Nat} {p : Product}
    (hp : products.filter (fun p => p.id = q) = [p]) : p.id = q := by
  have : p ∈ products.filter (fun p => p.id = q) := by rw [hp]; exact List.mem_singleton.mpr rfl
  simpa using (List.mem_filter.mp this).2

theorem LinesSatisfiable.head {products : List Product} {l : OrderLine}
    {rest : List OrderLine} (h : LinesSatisfiable products (l :: rest)) :
    ∃ p, products.filter (fun p => p.id = l.product_id) = [p] ∧ l.quantity ≤ p.stock := by
  obtain ⟨p, hp, hq⟩ := h [] l rest rfl
  exact ⟨p, hp, by simpa [demand_nil] using hq⟩

theorem LinesSatisfiable.tail {db : Store} {l : OrderLine} {rest : List OrderLine}
    {p : Product} (h : LinesSatisfiable db.products (l :: rest))
    (hp : db.products.filter (fun p => p.id = l.product_id) = [p]) :
    LinesSatisfiable (setStock l.product_id (p.stock - l.quantity) db).products rest := by
  intro pre line post hsplit
  obtain ⟨p2, hp2, hq2⟩ := h (l :: pre) line post (by rw [hsplit]; rfl)
  rw [filter_id_setStock, hp2]
  refine ⟨_, rfl, ?_⟩
  rw [demand_cons] at hq2
  have hid2 := filter_single_id hp2
  by_cases hl : l.product_id = line.product_id
  · have hpp : p2 = p := by
      rw [← hl] at hp2
      rw [hp] at hp2
      simpa using hp2.symm
    subst hpp
    have : p2.id = l.product_id := by rw [hid2, hl]
    simp only [this, if_true]
    rw [if_pos hl] at hq2
    omega
  · have : ¬ p2.id = l.product_id := by rw [hid2]; exact fun h => hl h.symm
    simp only [this, if_false]
    rw [if_neg hl] at hq2
    omega

theorem stocksAfter_setStock {db : Store} {l : OrderLine} {p : Product}
    (rest : List OrderLine)
    (hp : db.products.filter (fun p => p.id = l.product_id) = [p]) :
    stocksAfter rest (setStock l.product_id (p.stock - l.quantity) db).products
      = stocksAfter (l :: rest) db.products := by
  simp only [stocksAfter, setStock, List.map_map]
  apply List.map_congr_left
  intro p0 h0
  simp only [Function.comp]
  rw [demand_cons]
  by_cases hid : p0.id = l.product_id
  · have := mem_filter_single hp h0 hid
    subst this
    simp only [hid, if_true]
    congr 1
    omega
  · have hne : ¬ l.product_id = p0.id := fun h => hid h.symm
    simp only [hid, hne, if_false]
    congr 1
    omega

theorem updateStocks_step {w : World} {l : OrderLine} {p : Product} (rest : List OrderLine)
    (hw : NoFaults w)
    (hp : w.db.products.filter (fun p => p.id = l.product_id) = [p])
    (hq : l.quantity ≤ p.stock) :
    updateStocks (l :: rest) w
      = updateStocks rest
          (w.advance.advance.setDb (setStock l.product_id (p.stock - l.quantity) w.db)) := by
  have hnn : ¬ (p.stock - l.quantity < 0) := by omega
  rw [updateStocks]
  simp [selectSingle, execute, hw.failing, hw.advance.failing, hp, hnn]

theorem updateStocks_satisfiable (lines : List OrderLine) :
    ∀ w : World, NoFaults w → LinesSatisfiable w.db.products lines →
      ∃ w2, updateStocks lines w = (none, w2) ∧ NoFaults w2 ∧
        w2.db = { w.db with products := stocksAfter lines w.db.products } := by
  induction lines with
  | nil =>
    intro w hw _
    exact ⟨w, rfl, hw, by rw [stocksAfter_nil]⟩
  | cons l rest ih =>
    intro w hw hsat
    obtain ⟨p, hp, hq⟩ := hsat.head
    rw [updateStocks_step rest hw hp hq]
    obtain ⟨w2, h2, hnf, hdb⟩ := ih
      (w.advance.advance.setDb (setStock l.product_id (p.stock - l.quantity) w.db))
      (hw.advance.advance.setDb _) (by simpa using hsat.tail hp)
    refine ⟨w2, h2, hnf, ?_⟩
    rw [hdb]
    simp only [World.setDb_db]
    rw [stocksAfter_setStock rest hp]
    rfl

theorem updateStocks_insufficient (pre : List OrderLine) :
    ∀ (w : World) (bad : OrderLine) (post : List OrderLine) (p : Product), NoFaults w →
      LinesSatisfiable w.db.products pre →
      w.db.products.filter (fun p => p.id = bad.product_id) = [p] →
      p.stock < demand pre bad.product_id + bad.quantity →
      ∃ w2, updateStocks (pre ++ bad :: post) w
          = (some (JsError.new ("Insufficient stock for product " ++ toString bad.product_id)),
             w2) ∧
        w2.db = { w.db with products := stocksAfter pre w.db.products } := by
  induction pre with
  | nil =>
    intro w bad post p hw _ hp hlt
    have hneg : p.stock - bad.quantity < 0 := by
      rw [demand_nil] at hlt; omega
    refine ⟨w.advance, ?_, by rw [stocksAfter_nil]; rfl⟩
    rw [List.nil_append, updateStocks]
    simp [selectSingle, hw.failing, hp, hneg]
  | cons l pre ih =>
    intro w bad post p hw hsat hp hlt
    obtain ⟨pl, hpl, hql⟩ := hsat.head
    rw [List.cons_append, updateStocks_step _ hw hpl hql]
    have hp2 : (setStock l.product_id (pl.stock - l.quantity) w.db).products.filter
        (fun p => p.id = bad.product_id)
        = [if p.id = l.product_id then { p with stock := pl.stock - l.quantity } else p] := by
      rw [filter_id_setStock, hp]; rfl
    have hlt2 : (if p.id = l.product_id then { p with stock := pl.stock - l.quantity } else p).stock
        < demand pre bad.product_id + bad.quantity := by
      rw [demand_cons] at hlt
      have hid := filter_single_id hp
      by_cases hl : l.product_id = bad.product_id
      · have hpp : pl = p := by
          rw [hl, hp] at hpl
          simpa using hpl.symm
        subst hpp
        have : pl.id = l.product_id := by rw [hid, hl]
        simp only [this, if_true]
        rw [if_pos hl] at hlt
        omega
      · have : ¬ p.id = l.product_id := by rw [hid]; exact fun h => hl h.symm
        simp only [this, if_false]
        rw [if_neg hl] at hlt
        omega
    obtain ⟨w2, h2, hdb⟩ := ih
      (w.advance.advance.setDb (setStock l.product_id (pl.stock - l.quantity) w.db))
      bad post _ (hw.advance.advance.setDb _) (by simpa using hsat.tail hpl)
      (by simpa using hp2) hlt2
    refine ⟨w2, h2, ?_⟩
    rw [hdb]
    simp only [World.setDb_db]
    rw [stocksAfter_setStock pre hpl]
    rfl

theorem linesSatisfiable_of_index {products : List Product} {lines : List OrderLine}
    (h : ∀ k (hk : k < lines.length),
      ∃ p ∈ products, products.filter (fun q => q.id = lines[k].product_id) = [p] ∧
        demand (lines.take k) lines[k].product_id + lines[k].quantity ≤ p.stock) :
    LinesSatisfiable products lines := by
  intro pre line post hsplit
  subst hsplit
  have hk : pre.length < (pre ++ line :: post).length := by simp
  obtain ⟨p, _, hp, hq⟩ := h pre.length hk
  have hget : (pre ++ line :: post)[pre.length] = line :=
    List.getElem_of_append rfl rfl
  rw [hget] at hp hq
  rw [List.take_left] at hq
  exact ⟨p, hp, hq⟩

theorem ordersWithLines_single {orderId : Nat} {db : Store} {order : Order}
    (horder : db.orders.filter (fun o => o.id = orderId) = [order]) :
    ordersWithLines orderId db
      = [{ order_items := orderLines orderId db, status := order.status }] := by
  have hid : order.id = orderId := by
    have : order ∈ db.orders.filter (fun o => o.id = orderId) := by
      rw [horder]; exact List.mem_singleton.mpr rfl
    simpa using (List.mem_filter.mp this).2
  simp [ordersWithLines, horder, hid]

theorem completeOrder_success {orderId : Nat} {w : World} {order : Order}
    (horder : w.db.orders.filter (fun o => o.id = orderId) = [order])
    (hstatus : order.status ≠ "Completed")
    (hsat : LinesSatisfiable w.db.products (orderLines orderId w.db))
    (hw : NoFaults w) :
    ∃ w2, completeOrder orderId w = (⟨200, "Order marked as complete.", none⟩, w2) ∧
      NoFaults w2 ∧
      w2.db = { w.db with
        products := stocksAfter (orderLines orderId w.db) w.db.products,
        orders := ordersCompleted orderId w.db.orders } := by
  obtain ⟨w1, h1, hnf1, hdb1⟩ := updateStocks_satisfiable (orderLines orderId w.db) w.advance
    hw.advance (by simpa using hsat)
  refine ⟨w1.advance.setDb { w.db with
      products := stocksAfter (orderLines orderId w.db) w.db.products,
      orders := ordersCompleted orderId w.db.orders }, ?_, hnf1.advance.setDb _, rfl⟩
  unfold completeOrder
  simp only [selectSingle, hw.failing, ordersWithLines_single horder]
  simp only [Bool.false_eq_true, if_false, Option.isSome_none, hstatus, h1, execute,
    hnf1.failing, hdb1, ordersCompleted, World.advance_db]

theorem completeOrder_already_completed {orderId : Nat} {w : World} {order : Order}
    (horder : w.db.orders.filter (fun o => o.id = orderId) = [order])
    (hstatus : order.status = "Completed") (hf : w.failing = false) :
    completeOrder orderId w = (⟨400, "Order is already completed.", none⟩, w.advance) := by
  unfold completeOrder
  simp [selectSingle, hf, ordersWithLines_single horder, hstatus]

theorem pending_ne_completed {order : Order} (h : order.status = "pending") :
    order.status ≠ "Completed" := by
  rw [h]; decide

theorem demand_eq_zero {lines : List OrderLine} {productId : Nat}
    (h : ∀ l ∈ lines, l.product_id ≠ productId) : demand lines productId = 0 := by
  unfold demand
  have : lines.filter (fun l => l.product_id = productId) = [] := by
    rw [List.filter_eq_nil_iff]
    intro l hl
    simpa using h l hl
  rw [this]; rfl

/-- C8. For a pending order whose lines can be satisfied in sequence, with no storage
failure, the complete-order route answers 200, sets that order's status to 'Completed'
and leaves every product's stock at its previous value less the total quantity of the
order's lines for that product; products the order does not name, the other orders and
the other tables are unchanged. -/
theorem completeOrder_completes (orderId : Nat) (w : World) (order : Order)
    (horder : w.db.orders.filter (fun o => o.id = orderId) = [order])
    (hpending : order.status = "pending")
    (hsat : LinesSatisfiable w.db.products (orderLines orderId w.db))
    (hw : NoFaults w) :
    (completeOrder orderId w).1 = ⟨200, "Order marked as complete.", none⟩ ∧
    (completeOrder orderId w).2.db = { w.db with
      products := w.db.products.map (fun p =>
        { p with stock := p.stock - demand (orderLines orderId w.db) p.id }),
      orders := w.db.orders.map (fun o =>
        if o.id = orderId then { o with status := "Completed" } else o) } ∧
    (∀ p ∈ w.db.products, (∀ l ∈ orderLines orderId w.db, l.product_id ≠ p.id) →
      p ∈ (completeOrder orderId w).2.db.products) := by
  obtain ⟨w2, h2, _, hdb⟩ :=
    completeOrder_success horder (pending_ne_completed hpending) hsat hw
  rw [h2]
  refine ⟨rfl, hdb, ?_⟩
  intro p hp hnone
  simp only [hdb, stocksAfter]
  refine List.mem_map.mpr ⟨p, hp, ?_⟩
  rw [demand_eq_zero hnone, sub_zero]

theorem completeOrder_completes_witness :
    (completeOrder 1 ordersWorld).2.db.products =
      [⟨7, "Dumbbell", "dumbbell.png", 100, none, 2⟩,
       ⟨8, "Bench", "bench.png", 900, some 750, 0⟩] ∧
    (completeOrder 1 ordersWorld).2.db.orders =
      [⟨1, 1, JSNum.fin 1050, "Completed", 2⟩, ⟨2, 1, JSNum.fin 2550, "pending", 4⟩] ∧
    ((completeOrder 1 ordersWorld).1 = ⟨200, "Order marked as complete.", none⟩ ∧
     (completeOrder 1 ordersWorld).2.db = { ordersWorld.db with
      products := ordersWorld.db.products.map (fun p =>
        { p with stock := p.stock - demand (orderLines 1 ordersWorld.db) p.id }),
      orders := ordersWorld.db.orders.map (fun o =>
        if o.id = 1 then { o with status := "Completed" } else o) } ∧
     (∀ p ∈ ordersWorld.db.products,
      (∀ l ∈ orderLines 1 ordersWorld.db, l.product_id ≠ p.id) →
      p ∈ (completeOrder 1 ordersWorld).2.db.products)) :=
  ⟨by decide!, by decide!,
    completeOrder_completes 1 ordersWorld ⟨1, 1, JSNum.fin 1050, "pending", 2⟩
      (by decide!) (by decide!) (linesSatisfiable_of_index (by decide!))
      (by unfold NoFaults; decide!)⟩

/-- C9. Completing the same pending order twice, its lines satisfiable and no storage
call failing: the first call answers 200 and reduces each stock once by the order's
demand; the second call answers 400 'Order is already completed.' and leaves the whole
store, every stock and the order's status included, as the first call left it. -/
theorem completeOrder_twice (orderId : Nat) (w : World) (order : Order)
    (horder : w.db.orders.filter (fun o => o.id = orderId) = [order])
    (hpending : order.status = "pending")
    (hsat : LinesSatisfiable w.db.products (orderLines orderId w.db))
    (hw : NoFaults w) :
    (completeOrder orderId w).1 = ⟨200, "Order marked as complete.", none⟩ ∧
    (completeOrder orderId w).2.db.products = w.db.products.map (fun p =>
      { p with stock := p.stock - demand (orderLines orderId w.db) p.id }) ∧
    (completeOrder orderId (completeOrder orderId w).2).1
      = ⟨400, "Order is already completed.", none⟩ ∧
    (completeOrder orderId (completeOrder orderId w).2).2.db
      = (completeOrder orderId w).2.db := by
  obtain ⟨w2, h2, hnf2, hdb⟩ :=
    completeOrder_success horder (pending_ne_completed hpending) hsat hw
  have horder2 : w2.db.orders.filter (fun o => o.id = orderId)
      = [{ order with status := "Completed" }] := by
    have hid : order.id = orderId := by
      have : order ∈ w.db.orders.filter (fun o => o.id = orderId) := by
        rw [horder]; exact List.mem_singleton.mpr rfl
      simpa using (List.mem_filter.mp this).2
    rw [hdb]
    simp only [ordersCompleted]
    rw [filter_key_map (fun o : Order => o.id) _ (by intro o; split <;> rfl), horder]
    simp [hid]
  rw [h2]
  simp only
  rw [completeOrder_already_completed horder2 rfl hnf2.failing]
  refine ⟨trivial, ?_, rfl, rfl⟩
  rw [hdb]; rfl

theorem completeOrder_twice_witness :
    (completeOrder 1 ordersWorld).2.db.products =
      [⟨7, "Dumbbell", "dumbbell.png", 100, none, 2⟩,
       ⟨8, "Bench", "bench.png", 900, some 750, 0⟩] ∧
    (completeOrder 1 (completeOrder 1 ordersWorld).2).2.db.products =
      [⟨7, "Dumbbell", "dumbbell.png", 100, none, 2⟩,
       ⟨8, "Bench", "bench.png", 900, some 750, 0⟩] ∧
    ((completeOrder 1 ordersWorld).1 = ⟨200, "Order marked as complete.", none⟩ ∧
     (completeOrder 1 ordersWorld).2.db.products = ordersWorld.db.products.map (fun p =>
      { p with stock := p.stock - demand (orderLines 1 ordersWorld.db) p.id }) ∧
     (completeOrder 1 (completeOrder 1 ordersWorld).2).1
      = ⟨400, "Order is already completed.", none⟩ ∧
     (completeOrder 1 (completeOrder 1 ordersWorld).2).2.db
      = (completeOrder 1 ordersWorld).2.db) :=
  ⟨by decide!, by decide!,
    completeOrder_twice 1 ordersWorld ⟨1, 1, JSNum.fin 1050, "pending", 2⟩
      (by decide!) (by decide!) (linesSatisfiable_of_index (by decide!))
      (by unfold NoFaults; decide!)⟩

/-- C10. With no storage failure, when the lines before `bad` can be satisfied in
sequence and `bad` asks more than what is then left of its product, the complete-order
route answers 500 'Insufficient stock for product <id of that product>'; the `orders`
table is unchanged (the order stays pending); the stocks are the previous ones less the
demand of the earlier lines only, so the offending line and the later lines write
nothing and the earlier decrements stay; when `bad` is the first line (in particular the
only one) the whole store is unchanged. -/
theorem completeOrder_insufficient_stock (orderId : Nat) (w : World) (order : Order)
    (pre : List OrderLine) (bad : OrderLine) (post : List OrderLine) (p : Product)
    (horder : w.db.orders.filter (fun o => o.id = orderId) = [order])
    (hpending : order.status = "pending")
    (hlines : orderLines orderId w.db = pre ++ bad :: post)
    (hpre : LinesSatisfiable w.db.products pre)
    (hp : w.db.products.filter (fun q => q.id = bad.product_id) = [p])
    (hlt : p.stock - demand pre bad.product_id < bad.quantity)
    (hw : NoFaults w) :
    (completeOrder orderId w).1
      = ⟨500, "Insufficient stock for product " ++ toString bad.product_id, none⟩ ∧
    (completeOrder orderId w).2.db = { w.db with
      products := w.db.products.map (fun q =>
        { q with stock := q.stock - demand pre q.id }) } ∧
    (completeOrder orderId w).2.db.orders = w.db.orders ∧
    (pre = [] → (completeOrder orderId w).2.db = w.db) := by
  obtain ⟨w1, h1, hdb1⟩ := updateStocks_insufficient pre w.advance bad post p hw.advance
    (by simpa using hpre) (by simpa using hp) (by omega)
  have hstatus := pending_ne_completed hpending
  have hco : completeOrder orderId w
      = (⟨500, "Insufficient stock for product " ++ toString bad.product_id, none⟩, w1) := by
    unfold completeOrder
    simp only [selectSingle, hw.failing, ordersWithLines_single horder]
    simp only [Bool.false_eq_true, if_false, Option.isSome_none, hstatus, hlines, h1,
      JsError.new]
  rw [hco]
  refine ⟨rfl, ?_, ?_, ?_⟩
  · rw [hdb1]; rfl
  · rw [hdb1]; rfl
  · intro hnil
    subst hnil
    simp only [hdb1, stocksAfter_nil, World.advance_db]

theorem completeOrder_insufficient_stock_witness :
    (completeOrder 2 ordersWorld).2.db.products =
      [⟨7, "Dumbbell", "dumbbell.png", 100, none, 3⟩,
       ⟨8, "Bench", "bench.png", 900, some 750, 1⟩] ∧
    ((completeOrder 2 ordersWorld).1
      = ⟨500, "Insufficient stock for product " ++ toString (8 : Nat), none⟩ ∧
     (completeOrder 2 ordersWorld).2.db = { ordersWorld.db with
      products := ordersWorld.db.products.map (fun q =>
        { q with stock := q.stock - demand [⟨7, 2⟩] q.id }) } ∧
     (completeOrder 2 ordersWorld).2.db.orders = ordersWorld.db.orders ∧
     (([⟨7, 2⟩] : List OrderLine) = [] → (completeOrder 2 ordersWorld).2.db = ordersWorld.db)) :=
  ⟨by decide!,
    completeOrder_insufficient_stock 2 ordersWorld ⟨2, 1, JSNum.fin 2550, "pending", 4⟩
      [⟨7, 2⟩] ⟨8, 3⟩ [⟨7, 1⟩] ⟨8, "Bench", "bench.png", 900, some 750, 1⟩
      (by decide!) (by decide!) (by decide!) (linesSatisfiable_of_index (by decide!))
      (by decide!) (by decide!) (by unfold NoFaults; decide!)⟩

/-! ## Cart resolution -/

theorem newCart_advance (userId : Nat) (w : World) :
    newCart userId w.advance = newCart userId w := rfl

theorem getUserCart_cases (userId : Nat) (w : World) :
    (∃ e w1, getUserCart userId w = (.error e, w1) ∧ w1.db = w.db) ∨
    (∃ c, pendingCarts userId w.db = [c] ∧ getUserCart userId w = (.ok (some c), w.advance)) ∨
    ((∀ c, pendingCarts userId w.db ≠ [c]) ∧
      getUserCart userId w = (.ok (some (newCart userId w)),
        w.advance.advance.setDb { w.db with carts := w.db.carts ++ [newCart userId w] })) := by
  by_cases f1 : w.failing = true
  · left
    exact ⟨JsError.ofPg storageError, w.advance,
      by simp [getUserCart, selectSingle, f1, Option.filter, storageError], rfl⟩
  · have f1' : w.failing = false := by simpa using f1
    by_cases hs : ∃ c, pendingCarts userId w.db = [c]
    · obtain ⟨c, hc⟩ := hs
      right; left
      exact ⟨c, hc, getUserCart_existing hc f1'⟩
    · have hns : ∀ c, pendingCarts userId w.db ≠ [c] := fun c hc => hs ⟨c, hc⟩
      have hsel : selectSingle (pendingCarts userId) w = (⟨none, some pgrst116⟩, w.advance) := by
        unfold selectSingle
        rw [f1']
        cases hp : pendingCarts userId w.db with
        | nil => simp
        | cons c rest =>
          cases rest with
          | nil => exact absurd hp (hns c)
          | cons d rest => simp
      by_cases f2 : w.advance.failing = true
      · left
        exact ⟨JsError.ofPg storageError, w.advance.advance,
          by simp [getUserCart, hsel, insertReturning, f2, Option.filter, pgrst116], rfl⟩
      · right; right
        refine ⟨hns, ?_⟩
        simp [getUserCart, hsel, insertReturning, f2, Option.filter, pgrst116, newCart]

/-! ## Adding an item -/

theorem addItemToCart_getUserCart_error {userId productId : Nat} {quantity : Option Int}
    {w w1 : World} {e : JsError} (hget : getUserCart userId w = (.error e, w1)) :
    addItemToCart userId productId quantity w = (.error e, w1) := by
  simp [addItemToCart, hget]

theorem addItemToCart_no_product {userId productId : Nat} {quantity : Option Int}
    {w w1 : World} {cart : Cart} (hget : getUserCart userId w = (.ok (some cart), w1))
    (h : w1.failing = true ∨ ∀ x, w1.db.products.filter (fun p => p.id = productId) ≠ [x]) :
    addItemToCart userId productId quantity w
      = (.error (JsError.new "Failed to fetch product price."), w1.advance) := by
  unfold addItemToCart
  simp only [hget]
  by_cases f1 : w1.failing = true
  · simp [selectSingle, f1]
  · rcases h with h | h
    · exact absurd h f1
    · cases hp : w1.db.products.filter (fun p => p.id = productId) with
      | nil => simp [selectSingle, f1, hp]
      | cons x rest =>
        cases rest with
        | nil => exact absurd hp (h x)
        | cons y rest => simp [selectSingle, f1, hp]

theorem addItemToCart_eq {userId productId : Nat} {quantity : Option Int}
    {w w1 : World} {cart : Cart} {product : Product}
    (hget : getUserCart userId w = (.ok (some cart), w1))
    (hf : w1.failing = false)
    (hprod : w1.db.products.filter (fun p => p.id = productId) = [product]) :
    addItemToCart userId productId quantity w =
      (.ok { message := "Item added to cart successfully." },
        w1.advance.advance.advance.setDb
          (lineAdded cart productId (quantity.getD 1)
            (jsOr product.discounted_price product.original_price)
            w1.advance.failing w1.advance.advance.failing w1.db)) := by
  unfold addItemToCart
  simp only [hget]
  by_cases f2 : w1.advance.failing = true
  · by_cases f3 : w1.advance.advance.failing = true
    · simp [selectSingle, execute, hf, hprod, f2, f3, lineAdded]
      rfl
    · simp [selectSingle, execute, hf, hprod, f2, f3, lineAdded]
  · cases hl : productLines cart.id productId w1.db with
    | nil =>
      by_cases f3 : w1.advance.advance.failing = true
      · simp [selectSingle, execute, hf, hprod, f2, f3, lineAdded, hl, theOnly]
        rfl
      · simp [selectSingle, execute, hf, hprod, f2, f3, lineAdded, hl, theOnly]
    | cons x rest =>
      cases rest with
      | nil =>
        by_cases f3 : w1.advance.advance.failing = true
        · simp [selectSingle, execute, hf, hprod, f2, f3, lineAdded, hl, theOnly]
          rfl
        · simp [selectSingle, execute, hf, hprod, f2, f3, lineAdded, hl, theOnly]
      | cons y rest =>
        by_cases f3 : w1.advance.advance.failing = true
        · simp [selectSingle, execute, hf, hprod, f2, f3, lineAdded, hl, theOnly]
          rfl
        · simp [selectSingle, execute, hf, hprod, f2, f3, lineAdded, hl, theOnly]

@[simp] theorem lineAdded_products (cart : Cart) (productId : Nat) (quantity : Int)
    (price : ℚ) (a b : Bool) (db : Store) :
    (lineAdded cart productId quantity price a b db).products = db.products := by
  unfold lineAdded
  split
  · rfl
  · split
    · split <;> rfl
    · rfl

@[simp] theorem lineAdded_carts (cart : Cart) (productId : Nat) (quantity : Int)
    (price : ℚ) (a b : Bool) (db : Store) :
    (lineAdded cart productId quantity price a b db).carts = db.carts := by
  unfold lineAdded
  split
  · rfl
  · split
    · split <;> rfl
    · rfl

@[simp] theorem lineAdded_orders (cart : Cart) (productId : Nat) (quantity : Int)
    (price : ℚ) (a b : Bool) (db : Store) :
    (lineAdded cart productId quantity price a b db).orders = db.orders := by
  unfold lineAdded
  split
  · rfl
  · split
    · split <;> rfl
    · rfl

@[simp] theorem lineAdded_order_items (cart : Cart) (productId : Nat) (quantity : Int)
    (price : ℚ) (a b : Bool) (db : Store) :
    (lineAdded cart productId quantity price a b db).order_items = db.order_items := by
  unfold lineAdded
  split
  · rfl
  · split
    · split <;> rfl
    · rfl

theorem getUserCart_db (userId : Nat) (w : World) :
    (getUserCart userId w).2.db = w.db ∨
    ((∀ c, pendingCarts userId w.db ≠ [c]) ∧
      (getUserCart userId w).1 = .ok (some (newCart userId w)) ∧
      (getUserCart userId w).2.db
        = { w.db with carts := w.db.carts ++ [newCart userId w] }) := by
  rcases getUserCart_cases userId w with ⟨e, w1, h, hdb⟩ | ⟨c, _, h⟩ | ⟨hns, h⟩
  · left; rw [h]; exact hdb
  · left; rw [h]; rfl
  · right; rw [h]; exact ⟨hns, rfl, rfl⟩

theorem getUserCart_ne_none (userId : Nat) (w : World) :
    (getUserCart userId w).1 ≠ .ok none := by
  rcases getUserCart_cases userId w with ⟨e, w1, h, _⟩ | ⟨c, _, h⟩ | ⟨_, h⟩ <;>
    rw [h] <;> simp

theorem addItemToCart_db (userId productId : Nat) (quantity : Option Int) (w : World) :
    (addItemToCart userId productId quantity w).2.db = (getUserCart userId w).2.db ∨
    ∃ cart product a b,
      (getUserCart userId w).1 = .ok (some cart) ∧
      (getUserCart userId w).2.db.products.filter (fun p => p.id = productId) = [product] ∧
      (addItemToCart userId productId quantity w).1
        = .ok { message := "Item added to cart successfully." } ∧
      (addItemToCart userId productId quantity w).2.db
        = lineAdded cart productId (quantity.getD 1)
            (jsOr product.discounted_price product.original_price) a b
            (getUserCart userId w).2.db := by
  generalize hres : getUserCart userId w = res
  obtain ⟨r, w1⟩ := res
  cases r with
  | error e => left; rw [addItemToCart_getUserCart_error hres]
  | ok cart =>
    cases cart with
    | none =>
      exact absurd (by rw [hres]) (getUserCart_ne_none userId w)
    | some cart =>
      by_cases h : w1.failing = true ∨
          ∀ x, w1.db.products.filter (fun p => p.id = productId) ≠ [x]
      · left; rw [addItemToCart_no_product hres h]; rfl
      · have hf : w1.failing = false := by
          by_contra hc; exact h (Or.inl (by simpa using hc))
        have hex : ∃ x, w1.db.products.filter (fun p => p.id = productId) = [x] := by
          by_contra hc
          exact h (Or.inr (fun x hx => hc ⟨x, hx⟩))
        obtain ⟨product, hprod⟩ := hex
        right
        refine ⟨cart, product, w1.advance.failing, w1.advance.advance.failing, rfl, hprod,
          ?_, ?_⟩
        · rw [addItemToCart_eq hres hf hprod]
        · rw [addItemToCart_eq hres hf hprod]; rfl

theorem getCartItems_db (userId : Nat) (w : World) :
    (getCartItems userId w).2.db = (getUserCart userId w).2.db := by
  unfold getCartItems
  generalize getUserCart userId w = res
  obtain ⟨r, w1⟩ := res
  cases r with
  | error e => rfl
  | ok cart =>
    cases cart with
    | none => rfl
    | some cart =>
      by_cases f : w1.failing = true <;> simp [selectRows, f]

theorem removeItemFromCart_db (userId productId : Nat) (w : World) :
    (removeItemFromCart userId productId w).2.db = (getUserCart userId w).2.db ∨
    ∃ cart, (getUserCart userId w).1 = .ok (some cart) ∧
      (removeItemFromCart userId productId w).1 = .ok () ∧
      (removeItemFromCart userId productId w).2.db
        = { (getUserCart userId w).2.db with
            cart_items := (getUserCart userId w).2.db.cart_items.filter (fun i =>
              ¬ (i.cart_id = cart.id ∧ i.product_id = productId)) } := by
  unfold removeItemFromCart
  generalize getUserCart userId w = res
  obtain ⟨r, w1⟩ := res
  cases r with
  | error e => left; rfl
  | ok cart =>
    cases cart with
    | none => left; rfl
    | some cart =>
      by_cases f : w1.failing = true
      · left; simp [execute, f]
      · right; exact ⟨cart, rfl, by simp [execute, f], by simp [execute, f]⟩

theorem postCartUpdate_db (userId productId : Option Nat) (quantity : Option Int)
    (w : World) :
    (postCartUpdate userId productId quantity w).2.db = w.db ∨
    ∃ u p q cart, userId = some u ∧ productId = some p ∧ quantity = some q ∧ 0 < q ∧
      pendingCarts u w.db = [cart] ∧
      (postCartUpdate userId productId quantity w).1
        = ⟨200, "Cart quantity updated successfully", none⟩ ∧
      (postCartUpdate userId productId quantity w).2.db
        = { w.db with cart_items := w.db.cart_items.map (fun i =>
              if i.cart_id = cart.id ∧ i.product_id = p
              then { i with quantity := q } else i) } := by
  unfold postCartUpdate
  cases hu : userId.filter (fun id => id ≠ 0) with
  | none => left; rfl
  | some u =>
    have hu' : userId = some u := by
      cases userId with
      | none => simp [Option.filter] at hu
      | some x =>
        simp only [Option.filter] at hu
        split at hu
        · simpa using hu
        · cases hu
    cases hp : productId.filter (fun id => id ≠ 0) with
    | none => left; rfl
    | some p =>
      have hp' : productId = some p := by
        cases productId with
        | none => simp [Option.filter] at hp
        | some x =>
          simp only [Option.filter] at hp
          split at hp
          · simpa using hp
          · cases hp
      cases hq : quantity.filter (fun q => 0 < q) with
      | none => left; rfl
      | some q =>
        have hq' : quantity = some q ∧ 0 < q := by
          cases quantity with
          | none => simp [Option.filter] at hq
          | some x =>
            simp only [Option.filter] at hq
            split at hq
            · rename_i hpos
              have : x = q := by simpa using hq
              subst this
              exact ⟨rfl, by simpa using hpos⟩
            · cases hq
        simp only
        by_cases f1 : w.failing = true
        · left; simp [selectSingle, f1]
        · cases hc : pendingCarts u w.db with
          | nil => left; simp [selectSingle, f1, hc]
          | cons c rest =>
            cases rest with
            | cons d rest => left; simp [selectSingle, f1, hc]
            | nil =>
              by_cases f2 : w.advance.failing = true
              · left; simp [selectSingle, execute, f1, f2, hc]
              · right
                exact ⟨u, p, q, c, hu', hp', hq'.1, hq'.2, hc,
                  by simp [selectSingle, execute, f1, f2, hc],
                  by simp [selectSingle, execute, f1, f2, hc]⟩

/-! ## Invariants -/

theorem updateStocks_db (lines : List OrderLine) :
    ∀ w : World, ∃ products,
      (updateStocks lines w).2.db = { w.db with products := products } ∧
      (StocksNonneg w.db → ∀ p ∈ products, 0 ≤ p.stock) := by
  induction lines with
  | nil => intro w; exact ⟨w.db.products, rfl, fun h => h⟩
  | cons l rest ih =>
    intro w
    rw [updateStocks]
    by_cases f1 : w.failing = true
    · exact ⟨w.db.products, by simp [selectSingle, f1], fun h => h⟩
    · cases hp : w.db.products.filter (fun p => p.id = l.product_id) with
      | nil => exact ⟨w.db.products, by simp [selectSingle, f1, hp], fun h => h⟩
      | cons x more =>
        cases more with
        | cons y more => exact ⟨w.db.products, by simp [selectSingle, f1, hp], fun h => h⟩
        | nil =>
          by_cases hneg : x.stock - l.quantity < 0
          · exact ⟨w.db.products, by simp [selectSingle, f1, hp, hneg], fun h => h⟩
          · by_cases f2 : w.advance.failing = true
            · exact ⟨w.db.products, by simp [selectSingle, execute, f1, f2, hp, hneg],
                fun h => h⟩
            · obtain ⟨products, hdb, hnn⟩ := ih
                (w.advance.advance.setDb (setStock l.product_id (x.stock - l.quantity) w.db))
              refine ⟨products, ?_, ?_⟩
              · simp only [selectSingle, execute, f1, f2, hp, hneg, Bool.false_eq_true,
                  if_false, Option.isSome_none, World.advance_db]
                rw [hdb]; rfl
              · intro h0
                apply hnn
                intro p hpm
                simp only [World.setDb_db, setStock] at hpm
                obtain ⟨p0, hp0, rfl⟩ := List.mem_map.mp hpm
                split
                · simp only; omega
                · exact h0 p0 hp0

theorem completeOrder_db (orderId : Nat) (w : World) :
    ∃ products orders,
      (completeOrder orderId w).2.db = { w.db with products := products, orders := orders } ∧
      (StocksNonneg w.db → ∀ p ∈ products, 0 ≤ p.stock) := by
  unfold completeOrder
  by_cases f1 : w.failing = true
  · exact ⟨w.db.products, w.db.orders, by simp [selectSingle, f1], fun h => h⟩
  · cases ho : ordersWithLines orderId w.db with
    | nil => exact ⟨w.db.products, w.db.orders, by simp [selectSingle, f1, ho], fun h => h⟩
    | cons o more =>
      cases more with
      | cons o2 more =>
        exact ⟨w.db.products, w.db.orders, by simp [selectSingle, f1, ho], fun h => h⟩
      | nil =>
        by_cases hs : o.status = "Completed"
        · exact ⟨w.db.products, w.db.orders, by simp [selectSingle, f1, ho, hs], fun h => h⟩
        · obtain ⟨products, hdb, hnn⟩ := updateStocks_db o.order_items w.advance
          generalize hres : updateStocks o.order_items w.advance = res at hdb
          obtain ⟨r, w2⟩ := res
          simp only at hdb
          cases r with
          | some e =>
            exact ⟨products, w.db.orders,
              by simp [selectSingle, f1, ho, hs, hres, hdb], by simpa using hnn⟩
          | none =>
            by_cases f2 : w2.failing = true
            · exact ⟨products, w.db.orders,
                by simp [selectSingle, execute, f1, ho, hs, hres, hdb, f2], by simpa using hnn⟩
            · exact ⟨products, _,
                by simp [selectSingle, execute, f1, ho, hs, hres, hdb, f2]; rfl,
                by simpa using hnn⟩

theorem checkoutCart_db (userId : Nat) (w : World) :
    (checkoutCart userId w).2.db.products = w.db.products ∧
    ((checkoutCart userId w).2.db.carts = w.db.carts ∨
      ∃ cart : Cart, (checkoutCart userId w).2.db.carts = w.db.carts.map (fun c =>
        if c.id = cart.id then { c with status := "checked_out" } else c)) := by
  by_cases hc : ∃ cart, pendingCarts userId w.db = [cart] ∧ cartLines cart.id w.db ≠ []
  · obtain ⟨cart, h1, h2⟩ := hc
    rw [checkoutCart_eq userId w cart h1 h2]
    by_cases f1 : w.failing = true
    · simp [f1]
    · by_cases f2 : w.advance.failing = true
      · simp [f1, f2]
      · by_cases f3 : w.advance.advance.failing = true
        · simp [f1, f2, f3]
        · by_cases f4 : w.advance.advance.advance.failing = true
          · simp [f1, f2, f3, f4, withOrder]
          · by_cases f5 : w.advance.advance.advance.advance.failing = true <;>
            by_cases f6 : w.advance.advance.advance.advance.advance.failing = true
            · simp [f1, f2, f3, f4, f5, f6, withOrderItems, withOrder, afterClear]
            · refine ⟨by simp [f1, f2, f3, f4, withOrderItems, withOrder], Or.inr ⟨cart, ?_⟩⟩
              simp [f1, f2, f3, f4, f5, f6, withOrderItems, withOrder, afterClear]
            · simp [f1, f2, f3, f4, f5, f6, withOrderItems, withOrder, afterClear]
            · refine ⟨by simp [f1, f2, f3, f4, withOrderItems, withOrder], Or.inr ⟨cart, ?_⟩⟩
              simp [f1, f2, f3, f4, f5, f6, withOrderItems, withOrder, afterClear]
  · have h : ∀ cart, pendingCarts userId w.db = [cart] → cartLines cart.id w.db = [] := by
      intro cart h1
      by_contra h2
      exact hc ⟨cart, h1, h2⟩
    rw [(checkoutCart_not_ready h).2]
    exact ⟨rfl, Or.inl rfl⟩

theorem getUserCart_products (userId : Nat) (w : World) :
    (getUserCart userId w).2.db.products = w.db.products := by
  rcases getUserCart_db userId w with h | ⟨_, _, h⟩ <;> rw [h]

/-- C11. If every stock is non-negative, it still is after the complete-order operation,
whatever the order, its line quantities and the storage calls that fail; and
`addItemToCart`, the cart-quantity update, `removeItemFromCart`, `getCartItems` and
`checkoutCart` leave the `products` table as it is. -/
theorem stock_stays_nonnegative (orderId : Nat) (w : World) (hnn : StocksNonneg w.db) :
    StocksNonneg (completeOrder orderId w).2.db ∧
    (∀ userId productId quantity,
      (addItemToCart userId productId quantity w).2.db.products = w.db.products) ∧
    (∀ userId productId quantity,
      (postCartUpdate userId productId quantity w).2.db.products = w.db.products) ∧
    (∀ userId productId,
      (removeItemFromCart userId productId w).2.db.products = w.db.products) ∧
    (∀ userId, (getCartItems userId w).2.db.products = w.db.products) ∧
    (∀ userId, (checkoutCart userId w).2.db.products = w.db.products) := by
  refine ⟨?_, ?_, ?_, ?_, ?_, ?_⟩
  · obtain ⟨products, orders, hdb, h⟩ := completeOrder_db orderId w
    intro p hp
    rw [hdb] at hp
    exact h hnn p hp
  · intro userId productId quantity
    rcases addItemToCart_db userId productId quantity w with h | ⟨_, _, _, _, _, _, _, h⟩
    · rw [h, getUserCart_products]
    · rw [h, lineAdded_products, getUserCart_products]
  · intro userId productId quantity
    rcases postCartUpdate_db userId productId quantity w with h | ⟨_, _, _, _, _, _, _, _, _, _, h⟩
    · rw [h]
    · rw [h]
  · intro userId productId
    rcases removeItemFromCart_db userId productId w with h | ⟨_, _, _, h⟩
    · rw [h, getUserCart_products]
    · rw [h]; exact getUserCart_products userId w
  · intro userId
    rw [getCartItems_db, getUserCart_products]
  · intro userId
    exact (checkoutCart_db userId w).1

theorem stock_stays_nonnegative_witness :
    StocksNonneg ordersWorld.db ∧
    (completeOrder 2 ordersWorld).2.db.products =
      [⟨7, "Dumbbell", "dumbbell.png", 100, none, 3⟩,
       ⟨8, "Bench", "bench.png", 900, some 750, 1⟩] ∧
    (StocksNonneg (completeOrder 2 ordersWorld).2.db ∧
     (∀ userId productId quantity,
      (addItemToCart userId productId quantity ordersWorld).2.db.products
        = ordersWorld.db.products) ∧
     (∀ userId productId quantity,
      (postCartUpdate userId productId quantity ordersWorld).2.db.products
        = ordersWorld.db.products) ∧
     (∀ userId productId,
      (removeItemFromCart userId productId ordersWorld).2.db.products
        = ordersWorld.db.products) ∧
     (∀ userId, (getCartItems userId ordersWorld).2.db.products = ordersWorld.db.products) ∧
     (∀ userId, (checkoutCart userId ordersWorld).2.db.products = ordersWorld.db.products)) :=
  ⟨by unfold StocksNonneg; decide!, by decide!,
    stock_stays_nonnegative 2 ordersWorld (by unfold StocksNonneg; decide!)⟩

theorem atMostOnePending_of_carts {db db2 : Store} (h : db2.carts = db.carts)
    (hinv : AtMostOnePending db) : AtMostOnePending db2 := by
  intro u
  have := hinv u
  simpa [pendingCarts, h] using this

theorem atMostOnePending_newCart {db : Store} {userId : Nat}
    (hinv : AtMostOnePending db) (hns : ∀ c, pendingCarts userId db ≠ [c]) (cart : Cart)
    (hu : cart.user_id = userId) :
    AtMostOnePending { db with carts := db.carts ++ [cart] } := by
  intro u
  have hlen := hinv u
  simp only [pendingCarts, List.filter_append] at hlen ⊢
  by_cases hcu : u = userId
  · subst hcu
    have hnil : pendingCarts u db = [] := by
      cases hp : pendingCarts u db with
      | nil => rfl
      | cons c rest =>
        cases rest with
        | nil => exact absurd hp (hns c)
        | cons d rest =>
          have := hinv u
          rw [hp] at this
          simp at this
    have hnil2 : List.filter (fun c => decide (c.user_id = u) && decide (c.status = "pending"))
        db.carts = [] := hnil
    rw [hnil2]
    simp only [List.nil_append]
    exact List.length_filter_le _ _
  · have : List.filter (fun c => decide (c.user_id = u) && decide (c.status = "pending")) [cart]
        = [] := by
      rw [List.filter_eq_nil_iff]
      intro c hc
      rw [List.mem_singleton.mp hc, hu]
      have hne : ¬ userId = u := fun h => hcu h.symm
      simp [hne]
    rw [this, List.append_nil]
    exact hlen

theorem length_filter_map_le {α : Type} (f : α → α) (p : α → Bool)
    (hf : ∀ a, p (f a) = true → p a = true) (l : List α) :
    ((l.map f).filter p).length ≤ (l.filter p).length := by
  induction l with
  | nil => simp
  | cons a l ih =>
    simp only [List.map_cons, List.filter_cons]
    by_cases h1 : p (f a) = true
    · have h2 := hf a h1
      simp only [h1, h2, if_true, List.length_cons]
      omega
    · have h1' : p (f a) = false := by simpa using h1
      by_cases h2 : p a = true
      · rw [h1', h2]
        simp only [Bool.false_eq_true, if_false, if_true, List.length_cons]
        omega
      · have h2' : p a = false := by simpa using h2
        rw [h1', h2']
        simpa using ih

theorem atMostOnePending_checkedOut {db db2 : Store} (cart : Cart)
    (h : db2.carts = db.carts.map (fun c =>
      if c.id = cart.id then { c with status := "checked_out" } else c))
    (hinv : AtMostOnePending db) : AtMostOnePending db2 := by
  intro u
  have hlen := hinv u
  simp only [pendingCarts, h] at hlen ⊢
  refine le_trans (length_filter_map_le _ _ ?_ db.carts) hlen
  intro c hc
  by_cases hid : c.id = cart.id
  · simp [hid] at hc
  · simpa [hid] using hc

theorem atMostOnePending_getUserCart (userId : Nat) (w : World)
    (hinv : AtMostOnePending w.db) : AtMostOnePending (getUserCart userId w).2.db := by
  rcases getUserCart_db userId w with h | ⟨hns, _, h⟩
  · rw [h]; exact hinv
  · rw [h]; exact atMostOnePending_newCart hinv hns _ rfl

theorem atMostOnePending_run (op : CartOp) (w : World) (hinv : AtMostOnePending w.db) :
    AtMostOnePending (op.run w).db := by
  cases op with
  | getUserCart userId => exact atMostOnePending_getUserCart userId w hinv
  | addItemToCart userId productId quantity =>
    have hg := atMostOnePending_getUserCart userId w hinv
    rcases addItemToCart_db userId productId quantity w with h | ⟨_, _, _, _, _, _, _, h⟩
    · exact atMostOnePending_of_carts (by simp only [CartOp.run]; rw [h]) hg
    · exact atMostOnePending_of_carts (by simp only [CartOp.run]; rw [h, lineAdded_carts]) hg
  | getCartItems userId =>
    have hg := atMostOnePending_getUserCart userId w hinv
    exact atMostOnePending_of_carts (by simp only [CartOp.run]; rw [getCartItems_db]) hg
  | removeItemFromCart userId productId =>
    have hg := atMostOnePending_getUserCart userId w hinv
    rcases removeItemFromCart_db userId productId w with h | ⟨_, _, _, h⟩
    · exact atMostOnePending_of_carts (by simp only [CartOp.run]; rw [h]) hg
    · exact atMostOnePending_of_carts (by simp only [CartOp.run]; rw [h]) hg
  | postCartUpdate userId productId quantity =>
    rcases postCartUpdate_db userId productId quantity w with
      h | ⟨_, _, _, _, _, _, _, _, _, _, h⟩
    · exact atMostOnePending_of_carts (by simp only [CartOp.run]; rw [h]) hinv
    · exact atMostOnePending_of_carts (by simp only [CartOp.run]; rw [h]) hinv
  | checkoutCart userId =>
    rcases (checkoutCart_db userId w).2 with h | ⟨cart, h⟩
    · exact atMostOnePending_of_carts (by simp only [CartOp.run]; rw [h]) hinv
    · exact atMostOnePending_checkedOut cart (by simp only [CartOp.run]; rw [h]) hinv
  | completeOrder orderId =>
    obtain ⟨products, orders, h, _⟩ := completeOrder_db orderId w
    exact atMostOnePending_of_carts (by simp only [CartOp.run]; rw [h]) hinv

/-- C12. Starting from a store in which every user has at most one pending cart, after
any sequence of `getUserCart`, `addItemToCart`, `getCartItems`, `removeItemFromCart`,
cart-quantity update, `checkoutCart` and complete-order calls, each run to completion
before the next (and whatever storage calls fail), every user still has at most one
pending cart. -/
theorem at_most_one_pending_cart (ops : List CartOp) (w : World)
    (hinv : AtMostOnePending w.db) : AtMostOnePending (runOps ops w).db := by
  unfold runOps
  induction ops generalizing w with
  | nil => exact hinv
  | cons op rest ih => exact ih (op.run w) (atMostOnePending_run op w hinv)

theorem at_most_one_pending_cart_witness :
    AtMostOnePending shopWorld.db ∧
    (runOps [.addItemToCart 1 7 none, .addItemToCart 2 7 (some 3), .checkoutCart 1,
        .getUserCart 1, .completeOrder 1, .getCartItems 2] shopWorld).db.carts
      = [⟨1, 1, "checked_out", 0⟩, ⟨2, 2, "pending", 5⟩, ⟨3, 1, "pending", 5⟩] ∧
    AtMostOnePending
      (runOps [.addItemToCart 1 7 none, .addItemToCart 2 7 (some 3), .checkoutCart 1,
        .getUserCart 1, .completeOrder 1, .getCartItems 2] shopWorld).db :=
  have h0 : AtMostOnePending shopWorld.db :=
    fun _ => le_trans (List.length_filter_le _ _) (by decide)
  ⟨h0, by decide!, at_most_one_pending_cart _ shopWorld h0⟩

theorem pendingCarts_append_newCart {userId : Nat} {w : World}
    (h : pendingCarts userId w.db = []) :
    pendingCarts userId { w.db with carts := w.db.carts ++ [newCart userId w] }
      = [newCart userId w] := by
  have h0 : List.filter (fun c => decide (c.user_id = userId) && decide (c.status = "pending"))
      w.db.carts = [] := h
  simp [pendingCarts, List.filter_append, h0, newCart]

theorem mem_pendingCarts {userId : Nat} {db : Store} {cart : Cart}
    (h : cart ∈ pendingCarts userId db) :
    cart ∈ db.carts ∧ cart.user_id = userId ∧ cart.status = "pending" := by
  obtain ⟨hm, hp⟩ := List.mem_filter.mp h
  simp only [Bool.and_eq_true, decide_eq_true_eq] at hp
  exact ⟨hm, hp.1, hp.2⟩

/-- C13. With a working store and at most one pending cart for the user,
`getUserCart(userId)` returns a cart owned by the user with status 'pending': the user's
pending cart, the store unchanged, when there is one; otherwise a cart it appends to
`carts` (the only change to the store), which was not there before. A second call
returns the same cart and leaves the store as the first call left it. -/
theorem getUserCart_resolves (userId : Nat) (w : World)
    (hone : (pendingCarts userId w.db).length ≤ 1) (hw : NoFaults w) :
    ∃ cart : Cart,
      (getUserCart userId w).1 = .ok (some cart) ∧
      cart.user_id = userId ∧ cart.status = "pending" ∧
      ((pendingCarts userId w.db = [cart] ∧ (getUserCart userId w).2.db = w.db) ∨
       (pendingCarts userId w.db = [] ∧ cart ∉ w.db.carts ∧
        (getUserCart userId w).2.db = { w.db with carts := w.db.carts ++ [cart] })) ∧
      (getUserCart userId (getUserCart userId w).2).1 = .ok (some cart) ∧
      (getUserCart userId (getUserCart userId w).2).2.db = (getUserCart userId w).2.db := by
  cases hp : pendingCarts userId w.db with
  | nil =>
    have hg := getUserCart_create hp hw.failing hw.advance.failing
    have hp2 := pendingCarts_append_newCart hp
    have hnf2 : NoFaults (w.advance.advance.setDb
        { w.db with carts := w.db.carts ++ [newCart userId w] }) :=
      hw.advance.advance.setDb _
    have hg2 := getUserCart_existing (w := w.advance.advance.setDb
        { w.db with carts := w.db.carts ++ [newCart userId w] }) hp2 hnf2.failing
    refine ⟨newCart userId w, by rw [hg], rfl, rfl, Or.inr ⟨rfl, ?_, by rw [hg]; rfl⟩, ?_, ?_⟩
    · intro hmem
      exact newCart_id_fresh userId w _ hmem rfl
    · rw [hg, hg2]
    · rw [hg, hg2]; rfl
  | cons c rest =>
    cases rest with
    | cons d rest => rw [hp] at hone; simp at hone
    | nil =>
      have hg := getUserCart_existing hp hw.failing
      have hmem := mem_pendingCarts (by rw [hp]; exact List.mem_singleton.mpr rfl :
        c ∈ pendingCarts userId w.db)
      have hg2 := getUserCart_existing (w := w.advance) hp hw.advance.failing
      refine ⟨c, by rw [hg], hmem.2.1, hmem.2.2, Or.inl ⟨rfl, by rw [hg]; rfl⟩, ?_, ?_⟩
      · rw [hg, hg2]
      · rw [hg, hg2]; rfl

theorem getUserCart_resolves_witness :
    (getUserCart 2 shopWorld).1 = .ok (some ⟨2, 2, "pending", 5⟩) ∧
    (getUserCart 2 shopWorld).2.db.carts = [⟨1, 1, "pending", 0⟩, ⟨2, 2, "pending", 5⟩] ∧
    (getUserCart 1 shopWorld).1 = .ok (some ⟨1, 1, "pending", 0⟩) ∧
    (∃ cart : Cart,
      (getUserCart 2 shopWorld).1 = .ok (some cart) ∧
      cart.user_id = 2 ∧ cart.status = "pending" ∧
      ((pendingCarts 2 shopWorld.db = [cart] ∧ (getUserCart 2 shopWorld).2.db = shopWorld.db) ∨
       (pendingCarts 2 shopWorld.db = [] ∧ cart ∉ shopWorld.db.carts ∧
        (getUserCart 2 shopWorld).2.db
          = { shopWorld.db with carts := shopWorld.db.carts ++ [cart] })) ∧
      (getUserCart 2 (getUserCart 2 shopWorld).2).1 = .ok (some cart) ∧
      (getUserCart 2 (getUserCart 2 shopWorld).2).2.db = (getUserCart 2 shopWorld).2.db) ∧
    (∃ cart : Cart,
      (getUserCart 1 shopWorld).1 = .ok (some cart) ∧
      cart.user_id = 1 ∧ cart.status = "pending" ∧
      ((pendingCarts 1 shopWorld.db = [cart] ∧ (getUserCart 1 shopWorld).2.db = shopWorld.db) ∨
       (pendingCarts 1 shopWorld.db = [] ∧ cart ∉ shopWorld.db.carts ∧
        (getUserCart 1 shopWorld).2.db
          = { shopWorld.db with carts := shopWorld.db.carts ++ [cart] })) ∧
      (getUserCart 1 (getUserCart 1 shopWorld).2).1 = .ok (some cart) ∧
      (getUserCart 1 (getUserCart 1 shopWorld).2).2.db = (getUserCart 1 shopWorld).2.db) :=
  ⟨by decide!, by decide!, by decide!,
    getUserCart_resolves 2 shopWorld (by decide!) (by unfold NoFaults; decide!),
    getUserCart_resolves 1 shopWorld (by decide!) (by unfold NoFaults; decide!)⟩

theorem getUserCart_cart_items (userId : Nat) (w : World) :
    (getUserCart userId w).2.db.cart_items = w.db.cart_items := by
  rcases getUserCart_db userId w with h | ⟨_, _, h⟩ <;> rw [h]

theorem theOnly_eq_some {α : Type} {l : List α} {a : α} (h : theOnly l = some a) : l = [a] := by
  cases l with
  | nil => cases h
  | cons x rest =>
    cases rest with
    | nil => simp only [theOnly, Option.some.injEq] at h; rw [h]
    | cons y rest => cases h

theorem addItemToCart_existing_cart {userId productId : Nat} (quantity : Option Int)
    {w : World} {cart : Cart} {product : Product}
    (hcart : pendingCarts userId w.db = [cart])
    (hprod : w.db.products.filter (fun p => p.id = productId) = [product])
    (hw : NoFaults w) :
    addItemToCart userId productId quantity w =
      (.ok { message := "Item added to cart successfully." },
        w.advance.advance.advance.advance.setDb
          (lineAdded cart productId (quantity.getD 1)
            (jsOr product.discounted_price product.original_price) false false w.db)) := by
  have hget := getUserCart_existing hcart hw.failing
  rw [addItemToCart_eq hget hw.advance.failing (by simpa using hprod)]
  simp [hw.advance.advance.failing, hw.advance.advance.advance.failing]

theorem lineAdded_insert {cart : Cart} {productId : Nat} {quantity : Int} {price : ℚ}
    {db : Store} (h : productLines cart.id productId db = []) :
    lineAdded cart productId quantity price false false db =
      { db with cart_items := db.cart_items ++
          [{ id := nextId (db.cart_items.map (fun i => i.id)), cart_id := cart.id,
             product_id := productId, quantity := quantity, price := price }] } := by
  simp [lineAdded, h, theOnly]

theorem lineAdded_update {cart : Cart} {productId : Nat} {quantity : Int} {price : ℚ}
    {db : Store} {line : CartItem} (h : productLines cart.id productId db = [line])
    {sum : Int} (hs : jsAddInt line.quantity quantity = some sum) :
    lineAdded cart productId quantity price false false db =
      { db with cart_items := db.cart_items.map (fun i =>
          if i.id = line.id then { i with quantity := sum } else i) } := by
  simp [lineAdded, h, theOnly, hs]

theorem lineAdded_overflow {cart : Cart} {productId : Nat} {quantity : Int} {price : ℚ}
    {db : Store} {line : CartItem} (h : productLines cart.id productId db = [line])
    (hs : jsAddInt line.quantity quantity = none) :
    lineAdded cart productId quantity price false false db = db := by
  simp [lineAdded, h, theOnly, hs]

theorem map_by_id_eq_map_by_row {items : List CartItem} {line : CartItem}
    (hkey : (items.map (fun i => i.id)).Nodup) (hmem : line ∈ items) (q : Int) :
    items.map (fun i => if i.id = line.id then { i with quantity := q } else i)
      = items.map (fun i => if i = line then { line with quantity := q } else i) := by
  apply List.map_congr_left
  intro i hi
  by_cases hid : i.id = line.id
  · have : i = line := List.inj_on_of_nodup_map hkey hi hmem hid
    subst this
    simp
  · have : ¬ i = line := fun h => hid (by rw [h])
    simp [hid, this]

theorem jsOr_eq_effectivePrice {p : Product} (h : p.discounted_price ≠ some 0) :
    jsOr p.discounted_price p.original_price = effectivePrice p := by
  unfold jsOr effectivePrice
  cases hd : p.discounted_price with
  | none => rfl
  | some d =>
    have : d ≠ 0 := fun h0 => h (by rw [hd, h0])
    simp [this]

/-- C14 (amended). With a working store whose `cart_items` ids are unique, a single
pending cart for the user, at most one line for (cart, product), an existing product and
any quantity q (positive or not), `addItemToCart` succeeds and does exactly one of: the
line for the product gets the quantity old + q as JavaScript adds numbers (binary64): old
+ q itself when its magnitude is below `2^53`, and in general, whenever the sum is
finite, the integer that the binary64 sum is; its price and every other line are
unchanged; or, when there is no such line, one line (cart, product, q, price) is
appended, where price is the product's discounted price if that is present and not 0 and
its original price otherwise (the effective price unless the discounted price is 0). The
other tables are unchanged, and an omitted quantity behaves as 1. -/
theorem addItemToCart_adds_line (userId productId : Nat) (q : Int) (w : World)
    (cart : Cart) (product : Product)
    (hcart : pendingCarts userId w.db = [cart])
    (hprod : w.db.products.filter (fun p => p.id = productId) = [product])
    (hline : (productLines cart.id productId w.db).length ≤ 1)
    (hkey : (w.db.cart_items.map (fun i => i.id)).Nodup)
    (hw : NoFaults w) :
    (addItemToCart userId productId (some q) w).1
      = .ok { message := "Item added to cart successfully." } ∧
    ((∃ line, productLines cart.id productId w.db = [line] ∧
        ((line.quantity + q).natAbs < 2 ^ 53 →
          (addItemToCart userId productId (some q) w).2.db.cart_items
            = w.db.cart_items.map (fun i =>
                if i = line then { line with quantity := line.quantity + q } else i)) ∧
        (jsAdd (JSNum.fin line.quantity) (JSNum.fin q) ≠ JSNum.nonFinite →
          ∃ sum : Int, jsAdd (JSNum.fin line.quantity) (JSNum.fin q) = JSNum.fin sum ∧
            (addItemToCart userId productId (some q) w).2.db.cart_items
              = w.db.cart_items.map (fun i =>
                  if i = line then { line with quantity := sum } else i))) ∨
     (productLines cart.id productId w.db = [] ∧
        ∃ id, (addItemToCart userId productId (some q) w).2.db.cart_items
          = w.db.cart_items ++
              [{ id := id, cart_id := cart.id, product_id := productId, quantity := q,
                 price := jsOr product.discounted_price product.original_price }])) ∧
    (product.discounted_price ≠ some 0 →
      jsOr product.discounted_price product.original_price = effectivePrice product) ∧
    (addItemToCart userId productId (some q) w).2.db.carts = w.db.carts ∧
    (addItemToCart userId productId (some q) w).2.db.products = w.db.products ∧
    (addItemToCart userId productId (some q) w).2.db.orders = w.db.orders ∧
    (addItemToCart userId productId (some q) w).2.db.order_items = w.db.order_items ∧
    addItemToCart userId productId none w = addItemToCart userId productId (some 1) w := by
  have h := addItemToCart_existing_cart (some q) hcart hprod hw
  rw [h]
  refine ⟨rfl, ?_, jsOr_eq_effectivePrice, by simp, by simp, by simp, by simp, rfl⟩
  cases hl : productLines cart.id productId w.db with
  | nil =>
    right
    refine ⟨rfl, nextId (w.db.cart_items.map (fun i => i.id)), ?_⟩
    simp [lineAdded_insert hl]
  | cons line rest =>
    cases rest with
    | cons l2 rest => rw [hl] at hline; simp at hline
    | nil =>
      left
      have hmem : line ∈ w.db.cart_items := by
        have : line ∈ productLines cart.id productId w.db := by
          rw [hl]; exact List.mem_singleton.mpr rfl
        exact (List.mem_filter.mp this).1
      refine ⟨line, rfl, ?_, ?_⟩
      · intro hb
        simp only [World.setDb_db, lineAdded_update hl (jsAddInt_exact hb), Option.getD_some]
        exact map_by_id_eq_map_by_row hkey hmem _
      · intro hfin
        rcases jsAdd_int line.quantity q with hn | ⟨sum, hsum, hs⟩
        · exact absurd hn hfin
        · refine ⟨sum, hsum, ?_⟩
          simp only [World.setDb_db, lineAdded_update hl hs, Option.getD_some]
          exact map_by_id_eq_map_by_row hkey hmem _

theorem addItemToCart_adds_line_witness :
    (addItemToCart 1 7 (some 3) shopWorld).2.db.cart_items = [⟨1, 1, 7, 5, 100⟩] ∧
    ((addItemToCart 1 7 (some 3) shopWorld).1
      = .ok { message := "Item added to cart successfully." } ∧
    ((∃ line, productLines 1 7 shopWorld.db = [line] ∧
        ((line.quantity + 3).natAbs < 2 ^ 53 →
          (addItemToCart 1 7 (some 3) shopWorld).2.db.cart_items
            = shopWorld.db.cart_items.map (fun i =>
                if i = line then { line with quantity := line.quantity + 3 } else i)) ∧
        (jsAdd (JSNum.fin line.quantity) (JSNum.fin (3 : Int)) ≠ JSNum.nonFinite →
          ∃ sum : Int, jsAdd (JSNum.fin line.quantity) (JSNum.fin (3 : Int)) = JSNum.fin sum ∧
            (addItemToCart 1 7 (some 3) shopWorld).2.db.cart_items
              = shopWorld.db.cart_items.map (fun i =>
                  if i = line then { line with quantity := sum } else i))) ∨
     (productLines 1 7 shopWorld.db = [] ∧
        ∃ id, (addItemToCart 1 7 (some 3) shopWorld).2.db.cart_items
          = shopWorld.db.cart_items ++
              [{ id := id, cart_id := 1, product_id := 7, quantity := 3,
                 price := jsOr (none : Option ℚ) 100 }])) ∧
    ((none : Option ℚ) ≠ some 0 →
      jsOr (none : Option ℚ) 100
        = effectivePrice ⟨7, "Dumbbell", "dumbbell.png", 100, none, 5⟩) ∧
    (addItemToCart 1 7 (some 3) shopWorld).2.db.carts = shopWorld.db.carts ∧
    (addItemToCart 1 7 (some 3) shopWorld).2.db.products = shopWorld.db.products ∧
    (addItemToCart 1 7 (some 3) shopWorld).2.db.orders = shopWorld.db.orders ∧
    (addItemToCart 1 7 (some 3) shopWorld).2.db.order_items = shopWorld.db.order_items ∧
    addItemToCart 1 7 none shopWorld = addItemToCart 1 7 (some 1) shopWorld) :=
  ⟨by decide!,
    addItemToCart_adds_line 1 7 3 shopWorld ⟨1, 1, "pending", 0⟩
      ⟨7, "Dumbbell", "dumbbell.png", 100, none, 5⟩
      (by decide!) (by decide!) (by decide!) (by decide!)
      (by unfold NoFaults; decide!)⟩

/-- C14 as stated fails: (1) product 9 has a discounted price, 0, so its effective price
is 0, yet the line `addItemToCart` inserts for it carries the original price 100; (2) on
a line of quantity 2, `addItemToCart` with q = 9007199254740991 (`2^53 - 1`) leaves the
quantity 9007199254740992, which is not old + q = 9007199254740993. -/
theorem addItemToCart_line_not_effective_price :
    (freeWorld.db.products = [⟨9, "Towel", "towel.png", 100, some 0, 4⟩] ∧
      effectivePrice ⟨9, "Towel", "towel.png", 100, some 0, 4⟩ = 0 ∧
      (addItemToCart 1 9 (some 2) freeWorld).1
        = .ok { message := "Item added to cart successfully." } ∧
      (addItemToCart 1 9 (some 2) freeWorld).2.db.cart_items = [⟨1, 1, 9, 2, 100⟩]) ∧
    (shopWorld.db.cart_items = [⟨1, 1, 7, 2, 100⟩] ∧
      (addItemToCart 1 7 (some 9007199254740991) shopWorld).1
        = .ok { message := "Item added to cart successfully." } ∧
      (addItemToCart 1 7 (some 9007199254740991) shopWorld).2.db.cart_items
        = [⟨1, 1, 7, 9007199254740992, 100⟩] ∧
      (2 : Int) + 9007199254740991 = 9007199254740993) := by
  decide!

theorem productLines_map_quantity (cartId productId : Nat) (db : Store)
    (f : CartItem → CartItem)
    (hf : ∀ i, (f i).cart_id = i.cart_id ∧ (f i).product_id = i.product_id) :
    productLines cartId productId { db with cart_items := db.cart_items.map f }
      = (productLines cartId productId db).map f := by
  simp only [productLines]
  induction db.cart_items with
  | nil => rfl
  | cons a l ih =>
    by_cases h : a.cart_id = cartId ∧ a.product_id = productId
    · simp [List.filter_cons, (hf a).1, (hf a).2, h.1, h.2, ih]
    · have h2 : ¬ (a.cart_id = cartId ∧ a.product_id = productId) := h
      simp only [List.map_cons, List.filter_cons, (hf a).1, (hf a).2, Bool.and_eq_true,
        decide_eq_true_eq, h2, if_false]
      exact ih

theorem not_mem_of_nextId {items : List CartItem} {i : CartItem} (hi : i ∈ items) :
    ¬ i.id = nextId (items.map (fun i => i.id)) := by
  have := lt_nextId (List.mem_map.mpr ⟨i, hi, rfl⟩ : i.id ∈ items.map (fun i => i.id))
  omega

theorem productLines_of_cart_items {db db2 : Store} (h : db2.cart_items = db.cart_items)
    (cartId productId : Nat) :
    productLines cartId productId db2 = productLines cartId productId db := by
  simp [productLines, h]

/-- The writes of two successive `addItemToCart` calls, with quantities a and b, against
the write of one call with a + b, when every sum involved has magnitude below `2^53`. -/
theorem lineAdded_twice (cart : Cart) (productId : Nat) (a b : Int) (price price2 : ℚ)
    (products2 : List Product) {db : Store}
    (hline : (productLines cart.id productId db).length ≤ 1)
    (hab : (a + b).natAbs < 2 ^ 53)
    (hsum : ∀ line ∈ productLines cart.id productId db,
      (line.quantity + a).natAbs < 2 ^ 53 ∧ (line.quantity + a + b).natAbs < 2 ^ 53) :
    (lineAdded cart productId b price2 false false
        { lineAdded cart productId a price false false db with
          products := products2 }).cart_items
      = (lineAdded cart productId (a + b) price false false db).cart_items ∧
    (productLines cart.id productId db = [] →
      productLines cart.id productId
        (lineAdded cart productId b price2 false false
          { lineAdded cart productId a price false false db with products := products2 })
        = [{ id := nextId (db.cart_items.map (fun i => i.id)), cart_id := cart.id,
             product_id := productId, quantity := a + b, price := price }]) ∧
    (∀ line, productLines cart.id productId db = [line] →
      productLines cart.id productId
        (lineAdded cart productId b price2 false false
          { lineAdded cart productId a price false false db with products := products2 })
        = [{ line with quantity := line.quantity + a + b }]) := by
  generalize hD : lineAdded cart productId a price false false db = D
  cases hl : productLines cart.id productId db with
  | nil =>
    have hDitems : D.cart_items = db.cart_items ++
        [{ id := nextId (db.cart_items.map (fun i => i.id)), cart_id := cart.id,
           product_id := productId, quantity := a, price := price }] := by
      rw [← hD, lineAdded_insert hl]
    have hl0 : List.filter
        (fun i => decide (i.cart_id = cart.id) && decide (i.product_id = productId))
        db.cart_items = [] := hl
    have hl2 : productLines cart.id productId { D with products := products2 }
        = [{ id := nextId (db.cart_items.map (fun i => i.id)), cart_id := cart.id,
             product_id := productId, quantity := a, price := price }] := by
      simp [productLines, hDitems, List.filter_append, hl0]
    have hmap : List.map (fun i : CartItem =>
          if i.id = nextId (db.cart_items.map (fun i => i.id))
          then { i with quantity := a + b } else i) db.cart_items = db.cart_items := by
      conv_rhs => rw [← List.map_id db.cart_items]
      apply List.map_congr_left
      intro i hi
      simp [not_mem_of_nextId hi]
    have hfinal : (lineAdded cart productId b price2 false false
        { D with products := products2 }).cart_items
        = db.cart_items ++
          [{ id := nextId (db.cart_items.map (fun i => i.id)), cart_id := cart.id,
             product_id := productId, quantity := a + b, price := price }] := by
      rw [lineAdded_update hl2 (jsAddInt_exact hab)]
      simp [hDitems, hmap]
    refine ⟨?_, ?_, ?_⟩
    · rw [hfinal, lineAdded_insert hl]
    · intro _
      simp only [productLines, hfinal, List.filter_append, hl0]
      simp
    · intro line h; cases h
  | cons line rest =>
    cases rest with
    | cons l2 rest => rw [hl] at hline; simp at hline
    | nil =>
      obtain ⟨hb1, hb2⟩ := hsum line (by rw [hl]; exact List.mem_singleton.mpr rfl)
      have hs1 : jsAddInt line.quantity a = some (line.quantity + a) := jsAddInt_exact hb1
      have hs2 : jsAddInt (line.quantity + a) b = some (line.quantity + a + b) :=
        jsAddInt_exact hb2
      have hs3 : jsAddInt line.quantity (a + b) = some (line.quantity + a + b) := by
        rw [add_assoc] at hb2 ⊢
        exact jsAddInt_exact hb2
      have hDeq : D = { db with cart_items := db.cart_items.map (fun i =>
          if i.id = line.id then { i with quantity := line.quantity + a } else i) } := by
        rw [← hD, lineAdded_update hl hs1]
      have hl2 : productLines cart.id productId { D with products := products2 }
          = [{ line with quantity := line.quantity + a }] := by
        have := productLines_map_quantity cart.id productId db (fun i =>
          if i.id = line.id then { i with quantity := line.quantity + a } else i)
          (by intro i; by_cases h : i.id = line.id <;> simp [h])
        rw [hl] at this
        simp only [productLines, hDeq] at this ⊢
        rw [this]
        simp
      have hfinal : lineAdded cart productId b price2 false false
          { D with products := products2 }
          = { ({ D with products := products2 } : Store) with
              cart_items := D.cart_items.map (fun i =>
                if i.id = line.id then { i with quantity := line.quantity + a + b }
                else i) } :=
        lineAdded_update hl2 hs2
      refine ⟨?_, ?_, ?_⟩
      · rw [hfinal, lineAdded_update hl hs3]
        simp only [hDeq, List.map_map]
        apply List.map_congr_left
        intro i _
        simp only [Function.comp]
        by_cases hid : i.id = line.id
        · simp [hid]
        · simp [hid]
      · intro h; cases h
      · intro line2 h
        have hline2 : line2 = line := by
          simp only [List.cons.injEq, and_true] at h
          exact h.symm
        subst hline2
        rw [hfinal]
        have := productLines_map_quantity cart.id productId { D with products := products2 }
          (fun i => if i.id = line2.id
            then { i with quantity := line2.quantity + a + b } else i)
          (by intro i; by_cases h : i.id = line2.id <;> simp [h])
        rw [hl2] at this
        simp only [productLines] at this ⊢
        rw [this]
        simp

/-- With a working store, `addItemToCart` on the resolved cart (the user's single pending
cart, or the cart that is created when there is none) writes the line into that cart. -/
theorem addItemToCart_resolved {userId productId : Nat} {w : World} {cart : Cart}
    {product : Product}
    (hcart : pendingCarts userId w.db = [cart] ∨
      (pendingCarts userId w.db = [] ∧ cart = newCart userId w))
    (hprod : w.db.products.filter (fun p => p.id = productId) = [product])
    (hw : NoFaults w) :
    ∃ w1 : World, NoFaults w1 ∧ w1.db.cart_items = w.db.cart_items ∧
      pendingCarts userId w1.db = [cart] ∧
      ∀ quantity : Option Int, addItemToCart userId productId quantity w =
        (.ok { message := "Item added to cart successfully." },
          w1.setDb (lineAdded cart productId (quantity.getD 1)
            (jsOr product.discounted_price product.original_price) false false w1.db)) := by
  rcases hcart with h | ⟨h, rfl⟩
  · exact ⟨w.advance.advance.advance.advance, hw.advance.advance.advance.advance, rfl, h,
      fun quantity => addItemToCart_existing_cart quantity h hprod hw⟩
  · have hget := getUserCart_create h hw.failing hw.advance.failing
    have hnf : NoFaults (w.advance.advance.setDb
        { w.db with carts := w.db.carts ++ [newCart userId w] }) := hw.advance.advance.setDb _
    refine ⟨(w.advance.advance.setDb
        { w.db with carts := w.db.carts ++ [newCart userId w] }).advance.advance.advance,
      hnf.advance.advance.advance, rfl, pendingCarts_append_newCart h, fun quantity => ?_⟩
    rw [addItemToCart_eq hget hnf.failing (by simpa using hprod)]
    rw [hnf.advance.failing, hnf.advance.advance.failing]
    rfl

/-- C15 (amended). With a working store, for a user with a single pending cart or with
none (the first call then creates the cart), at most one line for (cart, product), the
product present at both calls, and every sum of the quantities involved of magnitude
below `2^53` (JavaScript adds them as binary64 numbers): `addItemToCart` with a followed
by `addItemToCart` with b, the `products` table replaced in between, both succeed and
leave `cart_items` exactly as one `addItemToCart` with a + b does. When the cart had no
line for the product, the resulting line has quantity a + b and the price the first call
fetched: the discounted price the product then had if present and not 0, else its
original price then (the effective price at the first call unless that discounted price
is 0). When the cart had a line for the product, that line has quantity old + a + b and
keeps the price it had. The prices at the second call play no part. -/
theorem addItemToCart_twice (userId productId : Nat) (a b : Int) (w : World)
    (cart : Cart) (product product2 : Product) (products2 : List Product)
    (hcart : pendingCarts userId w.db = [cart] ∨
      (pendingCarts userId w.db = [] ∧ cart = newCart userId w))
    (hprod : w.db.products.filter (fun p => p.id = productId) = [product])
    (hprod2 : products2.filter (fun p => p.id = productId) = [product2])
    (hline : (productLines cart.id productId w.db).length ≤ 1)
    (hab : (a + b).natAbs < 2 ^ 53)
    (hsum : ∀ line ∈ productLines cart.id productId w.db,
      (line.quantity + a).natAbs < 2 ^ 53 ∧ (line.quantity + a + b).natAbs < 2 ^ 53)
    (hw : NoFaults w) :
    (addItemToCart userId productId (some a) w).1
      = .ok { message := "Item added to cart successfully." } ∧
    (addItemToCart userId productId (some b)
        ((addItemToCart userId productId (some a) w).2.setDb
          { (addItemToCart userId productId (some a) w).2.db with
            products := products2 })).1
      = .ok { message := "Item added to cart successfully." } ∧
    (addItemToCart userId productId (some b)
        ((addItemToCart userId productId (some a) w).2.setDb
          { (addItemToCart userId productId (some a) w).2.db with
            products := products2 })).2.db.cart_items
      = (addItemToCart userId productId (some (a + b)) w).2.db.cart_items ∧
    (productLines cart.id productId w.db = [] →
      productLines cart.id productId
        (addItemToCart userId productId (some b)
          ((addItemToCart userId productId (some a) w).2.setDb
            { (addItemToCart userId productId (some a) w).2.db with
              products := products2 })).2.db
        = [{ id := nextId (w.db.cart_items.map (fun i => i.id)), cart_id := cart.id,
             product_id := productId, quantity := a + b,
             price := jsOr product.discounted_price product.original_price }]) ∧
    (∀ line, productLines cart.id productId w.db = [line] →
      productLines cart.id productId
        (addItemToCart userId productId (some b)
          ((addItemToCart userId productId (some a) w).2.setDb
            { (addItemToCart userId productId (some a) w).2.db with
              products := products2 })).2.db
        = [{ line with quantity := line.quantity + a + b }]) ∧
    (product.discounted_price ≠ some 0 →
      jsOr product.discounted_price product.original_price = effectivePrice product) := by
  obtain ⟨w1, hnf1, hci, hpc, hadd⟩ := addItemToCart_resolved hcart hprod hw
  have hpl : productLines cart.id productId w1.db = productLines cart.id productId w.db :=
    productLines_of_cart_items hci _ _
  rw [hadd (some a), hadd (some (a + b))]
  simp only [World.setDb_db, Option.getD_some, World.setDb_setDb]
  have hline1 : (productLines cart.id productId w1.db).length ≤ 1 := by
    rw [hpl]; exact hline
  have key := lineAdded_twice cart productId a b
    (jsOr product.discounted_price product.original_price)
    (jsOr product2.discounted_price product2.original_price) products2
    hline1 hab (by rw [hpl]; exact hsum)
  rw [hpl, hci] at key
  generalize hD : lineAdded cart productId a
    (jsOr product.discounted_price product.original_price) false false w1.db = D at key ⊢
  have hDcarts : D.carts = w1.db.carts := by rw [← hD]; simp
  have hcart2 : pendingCarts userId (w1.setDb { D with products := products2 }).db
      = [cart] := by
    simpa [pendingCarts, hDcarts] using hpc
  have h2 := addItemToCart_existing_cart (some b)
    (w := w1.setDb { D with products := products2 }) hcart2 (by simpa using hprod2)
    (hnf1.setDb _)
  rw [h2]
  simp only [World.setDb_db, Option.getD_some]
  exact ⟨trivial, trivial, key.1, key.2.1, key.2.2, jsOr_eq_effectivePrice⟩

theorem addItemToCart_twice_witness :
    ((addItemToCart 1 7 (some 4)
        ((addItemToCart 1 7 (some 3) oldSnapshotWorld).2.setDb
          { (addItemToCart 1 7 (some 3) oldSnapshotWorld).2.db with
            products := repricedProducts })).2.db.cart_items = [⟨1, 1, 7, 9, 50⟩] ∧
      (addItemToCart 2 7 (some 4)
        ((addItemToCart 2 7 (some 3) shopWorld).2.setDb
          { (addItemToCart 2 7 (some 3) shopWorld).2.db with
            products := repricedProducts })).2.db.cart_items
        = [⟨1, 1, 7, 2, 100⟩, ⟨2, 2, 7, 7, 100⟩]) ∧
    ((addItemToCart 2 7 (some 3) shopWorld).1
      = .ok { message := "Item added to cart successfully." } ∧
    (addItemToCart 2 7 (some 4)
        ((addItemToCart 2 7 (some 3) shopWorld).2.setDb
          { (addItemToCart 2 7 (some 3) shopWorld).2.db with
            products := repricedProducts })).1
      = .ok { message := "Item added to cart successfully." } ∧
    (addItemToCart 2 7 (some 4)
        ((addItemToCart 2 7 (some 3) shopWorld).2.setDb
          { (addItemToCart 2 7 (some 3) shopWorld).2.db with
            products := repricedProducts })).2.db.cart_items
      = (addItemToCart 2 7 (some (3 + 4)) shopWorld).2.db.cart_items ∧
    (productLines 2 7 shopWorld.db = [] →
      productLines 2 7
        (addItemToCart 2 7 (some 4)
          ((addItemToCart 2 7 (some 3) shopWorld).2.setDb
            { (addItemToCart 2 7 (some 3) shopWorld).2.db with
              products := repricedProducts })).2.db
        = [{ id := nextId (shopWorld.db.cart_items.map (fun i => i.id)), cart_id := 2,
             product_id := 7, quantity := 3 + 4,
             price := jsOr (none : Option ℚ) 100 }]) ∧
    (∀ line, productLines 2 7 shopWorld.db = [line] →
      productLines 2 7
        (addItemToCart 2 7 (some 4)
          ((addItemToCart 2 7 (some 3) shopWorld).2.setDb
            { (addItemToCart 2 7 (some 3) shopWorld).2.db with
              products := repricedProducts })).2.db
        = [{ line with quantity := line.quantity + 3 + 4 }]) ∧
    ((none : Option ℚ) ≠ some 0 →
      jsOr (none : Option ℚ) 100
        = effectivePrice ⟨7, "Dumbbell", "dumbbell.png", 100, none, 5⟩)) ∧
    (∀ line, productLines 1 7 oldSnapshotWorld.db = [line] →
      productLines 1 7
        (addItemToCart 1 7 (some 4)
          ((addItemToCart 1 7 (some 3) oldSnapshotWorld).2.setDb
            { (addItemToCart 1 7 (some 3) oldSnapshotWorld).2.db with
              products := repricedProducts })).2.db
        = [{ line with quantity := line.quantity + 3 + 4 }]) :=
  ⟨by decide!,
    addItemToCart_twice 2 7 3 4 shopWorld ⟨2, 2, "pending", 5⟩
      ⟨7, "Dumbbell", "dumbbell.png", 100, none, 5⟩
      ⟨7, "Dumbbell", "dumbbell.png", 250, some 180, 5⟩ repricedProducts
      (Or.inr ⟨by decide!, by decide!⟩) (by decide!) (by decide!) (by decide!) (by decide!)
      (by decide!) (by unfold NoFaults; decide!),
    (addItemToCart_twice 1 7 3 4 oldSnapshotWorld ⟨1, 1, "pending", 0⟩
      ⟨7, "Dumbbell", "dumbbell.png", 100, none, 5⟩
      ⟨7, "Dumbbell", "dumbbell.png", 250, some 180, 5⟩ repricedProducts
      (Or.inl (by decide!)) (by decide!) (by decide!) (by decide!) (by decide!)
      (by decide!) (by unfold NoFaults; decide!)).2.2.2.2.1⟩

/-- C15 as stated fails. On the price: (1) product 9 has the discounted price 0, so its
effective price is 0, but after two calls the line's price is the original price 100;
(2) when the cart already holds a line for product 7 with price 50, that price stays
after two calls although the product's price at the first call is 100. On the quantity:
(3) on a line of quantity 2, calls with a = 9007199254740991 (`2^53 - 1`) and b = 1 leave
the quantity 9007199254740992, while one call with a + b leaves 9007199254740994. -/
theorem two_adds_price_not_effective :
    (effectivePrice ⟨9, "Towel", "towel.png", 100, some 0, 4⟩ = 0 ∧
      (addItemToCart 1 9 (some 1) (addItemToCart 1 9 (some 2) freeWorld).2).2.db.cart_items
        = [⟨1, 1, 9, 3, 100⟩]) ∧
    (oldSnapshotWorld.db.products = [⟨7, "Dumbbell", "dumbbell.png", 100, none, 5⟩] ∧
      effectivePrice ⟨7, "Dumbbell", "dumbbell.png", 100, none, 5⟩ = 100 ∧
      (addItemToCart 1 7 (some 1)
        (addItemToCart 1 7 (some 2) oldSnapshotWorld).2).2.db.cart_items
        = [⟨1, 1, 7, 5, 50⟩]) ∧
    (shopWorld.db.cart_items = [⟨1, 1, 7, 2, 100⟩] ∧
      (addItemToCart 1 7 (some 1)
        (addItemToCart 1 7 (some 9007199254740991) shopWorld).2).2.db.cart_items
        = [⟨1, 1, 7, 9007199254740992, 100⟩] ∧
      (addItemToCart 1 7 (some (9007199254740991 + 1)) shopWorld).2.db.cart_items
        = [⟨1, 1, 7, 9007199254740994, 100⟩]) := by
  decide!

theorem getUserCart_not_single {userId : Nat} {w : World}
    (hns : ∀ c, pendingCarts userId w.db ≠ [c]) (hf : w.failing = false)
    (hf2 : w.advance.failing = false) :
    getUserCart userId w =
      (.ok (some (newCart userId w)),
        w.advance.advance.setDb { w.db with carts := w.db.carts ++ [newCart userId w] }) := by
  rcases getUserCart_cases userId w with ⟨e, w1, h, _⟩ | ⟨c, hc, _⟩ | ⟨_, h⟩
  · exfalso
    have hsel : selectSingle (pendingCarts userId) w = (⟨none, some pgrst116⟩, w.advance) := by
      unfold selectSingle
      rw [hf]
      cases hp : pendingCarts userId w.db with
      | nil => simp
      | cons c rest =>
        cases rest with
        | nil => exact absurd hp (hns c)
        | cons d rest => simp
    simp [getUserCart, hsel, insertReturning, hf2, Option.filter, pgrst116] at h
  · exact absurd hc (hns c)
  · exact h

/-- C16 (amended). With a working store, a single pending cart for the user without a
line for the product, and the product existing, `addItemToCart` appends one line whose
price is the product's discounted price when that is present and not 0, and the original
price when no discounted price is present or when the discounted price is 0. -/
theorem addItemToCart_snapshot_price (userId productId : Nat) (quantity : Option Int)
    (w : World) (cart : Cart) (product : Product)
    (hcart : pendingCarts userId w.db = [cart])
    (hprod : w.db.products.filter (fun p => p.id = productId) = [product])
    (hnone : productLines cart.id productId w.db = [])
    (hw : NoFaults w) :
    ∃ line : CartItem,
      (addItemToCart userId productId quantity w).2.db.cart_items
        = w.db.cart_items ++ [line] ∧
      line.cart_id = cart.id ∧ line.product_id = productId ∧
      (∀ d, product.discounted_price = some d → d ≠ 0 → line.price = d) ∧
      (product.discounted_price = none → line.price = product.original_price) ∧
      (product.discounted_price = some 0 → line.price = product.original_price) := by
  rw [addItemToCart_existing_cart quantity hcart hprod hw]
  refine ⟨{ id := nextId (w.db.cart_items.map (fun i => i.id)), cart_id := cart.id,
            product_id := productId, quantity := quantity.getD 1,
            price := jsOr product.discounted_price product.original_price },
    by simp [lineAdded_insert hnone], rfl, rfl, ?_, ?_, ?_⟩
  · intro d hd hne
    simp [jsOr, hd, hne]
  · intro hd
    simp [jsOr, hd]
  · intro hd
    simp [jsOr, hd]

theorem addItemToCart_snapshot_price_witness :
    (addItemToCart 1 8 (some 1) ordersPricedWorld).2.db.cart_items = [⟨1, 1, 8, 1, 750⟩] ∧
    ∃ line : CartItem,
      (addItemToCart 1 8 (some 1) ordersPricedWorld).2.db.cart_items
        = ordersPricedWorld.db.cart_items ++ [line] ∧
      line.cart_id = 1 ∧ line.product_id = 8 ∧
      (∀ d, (some 750 : Option ℚ) = some d → d ≠ 0 → line.price = d) ∧
      ((some 750 : Option ℚ) = none → line.price = 900) ∧
      ((some 750 : Option ℚ) = some 0 → line.price = 900) :=
  ⟨by decide!,
    addItemToCart_snapshot_price 1 8 (some 1) ordersPricedWorld ⟨1, 1, "pending", 0⟩
      ⟨8, "Bench", "bench.png", 900, some 750, 1⟩
      (by decide!) (by decide!) (by decide!) (by unfold NoFaults; decide!)⟩

/-- C16 as stated fails: for product 9, whose discounted price is present and equal to
0, the inserted line carries the original price 100, not the discounted price. -/
theorem addItemToCart_zero_discount_ignored :
    freeWorld.db.products = [⟨9, "Towel", "towel.png", 100, some 0, 4⟩] ∧
    productLines 1 9 freeWorld.db = [] ∧
    (addItemToCart 1 9 none freeWorld).2.db.cart_items = [⟨1, 1, 9, 1, 100⟩] ∧
    (100 : ℚ) ≠ 0 := by
  decide!

/-- C17. When no row of `products` has the given id, `addItemToCart` throws, whatever
storage calls fail ('Failed to fetch product price.' when none fails), and leaves
`cart_items`, `products`, `orders` and `order_items` unchanged; `carts` is unchanged, or,
when the user had no single pending cart, has gained the one cart that the cart
resolution inserted. -/
theorem addItemToCart_unknown_product (userId productId : Nat) (quantity : Option Int)
    (w : World)
    (hnone : w.db.products.filter (fun p => p.id = productId) = []) :
    (∃ e, (addItemToCart userId productId quantity w).1 = .error e) ∧
    (NoFaults w → (addItemToCart userId productId quantity w).1
      = .error (JsError.new "Failed to fetch product price.")) ∧
    (addItemToCart userId productId quantity w).2.db.cart_items = w.db.cart_items ∧
    (addItemToCart userId productId quantity w).2.db.products = w.db.products ∧
    (addItemToCart userId productId quantity w).2.db.orders = w.db.orders ∧
    (addItemToCart userId productId quantity w).2.db.order_items = w.db.order_items ∧
    ((addItemToCart userId productId quantity w).2.db.carts = w.db.carts ∨
      ((∀ c, pendingCarts userId w.db ≠ [c]) ∧
        (addItemToCart userId productId quantity w).2.db.carts
          = w.db.carts ++ [newCart userId w])) := by
  rcases getUserCart_cases userId w with ⟨e, w1, hg, hdb⟩ | ⟨c, hc, hg⟩ | ⟨hns, hg⟩
  · rw [addItemToCart_getUserCart_error hg]
    refine ⟨⟨e, rfl⟩, ?_, by rw [hdb], by rw [hdb], by rw [hdb], by rw [hdb],
      Or.inl (by rw [hdb])⟩
    intro hw
    exfalso
    by_cases hs : ∃ c, pendingCarts userId w.db = [c]
    · obtain ⟨c, hc⟩ := hs
      rw [getUserCart_existing hc hw.failing] at hg
      cases hg
    · rw [getUserCart_not_single (fun c hc => hs ⟨c, hc⟩) hw.failing hw.advance.failing] at hg
      cases hg
  · have hno : (w.advance).failing = true ∨
        ∀ x, (w.advance).db.products.filter (fun p => p.id = productId) ≠ [x] :=
      Or.inr (fun x hx => by
        rw [World.advance_db, hnone] at hx; cases hx)
    rw [addItemToCart_no_product hg hno]
    exact ⟨⟨_, rfl⟩, fun _ => rfl, rfl, rfl, rfl, rfl, Or.inl rfl⟩
  · have hno : (w.advance.advance.setDb
          { w.db with carts := w.db.carts ++ [newCart userId w] }).failing = true ∨
        ∀ x, (w.advance.advance.setDb
          { w.db with carts := w.db.carts ++ [newCart userId w] }).db.products.filter
            (fun p => p.id = productId) ≠ [x] :=
      Or.inr (fun x hx => by
        rw [World.setDb_db] at hx
        simp only at hx
        rw [hnone] at hx; cases hx)
    rw [addItemToCart_no_product hg hno]
    exact ⟨⟨_, rfl⟩, fun _ => rfl, rfl, rfl, rfl, rfl, Or.inr ⟨hns, rfl⟩⟩

theorem addItemToCart_unknown_product_witness :
    (addItemToCart 2 99 none shopWorld).1
      = .error (JsError.new "Failed to fetch product price.") ∧
    (addItemToCart 2 99 none shopWorld).2.db.carts
      = [⟨1, 1, "pending", 0⟩, ⟨2, 2, "pending", 5⟩] ∧
    ((∃ e, (addItemToCart 2 99 none shopWorld).1 = .error e) ∧
    (NoFaults shopWorld → (addItemToCart 2 99 none shopWorld).1
      = .error (JsError.new "Failed to fetch product price.")) ∧
    (addItemToCart 2 99 none shopWorld).2.db.cart_items = shopWorld.db.cart_items ∧
    (addItemToCart 2 99 none shopWorld).2.db.products = shopWorld.db.products ∧
    (addItemToCart 2 99 none shopWorld).2.db.orders = shopWorld.db.orders ∧
    (addItemToCart 2 99 none shopWorld).2.db.order_items = shopWorld.db.order_items ∧
    ((addItemToCart 2 99 none shopWorld).2.db.carts = shopWorld.db.carts ∨
      ((∀ c, pendingCarts 2 shopWorld.db ≠ [c]) ∧
        (addItemToCart 2 99 none shopWorld).2.db.carts
          = shopWorld.db.carts ++ [newCart 2 shopWorld]))) :=
  ⟨by decide!, by decide!, addItemToCart_unknown_product 2 99 none shopWorld (by decide!)⟩

/-- C18 (amended). `addItemToCart` does not check the quantity; what holds is: for every
positive or omitted quantity, and whatever storage calls fail, if every cart line had a
positive quantity before the call then every cart line has one after it. -/
theorem addItemToCart_keeps_quantities_positive (userId productId : Nat)
    (quantity : Option Int) (w : World)
    (hq : 0 < quantity.getD 1)
    (hpos : ∀ i ∈ w.db.cart_items, 0 < i.quantity) :
    ∀ i ∈ (addItemToCart userId productId quantity w).2.db.cart_items, 0 < i.quantity := by
  rcases addItemToCart_db userId productId quantity w with h | ⟨cart, product, a, b, _, _, _, h⟩
  · rw [h, getUserCart_cart_items]; exact hpos
  · rw [h]
    have hpos' : ∀ i ∈ (getUserCart userId w).2.db.cart_items, 0 < i.quantity := by
      rw [getUserCart_cart_items]; exact hpos
    generalize (getUserCart userId w).2.db = db at hpos' ⊢
    unfold lineAdded
    split
    · exact hpos'
    · split
      · rename_i existingItem hex
        have hmem : existingItem ∈ db.cart_items := by
          cases a with
          | true => simp at hex
          | false =>
            have h1 := theOnly_eq_some (by simpa using hex)
            have : existingItem ∈ productLines cart.id productId db := by
              rw [h1]; exact List.mem_singleton.mpr rfl
            exact (List.mem_filter.mp this).1
        have hex_pos := hpos' existingItem hmem
        split
        · rename_i sum hsum
          intro i hi
          simp only at hi
          obtain ⟨i0, hi0, rfl⟩ := List.mem_map.mp hi
          split
          · exact jsAddInt_pos hex_pos hq hsum
          · exact hpos' i0 hi0
        · exact hpos'
      · intro i hi
        simp only at hi
        rcases List.mem_append.mp hi with h1 | h1
        · exact hpos' i h1
        · rw [List.mem_singleton.mp h1]; exact hq

theorem addItemToCart_keeps_quantities_positive_witness :
    (addItemToCart 1 7 none shopWorld).2.db.cart_items = [⟨1, 1, 7, 3, 100⟩] ∧
    ∀ i ∈ (addItemToCart 1 7 none shopWorld).2.db.cart_items, 0 < i.quantity :=
  ⟨by decide!,
    addItemToCart_keeps_quantities_positive 1 7 none shopWorld (by decide!) (by decide!)⟩

/-- C18 as stated fails: `addItemToCart` with quantity 0 succeeds and inserts a line of
quantity 0, and with quantity -3 it succeeds and lowers a line of quantity 2 to -1. -/
theorem addItemToCart_accepts_nonpositive_quantity :
    ((addItemToCart 1 7 (some 0) emptyCartWorld).1
        = .ok { message := "Item added to cart successfully." } ∧
      (addItemToCart 1 7 (some 0) emptyCartWorld).2.db.cart_items = [⟨1, 1, 7, 0, 100⟩]) ∧
    ((addItemToCart 1 7 (some (-3)) shopWorld).1
        = .ok { message := "Item added to cart successfully." } ∧
      shopWorld.db.cart_items = [⟨1, 1, 7, 2, 100⟩] ∧
      (addItemToCart 1 7 (some (-3)) shopWorld).2.db.cart_items = [⟨1, 1, 7, -1, 100⟩]) := by
  decide!

/-- C19 at failing inputs. `addItemToCart(1, 7, 1)` on the scenario store (one line,
product 7, quantity 2): when the update of the line reports an error the call returns
success and the line is unchanged; when the lookup of the line reports an error the call
returns success and has inserted a second line for product 7. `checkoutCart(1)`: when
the delete of the lines and the update of the status report errors the call returns
success, the lines are still there and the cart is still pending. -/
theorem storage_failures_not_surfaced :
    ((addItemToCart 1 7 (some 1) (shopWorldFailing [false, false, false, true])).1
        = .ok { message := "Item added to cart successfully." } ∧
      (addItemToCart 1 7 (some 1) (shopWorldFailing [false, false, false, true])).2.db
        = shopWorld.db) ∧
    ((addItemToCart 1 7 (some 1) (shopWorldFailing [false, false, true])).1
        = .ok { message := "Item added to cart successfully." } ∧
      (addItemToCart 1 7 (some 1) (shopWorldFailing [false, false, true])).2.db.cart_items
        = [⟨1, 1, 7, 2, 100⟩, ⟨2, 1, 7, 1, 100⟩]) ∧
    ((checkoutCart 1 (shopWorldFailing [false, false, false, false, true, true])).1
        = .ok ⟨"Checkout successful", 1⟩ ∧
      (checkoutCart 1 (shopWorldFailing [false, false, false, false, true, true])).2.db.cart_items
        = [⟨1, 1, 7, 2, 100⟩] ∧
      (checkoutCart 1 (shopWorldFailing [false, false, false, false, true, true])).2.db.carts
        = [⟨1, 1, "pending", 0⟩]) := by
  decide!

/-! ## Cart-quantity update -/

/-- C20 (amended). For a logged-in user and a product id, `POST /api/cart/update`
answers 400 'Invalid product ID or quantity' when the quantity is missing or ≤ 0, and
404 'Pending cart not found' when the user has no pending cart; when the pending cart
has no line for the product (and no storage call fails) it answers 200 'Cart quantity
updated successfully'. In each of these cases the store is unchanged. -/
theorem postCartUpdate_rejections (userId productId : Nat) (quantity : Option Int)
    (w : World) (hu : userId ≠ 0) (hp : productId ≠ 0) :
    ((quantity = none ∨ ∃ q, quantity = some q ∧ q ≤ 0) →
      postCartUpdate (some userId) (some productId) quantity w
        = (⟨400, "Invalid product ID or quantity", none⟩, w)) ∧
    (∀ q, quantity = some q → 0 < q → pendingCarts userId w.db = [] →
      (postCartUpdate (some userId) (some productId) quantity w).1
        = ⟨404, "Pending cart not found", none⟩ ∧
      (postCartUpdate (some userId) (some productId) quantity w).2.db = w.db) ∧
    (∀ q cart, quantity = some q → 0 < q → pendingCarts userId w.db = [cart] →
      productLines cart.id productId w.db = [] → NoFaults w →
      (postCartUpdate (some userId) (some productId) quantity w).1
        = ⟨200, "Cart quantity updated successfully", none⟩ ∧
      (postCartUpdate (some userId) (some productId) quantity w).2.db = w.db) := by
  refine ⟨?_, ?_, ?_⟩
  · rintro (hq | ⟨q, hq, hle⟩)
    · subst hq
      simp [postCartUpdate, Option.filter, hu, hp]
    · subst hq
      have : ¬ 0 < q := by omega
      simp [postCartUpdate, Option.filter, hu, hp, this]
  · intro q hq hpos hc
    subst hq
    by_cases f1 : w.failing = true
    · simp [postCartUpdate, Option.filter, hu, hp, hpos, selectSingle, f1]
    · simp [postCartUpdate, Option.filter, hu, hp, hpos, selectSingle, f1, hc]
  · intro q cart hq hpos hc hl hw
    subst hq
    have hmap : w.db.cart_items.map (fun i =>
        if i.cart_id = cart.id ∧ i.product_id = productId
        then { i with quantity := q } else i) = w.db.cart_items := by
      conv_rhs => rw [← List.map_id w.db.cart_items]
      apply List.map_congr_left
      intro i hi
      have hno : ¬ (i.cart_id = cart.id ∧ i.product_id = productId) := by
        intro hm
        have : i ∈ productLines cart.id productId w.db :=
          List.mem_filter.mpr ⟨hi, by simpa using hm⟩
        rw [hl] at this
        cases this
      simp [hno]
    simp [postCartUpdate, Option.filter, hu, hp, hpos, selectSingle, execute, hw.failing,
      hw.advance.failing, hc, hmap]

theorem postCartUpdate_rejections_witness :
    postCartUpdate (some 1) (some 7) (some 0) shopWorld
      = (⟨400, "Invalid product ID or quantity", none⟩, shopWorld) ∧
    postCartUpdate (some 1) (some 7) none shopWorld
      = (⟨400, "Invalid product ID or quantity", none⟩, shopWorld) ∧
    ((postCartUpdate (some 2) (some 7) (some 3) shopWorld).1
        = ⟨404, "Pending cart not found", none⟩ ∧
      (postCartUpdate (some 2) (some 7) (some 3) shopWorld).2.db = shopWorld.db) ∧
    ((postCartUpdate (some 1) (some 9) (some 3) shopWorld).1
        = ⟨200, "Cart quantity updated successfully", none⟩ ∧
      (postCartUpdate (some 1) (some 9) (some 3) shopWorld).2.db = shopWorld.db) :=
  ⟨(postCartUpdate_rejections 1 7 (some 0) shopWorld (by decide) (by decide)).1
      (Or.inr ⟨0, rfl, le_refl 0⟩),
    (postCartUpdate_rejections 1 7 none shopWorld (by decide) (by decide)).1 (Or.inl rfl),
    (postCartUpdate_rejections 2 7 (some 3) shopWorld (by decide) (by decide)).2.1 3 rfl
      (by decide) (by decide!),
    (postCartUpdate_rejections 1 9 (some 3) shopWorld (by decide) (by decide)).2.2 3
      ⟨1, 1, "pending", 0⟩ rfl (by decide) (by decide!) (by decide!)
      (by unfold NoFaults; decide!)⟩

/-- C20 as stated fails: user 1's pending cart has no line for product 9, yet the update
of its quantity answers 200 'Cart quantity updated successfully' (the store unchanged). -/
theorem postCartUpdate_missing_line_reports_success :
    pendingCarts 1 shopWorld.db = [⟨1, 1, "pending", 0⟩] ∧
    productLines 1 9 shopWorld.db = [] ∧
    (postCartUpdate (some 1) (some 9) (some 3) shopWorld).1
      = ⟨200, "Cart quantity updated successfully", none⟩ ∧
    (postCartUpdate (some 1) (some 9) (some 3) shopWorld).2.db = shopWorld.db := by
  decide!

theorem mem_productLines_single {cartId productId : Nat} {db : Store} {line i : CartItem}
    (hline : productLines cartId productId db = [line]) (hi : i ∈ db.cart_items) :
    (i.cart_id = cartId ∧ i.product_id = productId) ↔ i = line := by
  constructor
  · intro hm
    have : i ∈ productLines cartId productId db :=
      List.mem_filter.mpr ⟨hi, by simpa using hm⟩
    rw [hline] at this
    exact List.mem_singleton.mp this
  · intro h
    subst h
    have : i ∈ productLines cartId productId db := by
      rw [hline]; exact List.mem_singleton.mpr rfl
    simpa using (List.mem_filter.mp this).2

/-- C21. With a working store, a logged-in user with a single pending cart, a single line
of that cart for the product and a quantity q > 0, `POST /api/cart/update` answers 200
and the store is the previous one with that line's quantity set to q: the line's price,
every other line, every cart, every product and the order tables are unchanged. -/
theorem postCartUpdate_sets_quantity (userId productId : Nat) (q : Int) (w : World)
    (cart : Cart) (line : CartItem)
    (hu : userId ≠ 0) (hp : productId ≠ 0) (hq : 0 < q)
    (hcart : pendingCarts userId w.db = [cart])
    (hline : productLines cart.id productId w.db = [line])
    (hw : NoFaults w) :
    (postCartUpdate (some userId) (some productId) (some q) w).1
      = ⟨200, "Cart quantity updated successfully", none⟩ ∧
    (postCartUpdate (some userId) (some productId) (some q) w).2.db
      = { w.db with cart_items := w.db.cart_items.map (fun i =>
            if i = line then { line with quantity := q } else i) } := by
  have hmap : w.db.cart_items.map (fun i =>
      if i.cart_id = cart.id ∧ i.product_id = productId
      then { i with quantity := q } else i)
      = w.db.cart_items.map (fun i => if i = line then { line with quantity := q } else i) := by
    apply List.map_congr_left
    intro i hi
    by_cases hm : i.cart_id = cart.id ∧ i.product_id = productId
    · have := (mem_productLines_single hline hi).mp hm
      subst this
      simp [hm]
    · have : ¬ i = line := fun h => hm ((mem_productLines_single hline hi).mpr h)
      simp [hm, this]
  simp [postCartUpdate, Option.filter, hu, hp, hq, selectSingle, execute, hw.failing,
    hw.advance.failing, hcart, hmap]

theorem postCartUpdate_sets_quantity_witness :
    (postCartUpdate (some 1) (some 7) (some 9) shopWorld).2.db.cart_items
      = [⟨1, 1, 7, 9, 100⟩] ∧
    ((postCartUpdate (some 1) (some 7) (some 9) shopWorld).1
      = ⟨200, "Cart quantity updated successfully", none⟩ ∧
    (postCartUpdate (some 1) (some 7) (some 9) shopWorld).2.db
      = { shopWorld.db with cart_items := shopWorld.db.cart_items.map (fun i =>
            if i = ⟨1, 1, 7, 2, 100⟩ then ⟨1, 1, 7, 9, 100⟩ else i) }) :=
  ⟨by decide!,
    postCartUpdate_sets_quantity 1 7 9 shopWorld ⟨1, 1, "pending", 0⟩ ⟨1, 1, 7, 2, 100⟩
      (by decide) (by decide) (by decide) (by decide!) (by decide!)
      (by unfold NoFaults; decide!)⟩

/-! ## Removing an item -/

theorem removeItemFromCart_of_cart {userId : Nat} (productId : Nat) {w w1 : World} {cart : Cart}
    (hget : getUserCart userId w = (.ok (some cart), w1)) (hf : w1.failing = false) :
    removeItemFromCart userId productId w =
      (.ok (), w1.advance.setDb { w1.db with
        cart_items := w1.db.cart_items.filter (fun i =>
          ¬ (i.cart_id = cart.id ∧ i.product_id = productId)) }) := by
  simp [removeItemFromCart, hget, execute, hf]

theorem filter_not_fresh_cart {db : Store} (hfk : LinesHaveCarts db) {cartId productId : Nat}
    (hfresh : ∀ c ∈ db.carts, c.id ≠ cartId) :
    db.cart_items.filter (fun i => ¬ (i.cart_id = cartId ∧ i.product_id = productId))
      = db.cart_items := by
  rw [List.filter_eq_self]
  intro i hi
  obtain ⟨c, hc, hci⟩ := hfk i hi
  have := hfresh c hc
  have hne : ¬ i.cart_id = cartId := by rw [← hci]; exact this
  exact decide_eq_true (fun h => hne h.1)

/-- C22 (amended). With a working store that respects the foreign key of `cart_items`
and at most one pending cart for the user, `removeItemFromCart(userId, productId)`
succeeds. When the user has a pending cart, the lines of that cart for the product are
deleted, every other line and every other table is unchanged, and the whole store is
unchanged when there is no such line. When the user has no pending cart, no line is
deleted but the store gains the pending cart that the cart resolution inserted. A second
call succeeds and leaves the store as the first call left it. -/
theorem removeItemFromCart_removes (userId productId : Nat) (w : World)
    (hone : (pendingCarts userId w.db).length ≤ 1)
    (hfk : LinesHaveCarts w.db) (hw : NoFaults w) :
    (removeItemFromCart userId productId w).1 = .ok () ∧
    (∀ cart, pendingCarts userId w.db = [cart] →
      (removeItemFromCart userId productId w).2.db
        = { w.db with cart_items := w.db.cart_items.filter (fun i =>
              ¬ (i.cart_id = cart.id ∧ i.product_id = productId)) } ∧
      (productLines cart.id productId w.db = [] →
        (removeItemFromCart userId productId w).2.db = w.db)) ∧
    (pendingCarts userId w.db = [] →
      (removeItemFromCart userId productId w).2.db
        = { w.db with carts := w.db.carts ++ [newCart userId w] }) ∧
    (removeItemFromCart userId productId (removeItemFromCart userId productId w).2).1
      = .ok () ∧
    (removeItemFromCart userId productId (removeItemFromCart userId productId w).2).2.db
      = (removeItemFromCart userId productId w).2.db := by
  cases hp : pendingCarts userId w.db with
  | cons cart rest =>
    cases rest with
    | cons d rest => rw [hp] at hone; simp at hone
    | nil =>
      have h1 := removeItemFromCart_of_cart productId
        (getUserCart_existing hp hw.failing) hw.advance.failing
      rw [h1]
      generalize hD : ({ w.advance.db with
        cart_items := w.advance.db.cart_items.filter (fun i =>
          ¬ (i.cart_id = cart.id ∧ i.product_id = productId)) } : Store) = D
      have hDc : D.carts = w.db.carts := by rw [← hD]; rfl
      have hp2 : pendingCarts userId (w.advance.advance.setDb D).db = [cart] := by
        simpa [pendingCarts, hDc] using hp
      have hnf : NoFaults (w.advance.advance.setDb D) := hw.advance.advance.setDb D
      have h2 := removeItemFromCart_of_cart productId
        (getUserCart_existing hp2 hnf.failing) hnf.advance.failing
      rw [h2]
      refine ⟨rfl, ?_, (fun h => by cases h), rfl, ?_⟩
      · intro cart2 hc2
        have : cart2 = cart := by simpa using hc2.symm
        subst this
        refine ⟨by rw [← hD]; rfl, ?_⟩
        intro hl
        have hfil : w.db.cart_items.filter (fun i =>
            ¬ (i.cart_id = cart2.id ∧ i.product_id = productId)) = w.db.cart_items := by
          rw [List.filter_eq_self]
          intro i hi
          have hno : ¬ (i.cart_id = cart2.id ∧ i.product_id = productId) := by
            intro hm
            have : i ∈ productLines cart2.id productId w.db :=
              List.mem_filter.mpr ⟨hi, by simpa using hm⟩
            rw [hl] at this
            cases this
          exact decide_eq_true hno
        simp only [World.setDb_db]
        rw [← hD]
        simp only [World.advance_db, hfil]
      · simp only [World.setDb_db, World.advance_db]
        rw [← hD]
        simp [List.filter_filter]
  | nil =>
    have hg := getUserCart_create hp hw.failing hw.advance.failing
    have hnf1 : NoFaults (w.advance.advance.setDb
        { w.db with carts := w.db.carts ++ [newCart userId w] }) := hw.advance.advance.setDb _
    have h1 := removeItemFromCart_of_cart productId hg hnf1.failing
    have hfil : w.db.cart_items.filter (fun i =>
        ¬ (i.cart_id = (newCart userId w).id ∧ i.product_id = productId)) = w.db.cart_items :=
      filter_not_fresh_cart hfk (newCart_id_fresh userId w)
    have h1db : (removeItemFromCart userId productId w).2.db
        = { w.db with carts := w.db.carts ++ [newCart userId w] } := by
      rw [h1]
      simp only [World.setDb_db, hfil]
    have hp2 : pendingCarts userId (removeItemFromCart userId productId w).2.db
        = [newCart userId w] := by
      rw [h1db]; exact pendingCarts_append_newCart hp
    have hnf2 : NoFaults (removeItemFromCart userId productId w).2 := by
      rw [h1]; exact hnf1.advance.setDb _
    have h2 := removeItemFromCart_of_cart productId
      (getUserCart_existing hp2 hnf2.failing) hnf2.advance.failing
    refine ⟨by rw [h1], (fun cart h => by cases h), (fun _ => h1db), by rw [h2], ?_⟩
    rw [h2]
    simp only [World.setDb_db, World.advance_db, h1db, hfil]

theorem removeItemFromCart_removes_witness :
    (removeItemFromCart 1 7 shopWorld).2.db.cart_items = [] ∧
    (removeItemFromCart 1 9 shopWorld).2.db = shopWorld.db ∧
    ((removeItemFromCart 1 7 shopWorld).1 = .ok () ∧
    (∀ cart, pendingCarts 1 shopWorld.db = [cart] →
      (removeItemFromCart 1 7 shopWorld).2.db
        = { shopWorld.db with cart_items := shopWorld.db.cart_items.filter (fun i =>
              ¬ (i.cart_id = cart.id ∧ i.product_id = 7)) } ∧
      (productLines cart.id 7 shopWorld.db = [] →
        (removeItemFromCart 1 7 shopWorld).2.db = shopWorld.db)) ∧
    (pendingCarts 1 shopWorld.db = [] →
      (removeItemFromCart 1 7 shopWorld).2.db
        = { shopWorld.db with carts := shopWorld.db.carts ++ [newCart 1 shopWorld] }) ∧
    (removeItemFromCart 1 7 (removeItemFromCart 1 7 shopWorld).2).1 = .ok () ∧
    (removeItemFromCart 1 7 (removeItemFromCart 1 7 shopWorld).2).2.db
      = (removeItemFromCart 1 7 shopWorld).2.db) :=
  ⟨by decide!, by decide!,
    removeItemFromCart_removes 1 7 shopWorld (by decide!) (by unfold LinesHaveCarts; decide!)
      (by unfold NoFaults; decide!)⟩

/-- C22 as stated fails: user 2 has no pending cart; `removeItemFromCart(2, 7)` succeeds
and deletes no line, but the store is not unchanged: it has gained a pending cart for
user 2. -/
theorem removeItemFromCart_creates_cart :
    pendingCarts 2 shopWorld.db = [] ∧
    (removeItemFromCart 2 7 shopWorld).1 = .ok () ∧
    (removeItemFromCart 2 7 shopWorld).2.db.cart_items = shopWorld.db.cart_items ∧
    shopWorld.db.carts = [⟨1, 1, "pending", 0⟩] ∧
    (removeItemFromCart 2 7 shopWorld).2.db.carts
      = [⟨1, 1, "pending", 0⟩, ⟨2, 2, "pending", 5⟩] := by
  decide!

/-! ## Listing the cart -/

theorem getCartItems_existing {userId : Nat} {w : World} {cart : Cart}
    (hcart : pendingCarts userId w.db = [cart]) (hw : NoFaults w) :
    getCartItems userId w = (.ok (some (cartItemViews cart.id w.db)), w.advance.advance) := by
  unfold getCartItems
  rw [getUserCart_existing hcart hw.failing]
  simp [selectRows, hw.advance.failing]

/-- C23 (amended). With a working store that respects the foreign key of `cart_items`:
when the user has a single pending cart, `getCartItems(userId)` returns exactly one entry
per line of that cart, in order, each with the line's id, product id and quantity and
with the summary (name, discounted price, original price, image) of the product row of
that id as it is now, or null when there is none; the line's snapshot price is not in
the entry; the store is unchanged. When the user has no pending cart it returns the
empty list without error, and the store has gained the pending cart that the cart
resolution inserted. -/
theorem getCartItems_lists_lines (userId : Nat) (w : World)
    (hfk : LinesHaveCarts w.db) (hw : NoFaults w) :
    (∀ cart, pendingCarts userId w.db = [cart] →
      ∃ views, (getCartItems userId w).1 = .ok (some views) ∧
        (getCartItems userId w).2.db = w.db ∧
        views.map (fun v => (v.id, v.product_id, v.quantity))
          = (cartLines cart.id w.db).map (fun l => (l.id, l.product_id, l.quantity)) ∧
        ∀ v ∈ views, v.products
          = (w.db.products.find? (fun p => p.id = v.product_id)).map (fun p =>
              { name := p.name, discounted_price := p.discounted_price,
                original_price := p.original_price, image_url := p.image_url })) ∧
    (pendingCarts userId w.db = [] →
      (getCartItems userId w).1 = .ok (some []) ∧
      (getCartItems userId w).2.db
        = { w.db with carts := w.db.carts ++ [newCart userId w] }) := by
  constructor
  · intro cart hcart
    rw [getCartItems_existing hcart hw]
    refine ⟨cartItemViews cart.id w.db, rfl, rfl, ?_, ?_⟩
    · simp [cartItemViews, List.map_map, Function.comp]
    · intro v hv
      simp only [cartItemViews] at hv
      obtain ⟨l, _, rfl⟩ := List.mem_map.mp hv
      rfl
  · intro hnil
    have hl : cartLines (newCart userId w).id w.db = [] :=
      cartLines_fresh hfk (newCart_id_fresh userId w)
    rw [getCartItems_create hnil hw hl]
    exact ⟨rfl, rfl⟩

theorem getCartItems_lists_lines_witness :
    (getCartItems 1 shopWorld).1
      = .ok (some [⟨1, 2, 7, some ⟨"Dumbbell", none, 100, "dumbbell.png"⟩⟩]) ∧
    (getCartItems 2 shopWorld).1 = .ok (some []) ∧
    ((∀ cart, pendingCarts 1 shopWorld.db = [cart] →
      ∃ views, (getCartItems 1 shopWorld).1 = .ok (some views) ∧
        (getCartItems 1 shopWorld).2.db = shopWorld.db ∧
        views.map (fun v => (v.id, v.product_id, v.quantity))
          = (cartLines cart.id shopWorld.db).map (fun l => (l.id, l.product_id, l.quantity)) ∧
        ∀ v ∈ views, v.products
          = (shopWorld.db.products.find? (fun p => p.id = v.product_id)).map (fun p =>
              { name := p.name, discounted_price := p.discounted_price,
                original_price := p.original_price, image_url := p.image_url })) ∧
    (pendingCarts 1 shopWorld.db = [] →
      (getCartItems 1 shopWorld).1 = .ok (some []) ∧
      (getCartItems 1 shopWorld).2.db
        = { shopWorld.db with carts := shopWorld.db.carts ++ [newCart 1 shopWorld] })) :=
  ⟨by decide!, by decide!,
    getCartItems_lists_lines 1 shopWorld (by unfold LinesHaveCarts; decide!)
      (by unfold NoFaults; decide!)⟩

/-- C23 as stated fails: two stores that differ only in the snapshot price of the cart's
line (100 and 50) give the same `getCartItems` result, whose only prices are those of
the product row: the line's snapshot price is not returned. -/
theorem getCartItems_lacks_snapshot_price :
    cartLines 1 shopWorld.db = [⟨1, 1, 7, 2, 100⟩] ∧
    cartLines 1 cheapWorld.db = [⟨1, 1, 7, 2, 50⟩] ∧
    shopWorld.db.products = cheapWorld.db.products ∧
    (getCartItems 1 shopWorld).1 = (getCartItems 1 cheapWorld).1 ∧
    (getCartItems 1 cheapWorld).1
      = .ok (some [⟨1, 2, 7, some ⟨"Dumbbell", none, 100, "dumbbell.png"⟩⟩]) := by
  decide!

/-! ## Uniqueness of (cart, product) -/

theorem getUserCart_noFaults (userId : Nat) {w : World} (hw : NoFaults w) :
    ∃ cart w1, getUserCart userId w = (.ok (some cart), w1) ∧ NoFaults w1 ∧
      w1.db.cart_items = w.db.cart_items ∧ w1.db.products = w.db.products := by
  by_cases hs : ∃ c, pendingCarts userId w.db = [c]
  · obtain ⟨c, hc⟩ := hs
    exact ⟨c, w.advance, getUserCart_existing hc hw.failing, hw.advance, rfl, rfl⟩
  · exact ⟨_, _, getUserCart_not_single (fun c hc => hs ⟨c, hc⟩) hw.failing hw.advance.failing,
      hw.advance.advance.setDb _, rfl, rfl⟩

theorem updateStocks_noFaults (lines : List OrderLine) :
    ∀ w : World, NoFaults w → NoFaults (updateStocks lines w).2 := by
  induction lines with
  | nil => intro w hw; exact hw
  | cons l rest ih =>
    intro w hw
    rw [updateStocks]
    cases hp : w.db.products.filter (fun p => p.id = l.product_id) with
    | nil => simpa [selectSingle, hw.failing, hp] using hw.advance
    | cons x more =>
      cases more with
      | cons y more => simpa [selectSingle, hw.failing, hp] using hw.advance
      | nil =>
        by_cases hneg : x.stock - l.quantity < 0
        · simpa [selectSingle, hw.failing, hp, hneg] using hw.advance
        · simp only [selectSingle, execute, hw.failing, hw.advance.failing, hp, hneg,
            Bool.false_eq_true, if_false, Option.isSome_none]
          exact ih _ (hw.advance.advance.setDb _)

theorem completeOrder_noFaults (orderId : Nat) {w : World} (hw : NoFaults w) :
    NoFaults (completeOrder orderId w).2 := by
  unfold completeOrder
  cases ho : ordersWithLines orderId w.db with
  | nil => simpa [selectSingle, hw.failing, ho] using hw.advance
  | cons o more =>
    cases more with
    | cons o2 more => simpa [selectSingle, hw.failing, ho] using hw.advance
    | nil =>
      by_cases hs : o.status = "Completed"
      · simpa [selectSingle, hw.failing, ho, hs] using hw.advance
      · have hnf := updateStocks_noFaults o.order_items w.advance hw.advance
        generalize hres : updateStocks o.order_items w.advance = res at hnf
        obtain ⟨r, w2⟩ := res
        simp only at hnf
        cases r with
        | some e => simpa [selectSingle, hw.failing, ho, hs, hres] using hnf
        | none =>
          simpa [selectSingle, execute, hw.failing, ho, hs, hres, hnf.failing]
            using hnf.advance.setDb _

theorem getCartItems_noFaults (userId : Nat) {w : World} (hw : NoFaults w) :
    NoFaults (getCartItems userId w).2 := by
  obtain ⟨cart, w1, hg, hnf, _, _⟩ := getUserCart_noFaults userId hw
  unfold getCartItems
  rw [hg]
  simpa [selectRows, hnf.failing] using hnf.advance

theorem removeItemFromCart_noFaults (userId productId : Nat) {w : World} (hw : NoFaults w) :
    NoFaults (removeItemFromCart userId productId w).2 := by
  obtain ⟨cart, w1, hg, hnf, _, _⟩ := getUserCart_noFaults userId hw
  rw [removeItemFromCart_of_cart productId hg hnf.failing]
  exact hnf.advance.setDb _

theorem addItemToCart_noFaults (userId productId : Nat) (quantity : Option Int) {w : World}
    (hw : NoFaults w) : NoFaults (addItemToCart userId productId quantity w).2 := by
  obtain ⟨cart, w1, hg, hnf, _, _⟩ := getUserCart_noFaults userId hw
  by_cases hex : ∃ x, w1.db.products.filter (fun p => p.id = productId) = [x]
  · obtain ⟨product, hprod⟩ := hex
    rw [addItemToCart_eq hg hnf.failing hprod]
    exact hnf.advance.advance.advance.setDb _
  · rw [addItemToCart_no_product hg (Or.inr (fun x hx => hex ⟨x, hx⟩))]
    exact hnf.advance

theorem postCartUpdate_noFaults (userId productId : Option Nat) (quantity : Option Int)
    {w : World} (hw : NoFaults w) :
    NoFaults (postCartUpdate userId productId quantity w).2 := by
  unfold postCartUpdate
  cases userId.filter (fun id => id ≠ 0) with
  | none => exact hw
  | some u =>
    cases productId.filter (fun id => id ≠ 0) with
    | none => exact hw
    | some p =>
      cases quantity.filter (fun q => 0 < q) with
      | none => exact hw
      | some q =>
        simp only
        cases hc : pendingCarts u w.db with
        | nil => simpa [selectSingle, hw.failing, hc] using hw.advance
        | cons c rest =>
          cases rest with
          | cons d rest => simpa [selectSingle, hw.failing, hc] using hw.advance
          | nil =>
            simpa [selectSingle, execute, hw.failing, hw.advance.failing, hc]
              using hw.advance.advance.setDb _

theorem checkoutCart_noFaults_world (userId : Nat) {w : World} (hw : NoFaults w) :
    NoFaults (checkoutCart userId w).2 := by
  by_cases hc : ∃ cart, pendingCarts userId w.db = [cart]
  · obtain ⟨cart, h1⟩ := hc
    by_cases h2 : cartLines cart.id w.db = []
    · rw [checkoutCart_empty_cart h1 h2]
      simpa [hw.failing, hw.advance.failing] using hw.advance.advance
    · rw [checkoutCart_noFaults h1 h2 hw]
      exact hw.advance.advance.advance.advance.advance.advance.setDb _
  · rw [checkoutCart_no_single_cart (fun cart hp => hc ⟨cart, hp⟩)]
    exact hw.advance

theorem run_noFaults (op : CartOp) {w : World} (hw : NoFaults w) : NoFaults (op.run w) := by
  cases op with
  | getUserCart userId =>
    obtain ⟨cart, w1, hg, hnf, _, _⟩ := getUserCart_noFaults userId hw
    simp only [CartOp.run, hg]; exact hnf
  | addItemToCart userId productId quantity =>
    exact addItemToCart_noFaults userId productId quantity hw
  | getCartItems userId => exact getCartItems_noFaults userId hw
  | removeItemFromCart userId productId => exact removeItemFromCart_noFaults userId productId hw
  | postCartUpdate userId productId quantity =>
    exact postCartUpdate_noFaults userId productId quantity hw
  | checkoutCart userId => exact checkoutCart_noFaults_world userId hw
  | completeOrder orderId => exact completeOrder_noFaults orderId hw

theorem linesUnique_of_cart_items {db db2 : Store} (h : db2.cart_items = db.cart_items)
    (hinv : LinesUnique db) : LinesUnique db2 := by
  intro c p
  have := hinv c p
  simpa [productLines, h] using this

theorem linesUnique_filter {db db2 : Store} (keep : CartItem → Bool)
    (h : db2.cart_items = db.cart_items.filter keep) (hinv : LinesUnique db) :
    LinesUnique db2 := by
  intro c p
  have hlen := hinv c p
  simp only [productLines, h, List.filter_filter] at hlen ⊢
  refine le_trans ?_ hlen
  have : List.filter (fun a => (decide (a.cart_id = c) && decide (a.product_id = p)) && keep a)
      db.cart_items
      = List.filter keep (List.filter
          (fun a => decide (a.cart_id = c) && decide (a.product_id = p)) db.cart_items) := by
    rw [List.filter_filter]
    congr 1
    funext a
    exact Bool.and_comm _ _
  rw [this]
  exact List.length_filter_le _ _

theorem linesUnique_map {db db2 : Store} (f : CartItem → CartItem)
    (hf : ∀ i, (f i).cart_id = i.cart_id ∧ (f i).product_id = i.product_id)
    (h : db2.cart_items = db.cart_items.map f) (hinv : LinesUnique db) :
    LinesUnique db2 := by
  intro c p
  have hlen := hinv c p
  have hm := productLines_map_quantity c p db f hf
  simp only [productLines] at hm hlen ⊢
  rw [h, hm, List.length_map]
  exact hlen

theorem linesUnique_append {db db2 : Store} {line : CartItem}
    (hnone : productLines line.cart_id line.product_id db = [])
    (h : db2.cart_items = db.cart_items ++ [line]) (hinv : LinesUnique db) :
    LinesUnique db2 := by
  intro c p
  have hlen := hinv c p
  simp only [productLines, h, List.filter_append] at hlen hnone ⊢
  by_cases hm : line.cart_id = c ∧ line.product_id = p
  · obtain ⟨h1, h2⟩ := hm
    subst h1; subst h2
    rw [hnone]
    simp
  · have : List.filter (fun i => decide (i.cart_id = c) && decide (i.product_id = p)) [line]
        = [] := by
      rw [List.filter_eq_nil_iff]
      intro i hi
      rw [List.mem_singleton.mp hi]
      simpa using hm
    rw [this, List.append_nil]
    exact hlen

theorem theOnly_eq_none {α : Type} {l : List α} (hlen : l.length ≤ 1) (h : theOnly l = none) :
    l = [] := by
  cases l with
  | nil => rfl
  | cons x rest =>
    cases rest with
    | nil => simp [theOnly] at h
    | cons y rest => simp at hlen

theorem linesUnique_lineAdded (cart : Cart) (productId : Nat) (quantity : Int) (price : ℚ)
    {db : Store} (hinv : LinesUnique db) :
    LinesUnique (lineAdded cart productId quantity price false false db) := by
  cases ho : theOnly (productLines cart.id productId db) with
  | some line =>
    cases hs : jsAddInt line.quantity quantity with
    | none => rw [lineAdded_overflow (theOnly_eq_some ho) hs]; exact hinv
    | some sum =>
      rw [lineAdded_update (theOnly_eq_some ho) hs]
      exact linesUnique_map _ (by intro i; by_cases h : i.id = line.id <;> simp [h]) rfl hinv
  | none =>
    have hnil := theOnly_eq_none (hinv cart.id productId) ho
    rw [lineAdded_insert hnil]
    exact @linesUnique_append db _ ⟨nextId (db.cart_items.map (fun i => i.id)), cart.id,
      productId, quantity, price⟩ hnil rfl hinv

theorem checkoutCart_cart_items (userId : Nat) (w : World) :
    (checkoutCart userId w).2.db.cart_items = w.db.cart_items ∨
    ∃ cart : Cart, (checkoutCart userId w).2.db.cart_items
      = w.db.cart_items.filter (fun i => ¬ i.cart_id = cart.id) := by
  by_cases hc : ∃ cart, pendingCarts userId w.db = [cart] ∧ cartLines cart.id w.db ≠ []
  · obtain ⟨cart, h1, h2⟩ := hc
    rw [checkoutCart_eq userId w cart h1 h2]
    by_cases f1 : w.failing = true
    · simp [f1]
    · by_cases f2 : w.advance.failing = true
      · simp [f1, f2]
      · by_cases f3 : w.advance.advance.failing = true
        · simp [f1, f2, f3]
        · by_cases f4 : w.advance.advance.advance.failing = true
          · simp [f1, f2, f3, f4, withOrder]
          · by_cases f5 : w.advance.advance.advance.advance.failing = true <;>
            by_cases f6 : w.advance.advance.advance.advance.advance.failing = true
            · left; simp [f1, f2, f3, f4, f5, f6, withOrderItems, withOrder, afterClear]
            · left; simp [f1, f2, f3, f4, f5, f6, withOrderItems, withOrder, afterClear]
            · right; exact ⟨cart, by
                simp [f1, f2, f3, f4, f5, f6, withOrderItems, withOrder, afterClear]⟩
            · right; exact ⟨cart, by
                simp [f1, f2, f3, f4, f5, f6, withOrderItems, withOrder, afterClear]⟩
  · have h : ∀ cart, pendingCarts userId w.db = [cart] → cartLines cart.id w.db = [] := by
      intro cart h1
      by_contra h2
      exact hc ⟨cart, h1, h2⟩
    rw [(checkoutCart_not_ready h).2]
    exact Or.inl rfl

theorem linesUnique_run (op : CartOp) {w : World} (hw : NoFaults w)
    (hinv : LinesUnique w.db) : LinesUnique (op.run w).db := by
  cases op with
  | getUserCart userId =>
    exact linesUnique_of_cart_items (getUserCart_cart_items userId w) hinv
  | addItemToCart userId productId quantity =>
    obtain ⟨cart, w1, hg, hnf, hci, _⟩ := getUserCart_noFaults userId hw
    have hinv1 : LinesUnique w1.db := linesUnique_of_cart_items hci hinv
    simp only [CartOp.run]
    by_cases hex : ∃ x, w1.db.products.filter (fun p => p.id = productId) = [x]
    · obtain ⟨product, hprod⟩ := hex
      rw [addItemToCart_eq hg hnf.failing hprod, hnf.advance.failing,
        hnf.advance.advance.failing]
      exact linesUnique_lineAdded cart productId _ _ hinv1
    · rw [addItemToCart_no_product hg (Or.inr (fun x hx => hex ⟨x, hx⟩))]
      exact hinv1
  | getCartItems userId =>
    refine linesUnique_of_cart_items ?_ hinv
    simp only [CartOp.run]
    rw [getCartItems_db, getUserCart_cart_items]
  | removeItemFromCart userId productId =>
    have hg : LinesUnique (getUserCart userId w).2.db :=
      linesUnique_of_cart_items (getUserCart_cart_items userId w) hinv
    rcases removeItemFromCart_db userId productId w with h | ⟨cart, _, _, h⟩
    · exact linesUnique_of_cart_items (by simp only [CartOp.run]; rw [h]) hg
    · exact linesUnique_filter _ (by simp only [CartOp.run]; rw [h]) hg
  | postCartUpdate userId productId quantity =>
    rcases postCartUpdate_db userId productId quantity w with
      h | ⟨u, p, q, cart, _, _, _, _, _, _, h⟩
    · exact linesUnique_of_cart_items (by simp only [CartOp.run]; rw [h]) hinv
    · refine linesUnique_map (fun i =>
        if i.cart_id = cart.id ∧ i.product_id = p then { i with quantity := q } else i)
        ?_ (by simp only [CartOp.run]; rw [h]) hinv
      intro i
      by_cases hm : i.cart_id = cart.id ∧ i.product_id = p <;> simp [hm]
  | checkoutCart userId =>
    rcases checkoutCart_cart_items userId w with h | ⟨cart, h⟩
    · exact linesUnique_of_cart_items (by simp only [CartOp.run]; rw [h]) hinv
    · exact linesUnique_filter _ (by simp only [CartOp.run]; rw [h]) hinv
  | completeOrder orderId =>
    obtain ⟨products, orders, h, _⟩ := completeOrder_db orderId w
    exact linesUnique_of_cart_items (by simp only [CartOp.run]; rw [h]) hinv

/-- Uniqueness of (cart, product) with a working store. When no storage call fails,
starting from a store in which no cart has two lines for the same product, after any sequence of `addItemToCart`,
cart-quantity update, `removeItemFromCart` and `checkoutCart` calls (and of
`getUserCart`, `getCartItems` and complete-order calls), each run to completion before
the next, no cart has two lines for the same product. -/
theorem lines_stay_unique (ops : List CartOp) (w : World)
    (hw : NoFaults w) (hinv : LinesUnique w.db) : LinesUnique (runOps ops w).db := by
  unfold runOps
  induction ops generalizing w with
  | nil => exact hinv
  | cons op rest ih => exact ih (op.run w) (run_noFaults op hw) (linesUnique_run op hw hinv)

theorem lines_stay_unique_witness :
    NoFaults multiProductWorld ∧ LinesUnique multiProductWorld.db ∧
    (runOps [.addItemToCart 1 7 none, .addItemToCart 1 8 (some 2), .addItemToCart 1 7 (some 4),
        .postCartUpdate (some 1) (some 8) (some 5), .removeItemFromCart 1 7, .checkoutCart 1,
        .addItemToCart 2 7 none, .addItemToCart 1 8 none, .addItemToCart 1 8 (some 3)] multiProductWorld).db.cart_items
      = [⟨1, 2, 7, 1, 100⟩, ⟨2, 3, 8, 4, 750⟩] ∧
    LinesUnique
      (runOps [.addItemToCart 1 7 none, .addItemToCart 1 8 (some 2), .addItemToCart 1 7 (some 4),
        .postCartUpdate (some 1) (some 8) (some 5), .removeItemFromCart 1 7, .checkoutCart 1,
        .addItemToCart 2 7 none, .addItemToCart 1 8 none, .addItemToCart 1 8 (some 3)] multiProductWorld).db :=
  have hw : NoFaults multiProductWorld := by unfold NoFaults; decide!
  have h0 : LinesUnique multiProductWorld.db :=
    fun _ _ => le_trans (List.length_filter_le _ _) (by decide)
  ⟨hw, h0, by decide!, lines_stay_unique _ multiProductWorld hw h0⟩

/-- C24 at a failing input. The scenario store has no cart with two lines for one
product. `addItemToCart(1, 7, 1)` on it, with the lookup of the existing line reporting
an error (which the code does not read), returns success and has inserted a second line
for (cart 1, product 7): the store no longer has at most one line per cart and
product. -/
theorem lookup_failure_duplicates_line :
    LinesUnique shopWorld.db ∧
    (addItemToCart 1 7 (some 1) (shopWorldFailing [false, false, true])).1
      = .ok { message := "Item added to cart successfully." } ∧
    productLines 1 7 (addItemToCart 1 7 (some 1) (shopWorldFailing [false, false, true])).2.db
      = [⟨1, 1, 7, 2, 100⟩, ⟨2, 1, 7, 1, 100⟩] ∧
    ¬ LinesUnique (addItemToCart 1 7 (some 1) (shopWorldFailing [false, false, true])).2.db := by
  have h : productLines 1 7
      (addItemToCart 1 7 (some 1) (shopWorldFailing [false, false, true])).2.db
      = [⟨1, 1, 7, 2, 100⟩, ⟨2, 1, 7, 1, 100⟩] := by decide!
  refine ⟨fun _ _ => le_trans (List.length_filter_le _ _) (by decide), by decide!, h, ?_⟩
  intro hu
  have := hu 1 7
  rw [h] at this
  simp at this

end GymGarage
